import Mathlib

/-!
# Ticket automation orchestration engine

A shallow embedding of the backend of the ticket resolver
(`services/orchestrator.js`, `services/policy.js`, `routes/tickets.js`) and
the properties of its specification.

Conventions of the embedding.

* JavaScript strings are Lean strings; a character stands for one code unit.
  `toLowerCase` lowers the ASCII letters (every keyword the code scans for is
  ASCII).
* JavaScript numbers are exact decimals `mant / 10 ^ scale`; the code only
  compares them with `>` and interpolates them into messages.
* JavaScript values that reach the draft are `JsVal`s: the code reads draft
  fields with `||` and `?.`, so the difference between a missing, an empty and
  a non-string field is kept.
* The relational store is five tables held as lists in insertion order.  A
  statement executed on a connection inside a transaction works on the
  transaction's view; `query` works on the committed store.
* What the environment decides is read from an `Env`: whether the statement
  issued at the current `tick` fails, and what the current `draw` gives (the id
  `nanoid` returns, the answer of the language model).
-/

namespace TicketResolver

/-! ## JavaScript values -/

/-- A JavaScript number, as the exact decimal `mant / 10 ^ scale`. -/
structure JsNum where
  mant : Int
  scale : Nat
  deriving DecidableEq, Repr

/-- The comparison `a > b` of two numbers. -/
def JsNum.gt (a b : JsNum) : Bool :=
  decide (b.mant * 10 ^ a.scale < a.mant * 10 ^ b.scale)

/-- The comparison `a ≤ b` of two numbers. -/
def JsNum.le (a b : JsNum) : Bool :=
  decide (a.mant * 10 ^ b.scale ≤ b.mant * 10 ^ a.scale)

/-- Drops the zeros at the end of a fraction's digits. -/
def stripZeros (ds : List Char) : List Char :=
  (ds.reverse.dropWhile (fun c => c == '0')).reverse

/-- The digits of a natural number. -/
def natDigits (m : Nat) : List Char := (toString m).data

/-- The text a template literal gives for a number, by the rule of
`Number::toString`. With `n` the position of the decimal point after the first
significant digit (the number lies between 10^(n-1) and 10^n): for
-6 < n ≤ 21 the plain decimal form, otherwise the exponent form, whose digits
are the significant digits of the number. -/
def JsNum.render (n : JsNum) : String :=
  let m := n.mant.natAbs
  let sign := if n.mant < 0 then ['-'] else []
  let point : Int := (natDigits m).length - n.scale
  if m = 0 then "0"
  else if -6 < point ∧ point ≤ 21 then
    let whole := natDigits (m / 10 ^ n.scale)
    let digits := natDigits (m % 10 ^ n.scale)
    let frac := stripZeros (List.replicate (n.scale - digits.length) '0' ++ digits)
    ⟨sign ++ whole ++ (if frac.isEmpty then [] else '.' :: frac)⟩
  else
    let significant := stripZeros (natDigits m)
    let exponent := point - 1
    ⟨sign ++ significant.take 1
      ++ (if significant.length > 1 then '.' :: significant.drop 1 else [])
      ++ ['e'] ++ (if exponent < 0 then ['-'] else ['+']) ++ natDigits exponent.natAbs⟩

/-- A primitive JavaScript value. -/
inductive JsPrim where
  | undefined
  | null
  | bool (b : Bool)
  | num (n : JsNum)
  | str (s : String)
  deriving DecidableEq, Repr

/-- A JavaScript value as it can sit in a draft field: a primitive, or an
array or object of primitives (`confidence` and `evidence` are such
objects). -/
inductive JsVal where
  | undefined
  | null
  | bool (b : Bool)
  | num (n : JsNum)
  | str (s : String)
  | arr (items : List JsPrim)
  | obj (fields : List (String × JsPrim))
  deriving DecidableEq, Repr

/-- Truthiness: `undefined`, `null`, `false`, `0` and the empty string are falsy. -/
def JsVal.truthy : JsVal → Bool
  | .undefined => false
  | .null => false
  | .bool b => b
  | .num n => n.mant != 0
  | .str s => s.data != []
  | .arr _ => true
  | .obj _ => true

/-- The operator `a || b`. -/
def JsVal.or (a b : JsVal) : JsVal := if a.truthy then a else b

/-- A nullable text column or property as a value. -/
def JsVal.ofOption : Option String → JsVal
  | some s => .str s
  | none => .null

/-- What can be thrown. -/
inductive JsErr where
  | typeError
  | syntaxError
  | callError
  | dbError
  deriving DecidableEq, Repr

/-- The receiver of a string method: a call such as `x.toLowerCase()` throws a
`TypeError` unless `x` is a string. -/
def JsVal.asString : JsVal → Except JsErr String
  | .str s => .ok s
  | _ => .error .typeError

/-! ## Strings -/

/-- The lowercase form of one character under `toLowerCase`: the letters A to
Z give a to z; U+0130, the capital I with a dot above, gives "i" followed by
the combining dot U+0307; U+212A, the Kelvin sign, gives "k". These are all
the characters whose lowercase form holds an ASCII character. Any other
character outside ASCII is kept as it is: the method gives characters outside
ASCII for it, so a search for an ASCII keyword finds the same either way. -/
def lowerChar (c : Char) : List Char :=
  if c = Char.ofNat 0x130 then ['i', Char.ofNat 0x307]
  else if c = Char.ofNat 0x212A then ['k']
  else [c.toLower]

/-- The method `toLowerCase`. -/
def toLowerCase (s : String) : String := ⟨s.data.flatMap lowerChar⟩

/-- Whether the characters `pat` start the characters `s`. -/
def startsWithChars : List Char → List Char → Bool
  | [], _ => true
  | _ :: _, [] => false
  | p :: ps, c :: cs => p == c && startsWithChars ps cs

/-- Whether the characters `pat` occur in `s` as a contiguous run. -/
def includesChars : List Char → List Char → Bool
  | [], pat => pat.isEmpty
  | c :: cs, pat => startsWithChars pat (c :: cs) || includesChars cs pat

/-- The method `s.includes(pat)`. -/
def includes (s pat : String) : Bool := includesChars s.data pat.data

/-- Whether the first `n` characters of a text lie below U+10000, so that each
of them is one UTF-16 code unit. -/
def singleUnits (s : String) (n : Nat) : Bool :=
  (s.data.take n).all fun c => c.toNat < 0x10000

/-- The method `s.slice(0, n)`, which keeps the first `n` UTF-16 code units:
the first `n` characters of a text for which `singleUnits s n` holds. -/
def slice0 (s : String) (n : Nat) : String := ⟨s.data.take n⟩

/-- The white space and line terminators of JavaScript, which `trim` strips:
tab, line feed, vertical tab, form feed, carriage return, space, the no-break
space, the other space separators of Unicode, the line and paragraph
separators, and the byte order mark. -/
def isJsSpace (c : Char) : Bool :=
  let n := c.toNat
  (0x9 ≤ n && n ≤ 0xD) || n = 0x20 || n = 0xA0 || n = 0x1680 || (0x2000 ≤ n && n ≤ 0x200A)
    || n = 0x2028 || n = 0x2029 || n = 0x202F || n = 0x205F || n = 0x3000 || n = 0xFEFF

/-- The method `s.trim()`. -/
def trim (s : String) : String :=
  ⟨((s.data.dropWhile isJsSpace).reverse.dropWhile isJsSpace).reverse⟩

/-! ## Classifier heuristics (`services/orchestrator.js`) -/

def inferEnvironment (rawText : String) : String :=
  let lower := toLowerCase rawText
  if includes lower "windows" then "Windows"
  else if includes lower "mac" then "macOS"
  else if includes lower "linux" then "Linux"
  else if includes lower "chrome" then "Chrome"
  else if includes lower "firefox" then "Firefox"
  else "Unknown"

def extractImpact (rawText : String) : String :=
  let lower := toLowerCase rawText
  if includes lower "payment" || includes lower "billing" then "Revenue impact"
  else if includes lower "login" || includes lower "auth" then "Access blocked"
  else if includes lower "down" || includes lower "outage" then "Service unavailable"
  else "Degraded experience"

/-- The draft object. -/
structure Draft where
  problem : JsVal
  environment : JsVal
  reproduction : JsVal
  impact : JsVal
  userIntent : JsVal
  confidence : JsVal
  evidence : JsVal
  deriving DecidableEq, Repr

/-- The object literal `draft` that `intake` builds from the raw text. -/
def heuristicDraft (rawText : String) : Draft where
  problem := .str (slice0 rawText 140)
  environment := .str (inferEnvironment rawText)
  reproduction := .str "User reported issue, steps pending."
  impact := .str (extractImpact rawText)
  userIntent := .str "Resolve and confirm service health."
  confidence := .obj [("environment", .num ⟨42, 2⟩), ("impact", .num ⟨5, 1⟩)]
  evidence := .obj [("environment", .str "Keyword scan"), ("impact", .str "Keyword scan")]

/-- The text of a primitive inside a joined array (`null` and `undefined`
give the empty text there). -/
def JsPrim.toStr : JsPrim → String
  | .undefined => ""
  | .null => ""
  | .bool b => if b then "true" else "false"
  | .num n => n.render
  | .str s => s

/-- String concatenation coerces its operand: what `"..." + v` appends. -/
def JsVal.toStr : JsVal → String
  | .undefined => "undefined"
  | .null => "null"
  | .bool b => if b then "true" else "false"
  | .num n => n.render
  | .str s => s
  | .arr items => ",".intercalate (items.map JsPrim.toStr)
  | .obj _ => "[object Object]"

/-! ## The environment and the store -/

/-- What `llm.invoke` gives: it raises, or it answers with a content text. -/
inductive LlmReply where
  | raised
  | content (text : String)
  deriving DecidableEq, Repr

/-- What `JSON.parse` returns: an object with its fields, or another value. -/
inductive Parsed where
  | value (v : JsVal)
  | object (fields : List (String × JsVal))
  deriving DecidableEq, Repr

/-- The choices of the environment. `fails t` tells whether the statement
issued at tick `t` fails, `nanoid k` is the id of draw `k`, `llm` is the
module-level client (`none` when `buildLlm` returns `null`, that is when no API
key is configured) answering at draw `k`, `jsonParse` is `JSON.parse` (`none`
when it throws). -/
structure Env where
  fails : Nat → Bool
  nanoid : Nat → String
  llm : Option (Nat → String → LlmReply)
  jsonParse : String → Option Parsed

/-- A row of `tickets`. -/
structure TicketRow where
  id : Nat
  ticket_id : Option String
  source : String
  subject : Option String
  body : Option String
  status : String
  priority : String
  severity : String
  created_by : String
  company : Option String
  assignees_json : Option (List String)
  assignee : Option String
  deriving DecidableEq, Repr

/-- A row of `ticket_drafts`; the two JSON columns hold the serialised value. -/
structure DraftRow where
  ticket_id : Nat
  problem : JsVal
  environment : JsVal
  reproduction : JsVal
  impact : JsVal
  user_intent : JsVal
  confidence_json : JsVal
  evidence_json : JsVal
  deriving DecidableEq, Repr

/-- One finding of the debate transcript. -/
structure TranscriptEntry where
  id : String
  agent : String
  message : String
  evidence : Option JsVal
  deriving DecidableEq, Repr

/-- A row of `negotiations`; `transcript_json` holds the serialised transcript. -/
structure NegotiationRow where
  ticket_id : Nat
  phase : String
  transcript_json : List TranscriptEntry
  deriving DecidableEq, Repr

/-- A row of `ticket_links`. -/
structure LinkRow where
  ticket_id : Nat
  duplicate_of_ticket_id : Nat
  confidence : JsNum
  deriving DecidableEq, Repr

/-- A row of `ticket_updates`. -/
structure UpdateRow where
  ticket_id : Nat
  author : String
  message : String
  deriving DecidableEq, Repr

/-- The relational store: each table in insertion order. -/
structure Store where
  tickets : List TicketRow
  ticket_drafts : List DraftRow
  negotiations : List NegotiationRow
  ticket_links : List LinkRow
  ticket_updates : List UpdateRow
  deriving DecidableEq, Repr

/-- The state a handler runs in: the committed store `db`, the view `txn` of
the transaction open on the handler's connection (if any), the number `tick`
of statements issued so far, the number `draw` of ids and answers drawn so far,
and the high-water mark of the auto-increment key of `tickets` (which a
rollback does not lower). -/
structure World where
  db : Store
  txn : Option Store
  tick : Nat
  draw : Nat
  autoInc : Nat
  deriving DecidableEq, Repr

/-- A computation of a handler: it ends with a value or a thrown error, and
with the world it leaves in either case. -/
abbrev Run (α : Type) := World → Except JsErr α × World

/-- Sequencing: an error ends the computation where it is thrown. -/
def Run.bind {α β : Type} (m : Run α) (f : α → Run β) : Run β := fun w =>
  match m w with
  | (.ok a, w1) => f a w1
  | (.error e, w1) => (.error e, w1)

instance : Monad Run where
  pure a := fun w => (.ok a, w)
  bind := Run.bind

/-- The statement `throw e`. -/
def Run.throw {α : Type} (e : JsErr) : Run α := fun w => (.error e, w)

/-- Lifts a pure computation that may throw. -/
def Run.ofExcept {α : Type} : Except JsErr α → Run α
  | .ok a => pure a
  | .error e => Run.throw e

/-- The block `try body catch (err) handler`. -/
def Run.tryCatch {α : Type} (body : Run α) (handler : JsErr → Run α) : Run α := fun w =>
  match body w with
  | (.ok a, w1) => (.ok a, w1)
  | (.error e, w1) => handler e w1

/-- Reads the number of the statement being issued and advances it. -/
def nextTick : Run Nat := fun w => (.ok w.tick, { w with tick := w.tick + 1 })

/-- Reads the number of the current draw and advances it. -/
def nextDraw : Run Nat := fun w => (.ok w.draw, { w with draw := w.draw + 1 })

/-- The call `nanoid()`: the id the environment gives at this draw. -/
def nanoid (env : Env) : Run String := do
  let k ← nextDraw
  pure (env.nanoid k)

/-! ## Intake and clarification (`services/orchestrator.js`) -/

/-- The field a spread of `fields` leaves under `key`, over the earlier `old`. -/
def spreadField (fields : List (String × JsVal)) (key : String) (old : JsVal) : JsVal :=
  (fields.lookup key).getD old

/-- The object `{ ...draft, ...parsed }`, read at the fields of a draft.
Spreading a value that is not an object adds no field of a draft. -/
def spreadDraft (draft : Draft) : Parsed → Draft
  | .value _ => draft
  | .object fields =>
    { problem := spreadField fields "problem" draft.problem
      environment := spreadField fields "environment" draft.environment
      reproduction := spreadField fields "reproduction" draft.reproduction
      impact := spreadField fields "impact" draft.impact
      userIntent := spreadField fields "userIntent" draft.userIntent
      confidence := spreadField fields "confidence" draft.confidence
      evidence := spreadField fields "evidence" draft.evidence }

/-- The prompt `intake` sends. -/
def intakePrompt (rawText : String) : String :=
  "Extract a structured ticket draft with fields: problem, environment, reproduction, impact, userIntent, confidence, evidence. Output JSON only. Raw input: "
    ++ rawText

def intake (env : Env) (rawText : String) : Run Draft :=
  let draft := heuristicDraft rawText
  match env.llm with
  | none => pure draft
  | some invoke =>
    let prompt := intakePrompt rawText
    Run.tryCatch
      (do
        let k ← nextDraw
        match invoke k prompt with
        | .raised => Run.throw .callError
        | .content text =>
          match env.jsonParse text with
          | none => Run.throw .syntaxError
          | some parsed => pure (spreadDraft draft parsed))
      (fun _ => pure draft)

/-- The call `draft.reproduction.includes("pending")` on a truthy value:
strings search a substring, arrays search an element, anything else has no
such method. -/
def includesPending : JsVal → Except JsErr Bool
  | .str s => .ok (includes s "pending")
  | .arr items => .ok (items.contains (.str "pending"))
  | _ => .error .typeError

def clarify (draft : Draft) : Except JsErr (List String) := do
  let questions : List String := []
  let questions :=
    if !draft.environment.truthy || draft.environment == .str "Unknown" then
      questions ++ ["Which OS and app version are you using?"]
    else questions
  let pending ←
    (if !draft.reproduction.truthy then pure true else includesPending draft.reproduction)
  let questions :=
    if pending then questions ++ ["Can you share the exact steps to reproduce?"] else questions
  let questions :=
    if !draft.impact.truthy then questions ++ ["How many users or teams are impacted?"]
    else questions
  let questions :=
    if questions.length == 0 then questions ++ ["Any recent changes before the issue started?"]
    else questions
  pure (questions.take 3)

/-! ## Triage (`services/orchestrator.js`) -/

/-- The result of `detectDuplicate`; `null` is `none`. -/
structure DuplicateHint where
  «match» : Option Nat
  confidence : JsNum
  deriving DecidableEq, Repr

def detectDuplicate (rawText : String) : DuplicateHint :=
  if includes (toLowerCase rawText) "login" then { «match» := some 8142, confidence := ⟨86, 2⟩ }
  else { «match» := none, confidence := ⟨0, 1⟩ }

/-- The result of `assessSeverity`. -/
structure Severity where
  severity : String
  slaRisk : JsNum
  deriving DecidableEq, Repr

def assessSeverity (rawText : String) (impact : JsVal) : Severity :=
  let lower := toLowerCase rawText
  if includes lower "outage" || impact == .str "Service unavailable" then
    { severity := "S1", slaRisk := ⟨85, 2⟩ }
  else if includes lower "payment" || includes lower "billing" then
    { severity := "S2", slaRisk := ⟨65, 2⟩ }
  else { severity := "S3", slaRisk := ⟨3, 1⟩ }

/-- The expression `draft?.field`: `undefined` when there is no draft. -/
def optField (draft : Option Draft) (field : Draft → JsVal) : JsVal :=
  match draft with
  | some d => field d
  | none => .undefined

def inferPriority (draft : Option Draft) : Except JsErr String := do
  let impact := (optField draft Draft.impact).or (.str "")
  let text ← ((optField draft Draft.problem).or (.str "")).asString
  let severity := (assessSeverity text impact).severity
  if severity == "S1" then pure "Critical"
  else if severity == "S2" then pure "High"
  else if severity == "S3" then pure "Medium"
  else pure "Low"

def routeTicket (rawText : String) : String :=
  let lower := toLowerCase rawText
  if includes lower "billing" || includes lower "payment" then "billing"
  else if includes lower "auth" || includes lower "login" then "auth"
  else if includes lower "infra" || includes lower "outage" then "infra"
  else if includes lower "ui" || includes lower "frontend" then "frontend"
  else "backend"

/-- The method `toUpperCase` on the first character of a team name. -/
def capitalize (s : String) : String :=
  match s.data with
  | [] => ""
  | c :: cs => ⟨c.toUpper :: cs⟩

def inferAssignees (draftOrText : String ⊕ Option Draft) : Except JsErr (List String) := do
  let text ← match draftOrText with
    | .inl s => pure s
    | .inr d => ((optField d Draft.problem).or (.str "")).asString
  let team := routeTicket text
  let label := capitalize team ++ " Team"
  pure [label]

def proposeResolution (title : JsVal) (draft : Option Draft) : String :=
  let core := (optField draft Draft.problem).or title
  "Workaround now: capture logs and confirm the affected endpoints. "
    ++ "Escalation next: assign to on-call if metrics stay degraded. "
    ++ "Summary: "
    ++ core.toStr

/-- The verdict `managerDebate` returns. -/
structure Verdict where
  severity : String
  slaRisk : JsNum
  team : String
  status : String
  requiresHuman : Bool
  duplicateOf : Option Nat
  duplicateConfidence : JsNum
  transcript : List TranscriptEntry
  deriving DecidableEq, Repr

/-- Truthiness of `duplicate.match` and of `debate.duplicateOf`. -/
def truthyId : Option Nat → Bool
  | some n => n != 0
  | none => false

/-- The function `managerDebate({ ticket, draft })`; of `ticket` it reads only
`ticket.title`, which is what `title` stands for.  The text methods of
`detectDuplicate`, `assessSeverity` and `routeTicket` throw when the base text
is not a string, before any id is drawn. -/
def managerDebate (env : Env) (title : JsVal) (draft : Option Draft) : Run Verdict := do
  let baseText := (optField draft Draft.problem).or title
  let text ← Run.ofExcept baseText.asString
  let duplicate := detectDuplicate text
  let impact := (optField draft Draft.impact).or (.str "Unknown impact")
  let severity := assessSeverity text impact
  let team := routeTicket text
  let id1 ← nanoid env
  let e1 : TranscriptEntry :=
    { id := id1
      agent := "Duplicate Detective Agent"
      message :=
        if truthyId duplicate.«match» then
          "Potential duplicate of #" ++ toString (duplicate.«match».getD 0) ++ " ("
            ++ duplicate.confidence.render ++ ")"
        else "No strong duplicate signal"
      evidence := some (.str (if truthyId duplicate.«match» then "Keyword overlap" else "None")) }
  let id2 ← nanoid env
  let e2 : TranscriptEntry :=
    { id := id2
      agent := "Severity + SLA Risk Agent"
      message := "Severity " ++ severity.severity ++ " with SLA risk " ++ severity.slaRisk.render
      evidence := some impact }
  let id3 ← nanoid env
  let e3 : TranscriptEntry :=
    { id := id3
      agent := "Routing Agent"
      message := "Route to " ++ team ++ " team. Automation lane: no"
      evidence := none }
  let id4 ← nanoid env
  let e4 : TranscriptEntry :=
    { id := id4
      agent := "Manager Agent"
      message := "Consensus reached with evidence from draft keywords."
      evidence := none }
  pure
    { severity := severity.severity
      slaRisk := severity.slaRisk
      team := team
      status := "triaged"
      requiresHuman := true
      duplicateOf := duplicate.«match»
      duplicateConfidence := duplicate.confidence
      transcript := [e1, e2, e3, e4] }

/-! ## Escalation policy (`services/policy.js`) -/

/-- The result of `applyEscalation`. -/
structure Escalation where
  escalate : Bool
  message : String
  deriving DecidableEq, Repr

def applyEscalation (slaRisk : JsNum) : Escalation :=
  if slaRisk.gt ⟨7, 1⟩ then
    { escalate := true
      message := "SLA risk above threshold. Auto-page on-call and raise comms urgency." }
  else { escalate := false, message := "No escalation required." }

/-! ## Statements on the store -/

/-- The writing statements the handlers issue. -/
inductive Stmt where
  | insertTicket (row : TicketRow)
  | insertDraft (row : DraftRow)
  | updateSeverityStatus (severity status : String) (id : Nat)
  | updateStatus (status : String) (id : Nat)
  | insertNegotiation (row : NegotiationRow)
  | insertLink (row : LinkRow)
  | insertUpdate (row : UpdateRow)
  deriving DecidableEq, Repr

/-- The effect of a statement on a store: inserts append a row, updates
rewrite the rows with the given `id`. -/
def Stmt.apply : Stmt → Store → Store
  | .insertTicket row, s => { s with tickets := s.tickets ++ [row] }
  | .insertDraft row, s => { s with ticket_drafts := s.ticket_drafts ++ [row] }
  | .updateSeverityStatus severity status id, s =>
    { s with tickets := s.tickets.map fun t =>
        if t.id = id then { t with severity := severity, status := status } else t }
  | .updateStatus status id, s =>
    { s with tickets := s.tickets.map fun t =>
        if t.id = id then { t with status := status } else t }
  | .insertNegotiation row, s => { s with negotiations := s.negotiations ++ [row] }
  | .insertLink row, s => { s with ticket_links := s.ticket_links ++ [row] }
  | .insertUpdate row, s => { s with ticket_updates := s.ticket_updates ++ [row] }

/-- The store a statement on the connection sees: the view of the open
transaction, or the committed store when none is open. -/
def World.view (w : World) : Store := w.txn.getD w.db

/-- Writes through the connection: into the open transaction, or straight
into the committed store when none is open. -/
def World.write (w : World) (st : Stmt) : World :=
  match w.txn with
  | some s => { w with txn := some (st.apply s) }
  | none => { w with db := st.apply w.db }

/-- The call `connection.execute(sql, params)` for a writing statement: it
throws when the environment makes it fail, and writes otherwise. -/
def execute (env : Env) (st : Stmt) : Run Unit := do
  let t ← nextTick
  if env.fails t then Run.throw .dbError
  else fun w => (.ok (), w.write st)

/-- Modelled from the spec: the helper `query` of the module `db`, which is not
part of the sources at hand.  It runs one statement on the pool, outside any
transaction: a writing statement takes effect on the committed store at once
and cannot be rolled back; it throws when the environment makes it fail. -/
def query (env : Env) (st : Stmt) : Run Unit := do
  let t ← nextTick
  if env.fails t then Run.throw .dbError
  else fun w => (.ok (), { w with db := st.apply w.db })

/-- The call `connection.beginTransaction()`. -/
def beginTransaction (env : Env) : Run Unit := do
  let t ← nextTick
  if env.fails t then Run.throw .dbError
  else fun w => (.ok (), { w with txn := some w.db })

/-- The call `connection.commit()`: the view of the transaction becomes the
committed store. -/
def commit (env : Env) : Run Unit := do
  let t ← nextTick
  if env.fails t then Run.throw .dbError
  else fun w => (.ok (), { w with db := w.view, txn := none })

/-- The call `connection.rollback()`: the view of the transaction is dropped. -/
def rollback : Run Unit := fun w => (.ok (), { w with txn := none })

/-- A reading statement issued through `query`: it returns what `select`
finds in the committed store.  Reading statements are taken to succeed. -/
def queryRows {α : Type} (select : Store → α) : Run α := fun w => (.ok (select w.db), w)

/-! ## The controller (`routes/tickets.js`) -/

/-- The fields `runAutomationForTicket` reads of its `ticketRow`. -/
structure TicketRef where
  id : Nat
  subject : Option String
  body : Option String
  deriving DecidableEq, Repr

/-- The expression `a || b` for a nullable text `a` and a text `b`. -/
def textOr (a : Option String) (b : String) : String :=
  match a with
  | some s => if s.data != [] then s else b
  | none => b

/-- The row the draft insert writes for the ticket `ticketRowId`. -/
def draftInsertRow (ticketRowId : Nat) (draft : Draft) : DraftRow where
  ticket_id := ticketRowId
  problem := draft.problem
  environment := draft.environment
  reproduction := draft.reproduction
  impact := draft.impact
  user_intent := draft.userIntent
  confidence_json := draft.confidence.or (.obj [])
  evidence_json := draft.evidence.or (.obj [])

/-- A row of `ticket_drafts` read as a draft object: its properties are the
columns, so it has no `userIntent`, `confidence` or `evidence`. -/
def DraftRow.toDraft (row : DraftRow) : Draft where
  problem := row.problem
  environment := row.environment
  reproduction := row.reproduction
  impact := row.impact
  userIntent := .undefined
  confidence := .undefined
  evidence := .undefined

/-- What `runAutomationForTicket` returns. -/
structure AutomationResult where
  status : String
  resolution : Option String
  deriving DecidableEq, Repr

def runAutomationForTicket (env : Env) (ticketRow : TicketRef) (draftRow : Option Draft)
    (actorLabel : String) : Run AutomationResult := do
  let ticketRowId := ticketRow.id
  let draft ← (match draftRow with
    | some d => pure d
    | none => intake env (textOr ticketRow.body (textOr ticketRow.subject "")))
  (if draftRow.isNone then execute env (.insertDraft (draftInsertRow ticketRowId draft))
    else pure ())
  let debate ← managerDebate env (JsVal.ofOption ticketRow.subject) (some draft)
  let statusAfterDebate := if debate.requiresHuman then "pending_info" else "in_progress"
  execute env (.updateSeverityStatus debate.severity statusAfterDebate ticketRowId)
  execute env (.insertNegotiation
    { ticket_id := ticketRowId, phase := "triage", transcript_json := debate.transcript })
  (if truthyId debate.duplicateOf then
    execute env (.insertLink
      { ticket_id := ticketRowId
        duplicate_of_ticket_id := debate.duplicateOf.getD 0
        confidence := debate.duplicateConfidence })
  else pure ())
  let escalation := applyEscalation debate.slaRisk
  (if escalation.escalate then
    execute env (.insertUpdate
      { ticket_id := ticketRowId, author := "Policy Engine", message := escalation.message })
  else pure ())
  if debate.requiresHuman then do
    execute env (.insertUpdate
      { ticket_id := ticketRowId
        author := actorLabel
        message := "Approval required to continue automation." })
    pure { status := "pending_info", resolution := none }
  else do
    let resolution := proposeResolution (JsVal.ofOption ticketRow.subject) (some draft)
    execute env (.updateStatus "resolved" ticketRowId)
    execute env (.insertUpdate
      { ticket_id := ticketRowId, author := "Resolution Agent", message := resolution })
    pure { status := "resolved", resolution := some resolution }

/-- The fields of a row of `tickets` that the controller reads. -/
def TicketRow.toRef (row : TicketRow) : TicketRef where
  id := row.id
  subject := row.subject
  body := row.body

/-- The body of the loop of `POST /automate-open` over the open tickets, with
the two counters. -/
def automateOpenLoop (env : Env) : List TicketRow → Nat → Nat → Run (Nat × Nat)
  | [], processed, skipped => pure (processed, skipped)
  | ticketRow :: rest, processed, skipped => do
    let existingNegotiations ← queryRows fun db =>
      (db.negotiations.filter fun n => n.ticket_id = ticketRow.id).take 1
    if existingNegotiations.length > 0 then
      automateOpenLoop env rest processed (skipped + 1)
    else do
      let draftRows ← queryRows fun db =>
        db.ticket_drafts.filter fun d => d.ticket_id = ticketRow.id
      let committed ← Run.tryCatch
        (do
          beginTransaction env
          let _ ← runAutomationForTicket env ticketRow.toRef
            (draftRows.head?.map DraftRow.toDraft) "Automation Runner"
          commit env
          pure true)
        (fun _ => do
          rollback
          pure false)
      automateOpenLoop env rest (if committed then processed + 1 else processed) skipped

/-- The response of `POST /automate-open`. -/
structure BatchResult where
  processed : Nat
  skipped : Nat
  deriving DecidableEq, Repr

/-- The handler of `POST /automate-open`. -/
def automateOpen (env : Env) : Run BatchResult := do
  let openTickets ← queryRows fun db => db.tickets.filter fun t => t.status = "open"
  if openTickets.length == 0 then pure { processed := 0, skipped := 0 }
  else do
    let (processed, skipped) ← automateOpenLoop env openTickets 0 0
    pure { processed := processed, skipped := skipped }

/-- The body of `POST /` and the user of the request. -/
structure CreateRequest where
  rawText : String
  priority : Option String
  company : Option String
  assignees : Option (List String)
  title : Option String
  type : Option String
  userEmail : Option String
  deriving DecidableEq, Repr

/-- The responses of the handlers. -/
inductive Response where
  | badRequest
  | notFound
  | created (id : Nat) (draft : Draft)
  | failed (error : String)
  | triaged (debate : Verdict) (escalation : Escalation)
  | resolved (resolution : String)
  | approved (resolution : String)
  deriving DecidableEq, Repr

/-- The SQL expression `SUBSTRING_INDEX(s, '-', -1)`: what follows the last
hyphen of `s` (all of `s` when it has none). -/
def substringIndexLast (s : List Char) : List Char :=
  (s.reverse.takeWhile fun c => c != '-').reverse

/-- The SQL expression `CAST(s AS UNSIGNED)`: the number written by the
leading digits of `s`, 0 when there is none. -/
def castUnsigned (s : List Char) : Nat :=
  (s.takeWhile Char.isDigit).foldl (fun n c => 10 * n + (c.toNat - '0'.toNat)) 0

/-- The aggregate `MAX(CASE WHEN ticket_id LIKE 'pfx-%' THEN CAST(... AS
UNSIGNED) ELSE 0 END)`, 0 standing for the `NULL` of an empty table. -/
def maxTicket (pfx : String) (tickets : List TicketRow) : Nat :=
  (tickets.map fun t =>
    match t.ticket_id with
    | some n =>
      if startsWithChars (pfx.data ++ ['-']) n.data then castUnsigned (substringIndexLast n.data)
      else 0
    | none => 0).foldl max 0

/-- The aggregate `MAX(id)`, 0 standing for the `NULL` of an empty table. -/
def maxRow (tickets : List TicketRow) : Nat :=
  (tickets.map fun t => t.id).foldl max 0

/-- The select of `POST /` on the connection: both aggregates over the view of
the transaction. -/
def executeMax (env : Env) (pfx : String) : Run (Nat × Nat) := do
  let t ← nextTick
  if env.fails t then Run.throw .dbError
  else fun w => (.ok (maxTicket pfx w.view.tickets, maxRow w.view.tickets), w)

/-- The insert of `POST /` into `tickets`: the store gives the row the next
value of the auto-increment key, which the call returns as `insertId`. -/
def executeInsertTicket (env : Env) (row : Nat → TicketRow) : Run Nat := do
  let t ← nextTick
  if env.fails t then Run.throw .dbError
  else fun w =>
    let insertId := max w.autoInc (maxRow w.view.tickets) + 1
    (.ok insertId, { w.write (.insertTicket (row insertId)) with autoInc := insertId })

/-- The title `POST /` gives the ticket.  The `slice` of a truthy `problem`
that is not a string throws. -/
def resolveTitle (title : Option String) (draft : Draft) : Except JsErr String :=
  match title with
  | some t =>
    if (trim t).data.length > 0 then pure (trim t)
    else if draft.problem.truthy then do
      let p ← draft.problem.asString
      pure (slice0 p 90)
    else pure "New incident"
  | none =>
    if draft.problem.truthy then do
      let p ← draft.problem.asString
      pure (slice0 p 90)
    else pure "New incident"

/-- The handler of `POST /`. -/
def createTicket (env : Env) (req : CreateRequest) : Run Response :=
  if req.rawText.data = [] then pure .badRequest
  else do
    let draft ← intake env req.rawText
    let resolvedPriority ←
      (if req.priority = some "Automatic" || textOr req.priority "" = "" then
        Run.ofExcept (inferPriority (some draft))
      else pure (textOr req.priority ""))
    let normalizedPriority := toLowerCase resolvedPriority
    let resolvedAssignees ← (match req.assignees with
      | none => Run.ofExcept (inferAssignees (.inr (some draft)))
      | some as =>
        if as.contains "Automatic" then Run.ofExcept (inferAssignees (.inr (some draft)))
        else pure as)
    let resolvedTitle ← Run.ofExcept (resolveTitle req.title draft)
    let pfx := if req.type = some "TSK" then "TSK" else "INC"
    Run.tryCatch
      (do
        beginTransaction env
        let (maxTicket, maxRow) ← executeMax env pfx
        let base := if pfx = "INC" then max maxTicket maxRow else maxTicket
        let nextId := base + 1
        let ticketNumber := pfx ++ "-" ++ toString nextId
        let ticketRowId ← executeInsertTicket env fun insertId =>
          { id := insertId
            ticket_id := some ticketNumber
            source := "web"
            subject := some resolvedTitle
            body := some req.rawText
            status := "open"
            priority := normalizedPriority
            severity := "low"
            created_by := textOr req.userEmail "unknown"
            company := if textOr req.company "" = "" then none else req.company
            assignees_json := some resolvedAssignees
            assignee := resolvedAssignees.head? }
        execute env (.insertDraft (draftInsertRow ticketRowId draft))
        let _ ← runAutomationForTicket env
          { id := ticketRowId, subject := some resolvedTitle, body := some req.rawText }
          (some draft) "Approval Gate"
        commit env
        pure (.created ticketRowId draft))
      (fun _ => do
        rollback
        pure (.failed "Failed to create ticket"))

/-- The handler of `POST /:id/triage`.  The object it hands to `managerDebate`
as `ticket` is the row of `tickets`, which has a `subject` and no `title`. -/
def triage (env : Env) (ticketId : Nat) : Run Response := do
  let ticketRows ← queryRows fun db => db.tickets.filter fun t => t.id = ticketId
  if ticketRows.length == 0 then pure .notFound
  else do
    let draftRows ← queryRows fun db => db.ticket_drafts.filter fun d => d.ticket_id = ticketId
    let draft := draftRows.head?.map DraftRow.toDraft
    let debate ← managerDebate env .undefined draft
    query env (.updateSeverityStatus debate.severity debate.status ticketId)
    query env (.insertNegotiation
      { ticket_id := ticketId, phase := "triage", transcript_json := debate.transcript })
    (if truthyId debate.duplicateOf then
      query env (.insertLink
        { ticket_id := ticketId
          duplicate_of_ticket_id := debate.duplicateOf.getD 0
          confidence := debate.duplicateConfidence })
    else pure ())
    let escalation := applyEscalation debate.slaRisk
    (if escalation.escalate then
      query env (.insertUpdate
        { ticket_id := ticketId, author := "Policy Engine", message := escalation.message })
    else pure ())
    pure (.triaged debate escalation)

/-- The handler of `POST /:id/resolve`; as in `triage`, the `ticket` it hands
on has no `title`. -/
def resolve (env : Env) (ticketId : Nat) : Run Response := do
  let ticketRows ← queryRows fun db => db.tickets.filter fun t => t.id = ticketId
  if ticketRows.length == 0 then pure .notFound
  else do
    let draftRows ← queryRows fun db => db.ticket_drafts.filter fun d => d.ticket_id = ticketId
    let resolution := proposeResolution .undefined (draftRows.head?.map DraftRow.toDraft)
    query env (.updateStatus "resolved" ticketId)
    query env (.insertUpdate
      { ticket_id := ticketId, author := "Resolution Agent", message := resolution })
    pure (.resolved resolution)

/-- The handler of `POST /:id/approve`, for the user `userEmail`. -/
def approve (env : Env) (ticketId : Nat) (userEmail : Option String) : Run Response := do
  let ticketRows ← queryRows fun db => db.tickets.filter fun t => t.id = ticketId
  match ticketRows.head? with
  | none => pure .notFound
  | some row =>
    let draftRows ← queryRows fun db => db.ticket_drafts.filter fun d => d.ticket_id = ticketId
    let title := JsVal.ofOption row.subject
    let draft := draftRows.head?.map DraftRow.toDraft
    Run.tryCatch
      (do
        beginTransaction env
        execute env (.updateStatus "in_progress" ticketId)
        execute env (.insertUpdate
          { ticket_id := ticketId
            author := "Approval Gate"
            message := "Approved by " ++ textOr userEmail "user" ++ ". Resuming automation." })
        let resolution := proposeResolution title draft
        execute env (.updateStatus "resolved" ticketId)
        execute env (.insertUpdate
          { ticket_id := ticketId, author := "Resolution Agent", message := resolution })
        commit env
        pure (.approved resolution))
      (fun _ => do
        rollback
        pure (.failed "Failed to approve ticket"))

/-! ## Descriptions of the effects, used to state the properties -/

deriving instance DecidableEq for Except

/-- The statements `stmts` applied to a store, in order. -/
def Store.applyAll (stmts : List Stmt) (s : Store) : Store :=
  stmts.foldl (fun acc st => st.apply acc) s

/-- The statements `stmts` written through the connection, in order. -/
def World.writeAll (w : World) (stmts : List Stmt) : World :=
  stmts.foldl World.write w

/-- The world after the statements `stmts` were issued and all succeeded. -/
def World.advance (w : World) (stmts : List Stmt) : World :=
  { w.writeAll stmts with tick := w.tick + stmts.length }

/-- The world with its number of draws set to `k`. -/
def World.withDraw (w : World) (k : Nat) : World := { w with draw := k }

/-- Whether the store holds a negotiation record for the ticket `id`. -/
def Store.hasNegotiation (s : Store) (id : Nat) : Bool :=
  s.negotiations.any fun n => n.ticket_id = id

/-- The open tickets of a store, as the batch runner selects them. -/
def Store.openTickets (s : Store) : List TicketRow :=
  s.tickets.filter fun t => t.status = "open"

/-- The text `managerDebate` assesses: the draft's problem, or the title when
the draft has no problem. -/
def baseText (title : JsVal) (draft : Option Draft) : JsVal :=
  (optField draft Draft.problem).or title

/-- The impact `managerDebate` shows to the severity rule. -/
def debateImpact (draft : Option Draft) : JsVal :=
  (optField draft Draft.impact).or (.str "Unknown impact")

/-- The verdict of `managerDebate` on the text `text` and the impact `impact`,
its four ids being the draws `k` to `k + 3`. -/
def debateVerdict (env : Env) (text : String) (impact : JsVal) (k : Nat) : Verdict :=
  let duplicate := detectDuplicate text
  let severity := assessSeverity text impact
  let team := routeTicket text
  { severity := severity.severity
    slaRisk := severity.slaRisk
    team := team
    status := "triaged"
    requiresHuman := true
    duplicateOf := duplicate.«match»
    duplicateConfidence := duplicate.confidence
    transcript :=
      [{ id := env.nanoid k
         agent := "Duplicate Detective Agent"
         message :=
           if truthyId duplicate.«match» then
             "Potential duplicate of #" ++ toString (duplicate.«match».getD 0) ++ " ("
               ++ duplicate.confidence.render ++ ")"
           else "No strong duplicate signal"
         evidence :=
           some (.str (if truthyId duplicate.«match» then "Keyword overlap" else "None")) },
       { id := env.nanoid (k + 1)
         agent := "Severity + SLA Risk Agent"
         message :=
           "Severity " ++ severity.severity ++ " with SLA risk " ++ severity.slaRisk.render
         evidence := some impact },
       { id := env.nanoid (k + 2)
         agent := "Routing Agent"
         message := "Route to " ++ team ++ " team. Automation lane: no"
         evidence := none },
       { id := env.nanoid (k + 3)
         agent := "Manager Agent"
         message := "Consensus reached with evidence from draft keywords."
         evidence := none }] }

/-- A computation that neither issues a statement nor touches the store. -/
def Run.Quiet {α : Type} (m : Run α) : Prop :=
  ∀ w, (m w).2.db = w.db ∧ (m w).2.txn = w.txn ∧ (m w).2.tick = w.tick ∧
    (m w).2.autoInc = w.autoInc

/-- A computation that, inside a transaction, leaves the committed store
alone and keeps the transaction open, that only moves the tick forward, and
that ends well only if none of the statements it issued failed. -/
def Run.Safe {α : Type} (env : Env) (m : Run α) : Prop :=
  ∀ w, w.tick ≤ (m w).2.tick ∧
    (w.txn.isSome → (m w).2.db = w.db ∧ (m w).2.txn.isSome) ∧
    (∀ a, (m w).1 = .ok a → ∀ t, w.tick ≤ t → t < (m w).2.tick → env.fails t = false)

/-- A computation that closes the transaction it runs in: it ends well only
if none of its statements failed, and then no transaction is left open; it
ends with an error only with the committed store as it was. -/
def Run.Closing {α : Type} (env : Env) (m : Run α) : Prop :=
  ∀ w, w.txn.isSome → w.tick ≤ (m w).2.tick ∧
    match (m w).1 with
    | .ok _ => (m w).2.txn = none ∧ ∀ t, w.tick ≤ t → t < (m w).2.tick → env.fails t = false
    | .error _ => (m w).2.db = w.db

/-- A computation that is all or nothing on the committed store: it leaves
the committed store as it was, or none of the statements it issued failed. -/
def Run.Atomic {α : Type} (env : Env) (m : Run α) : Prop :=
  ∀ w, (m w).2.db = w.db ∨ ∀ t, w.tick ≤ t → t < (m w).2.tick → env.fails t = false

/-- The writes of one run of the controller as the specification lists them:
(1) the draft, when none was supplied; (2) severity and status of the ticket;
(3) the negotiation; (4) the link, when a duplicate is reported; (5) the
update of the policy engine, when the policy escalates; (6) the request for
approval. -/
def automationWrites (ticketRowId : Nat) (supplied : Bool) (draft : Draft) (debate : Verdict)
    (actorLabel : String) : List Stmt :=
  (if supplied then [] else [.insertDraft (draftInsertRow ticketRowId draft)])
    ++ [.updateSeverityStatus debate.severity
          (if debate.requiresHuman then "pending_info" else "in_progress") ticketRowId,
        .insertNegotiation
          { ticket_id := ticketRowId, phase := "triage", transcript_json := debate.transcript }]
    ++ (if truthyId debate.duplicateOf then
          [.insertLink
            { ticket_id := ticketRowId
              duplicate_of_ticket_id := debate.duplicateOf.getD 0
              confidence := debate.duplicateConfidence }]
        else [])
    ++ (if (applyEscalation debate.slaRisk).escalate then
          [.insertUpdate
            { ticket_id := ticketRowId
              author := "Policy Engine"
              message := (applyEscalation debate.slaRisk).message }]
        else [])
    ++ [.insertUpdate
          { ticket_id := ticketRowId
            author := actorLabel
            message := "Approval required to continue automation." }]

/-- The writes of one approval as the specification lists them. -/
def approvalWrites (ticketId : Nat) (userEmail : Option String) (resolution : String) :
    List Stmt :=
  [.updateStatus "in_progress" ticketId,
   .insertUpdate
     { ticket_id := ticketId
       author := "Approval Gate"
       message := "Approved by " ++ textOr userEmail "user" ++ ". Resuming automation." },
   .updateStatus "resolved" ticketId,
   .insertUpdate { ticket_id := ticketId, author := "Resolution Agent", message := resolution }]

/-- The value of a number, as a rational. -/
def JsNum.toRat (n : JsNum) : ℚ := n.mant / 10 ^ n.scale

/-- The numbers among the fields of an object: the scores of a `confidence`
object. -/
def confidenceScores : JsVal → List JsNum
  | .obj fields => fields.filterMap fun kv =>
      match kv.2 with
      | .num n => some n
      | _ => none
  | _ => []

/-- Whether a number lies in the interval from 0 to 1. -/
def JsNum.inUnit (n : JsNum) : Bool := JsNum.le ⟨0, 0⟩ n && JsNum.le n ⟨1, 0⟩

/-- A verdict with the ids of its transcript entries blanked. -/
def Verdict.withoutIds (v : Verdict) : Verdict :=
  { v with transcript := v.transcript.map fun e => { e with id := "" } }

/-- Whether a reproduction note is a text that contains "pending". -/
def containsPending : JsVal → Bool
  | .str s => includes s "pending"
  | _ => false

/-- The questions the specification lists for the three gaps, in its order. -/
def gapQuestions (environmentGap reproductionGap impactGap : Bool) : List String :=
  (if environmentGap then ["Which OS and app version are you using?"] else [])
    ++ (if reproductionGap then ["Can you share the exact steps to reproduce?"] else [])
    ++ (if impactGap then ["How many users or teams are impacted?"] else [])

/-- The statuses of the lifecycle. -/
def canonicalStatus (status : String) : Bool :=
  status = "open" || status = "pending_info" || status = "in_progress" || status = "resolved"

/-! ## Sample inputs -/

/-- An environment in which no statement fails and no language model is configured. -/
def quietEnv : Env where
  fails := fun _ => false
  nanoid := fun k => "id" ++ toString k
  llm := none
  jsonParse := fun _ => none

/-- The environment `quietEnv` with the statement of tick `t` failing. -/
def failingAt (t : Nat) : Env := { quietEnv with fails := fun k => k = t }

/-- An open ticket, as `POST /` stores it before automation. -/
def sampleTicket (id : Nat) (text : String) : TicketRow where
  id := id
  ticket_id := some ("INC-" ++ toString id)
  source := "web"
  subject := some text
  body := some text
  status := "open"
  priority := "medium"
  severity := "low"
  created_by := "user@example.com"
  company := none
  assignees_json := some ["Backend Team"]
  assignee := some "Backend Team"

/-- A world over the store `s` with no transaction open. -/
def worldOf (s : Store) : World := { db := s, txn := none, tick := 0, draw := 0, autoInc := 0 }

/-- The empty store. -/
def emptyStore : Store where
  tickets := []
  ticket_drafts := []
  negotiations := []
  ticket_links := []
  ticket_updates := []

/-- A store with two open tickets and no other row. -/
def twoOpenStore : Store :=
  { emptyStore with
    tickets := [sampleTicket 1 "Login page outage since 9am", sampleTicket 2 "Export is slow"] }

/-- A request to create a ticket from `rawText`, every other field left out. -/
def sampleRequest (rawText : String) : CreateRequest where
  rawText := rawText
  priority := none
  company := none
  assignees := none
  title := none
  type := none
  userEmail := none

/-- The world after `POST /` created a first ticket from "Export is slow":
the ticket waits for approval and has its draft. -/
def pendingWorld : World :=
  (createTicket quietEnv (sampleRequest "Export is slow") (worldOf emptyStore)).2

/-- The row of the ticket of `pendingWorld`. -/
def pendingTicket : TicketRow where
  id := 1
  ticket_id := some "INC-1"
  source := "web"
  subject := some "Export is slow"
  body := some "Export is slow"
  status := "pending_info"
  priority := "medium"
  severity := "S3"
  created_by := "unknown"
  company := none
  assignees_json := some ["Backend Team"]
  assignee := some "Backend Team"

/-- A problem statement of more than 140 characters. -/
def longProblem : String :=
  "Customers report that the checkout page keeps spinning after they confirm the order, and the confirmation mail never arrives, on every browser and every account we tried today"

/-- The answer of the language model in `answeringEnv`. -/
def longAnswer : String :=
  "\x7b\"problem\": \"" ++ longProblem ++ "\", \"confidence\": \x7b\"environment\": 7\x7d\x7d"

/-- An environment with a language model configured: it answers `longAnswer`,
which parses to an object with the problem `longProblem` and a confidence
score of 7. -/
def answeringEnv : Env :=
  { quietEnv with
    llm := some fun _ _ => .content longAnswer
    jsonParse := fun text =>
      if text = longAnswer then
        some (.object
          [("problem", .str longProblem),
           ("confidence", .obj [("environment", .num ⟨7, 0⟩)])])
      else none }

/-- A report whose word "outage" comes after its first 140 characters. -/
def lateOutageText : String :=
  ⟨"login fails ".data ++ List.replicate 140 'x' ++ " then outage".data⟩

/-- The report of the end-to-end example of the specification. -/
def checkoutText : String := "Checkout payment is failing for all users, outage since 9am"

/-- What a store holds about the ticket `id`: its rows of `tickets` and the
rows of the four other tables that belong to it. -/
def Store.about (s : Store) (id : Nat) : Store where
  tickets := s.tickets.filter fun t => t.id = id
  ticket_drafts := s.ticket_drafts.filter fun d => d.ticket_id = id
  negotiations := s.negotiations.filter fun n => n.ticket_id = id
  ticket_links := s.ticket_links.filter fun l => l.ticket_id = id
  ticket_updates := s.ticket_updates.filter fun u => u.ticket_id = id

/-- The number of drafts a store holds for the ticket `id`. -/
def Store.draftCount (s : Store) (id : Nat) : Nat :=
  (s.ticket_drafts.filter fun d => d.ticket_id = id).length

/-- Whether every draft of a store belongs to a ticket of the store (the
foreign key of `ticket_drafts`). -/
def Store.draftsOwned (s : Store) : Bool :=
  s.ticket_drafts.all fun d => s.tickets.any fun t => t.id = d.ticket_id

/-- A later store `s'` keeps the drafts of the store `s`: its drafts are those
of `s`, unchanged and in place, followed by new ones; and if `s` holds at most
one draft per ticket id, each owned by a ticket, then so does `s'`. -/
def Store.keepsDrafts (s s' : Store) : Prop :=
  (∃ added, s'.ticket_drafts = s.ticket_drafts ++ added) ∧
  ((∀ id, s.draftCount id ≤ 1) → s.draftsOwned = true →
    (∀ id, s'.draftCount id ≤ 1) ∧ s'.draftsOwned = true)

/-- An invocation of one of the handlers that run the controller or resume it:
a ticket creation, a batch run, or an approval. -/
inductive Operation where
  | create (req : CreateRequest)
  | batch
  | approve (ticketId : Nat) (userEmail : Option String)
  deriving DecidableEq, Repr

/-- The world an invocation leaves, whether it ends well or not. -/
def Operation.run (env : Env) : Operation → World → World
  | .create req, w => (createTicket env req w).2
  | .batch, w => (automateOpen env w).2
  | .approve ticketId userEmail, w => (TicketResolver.approve env ticketId userEmail w).2

/-- The world a sequence of invocations leaves, one after the other. -/
def runOperations (env : Env) (ops : List Operation) (w : World) : World :=
  ops.foldl (fun v op => op.run env v) w

/-- A store whose only ticket is a task, numbered "TSK-1". -/
def taskStore : Store :=
  { emptyStore with
    tickets := [{ sampleTicket 1 "Rotate the signing keys" with ticket_id := some "TSK-1" }] }

/-! # Properties -/

@[simp] theorem Run.pure_run {α : Type} (a : α) (w : World) :
    (pure a : Run α) w = (.ok a, w) := rfl

theorem Run.bind_run {α β : Type} (m : Run α) (f : α → Run β) (w : World) :
    (m >>= f) w = match m w with
      | (.ok a, w1) => f a w1
      | (.error e, w1) => (.error e, w1) := rfl

theorem Run.Safe.safe_pure {α : Type} (env : Env) (a : α) : Run.Safe env (pure a : Run α) := by
  intro w
  refine ⟨le_refl _, fun h => ⟨rfl, h⟩, ?_⟩
  intro _ _ t h1 h2
  simp only [Run.pure_run] at h2
  omega

theorem Run.Safe.safe_throw {α : Type} (env : Env) (e : JsErr) : Run.Safe env (Run.throw e : Run α) := by
  intro w
  refine ⟨le_refl _, fun h => ⟨rfl, h⟩, ?_⟩
  intro a h
  simp [Run.throw] at h

theorem Run.Safe.safe_bind {α β : Type} {env : Env} {m : Run α} {f : α → Run β}
    (hm : Run.Safe env m) (hf : ∀ a, Run.Safe env (f a)) : Run.Safe env (m >>= f) := by
  intro w
  obtain ⟨h1, h2, h3⟩ := hm w
  rw [Run.bind_run]
  cases hmw : m w with
  | mk r w1 =>
    rw [hmw] at h1 h2 h3
    cases r with
    | error e =>
      refine ⟨h1, h2, ?_⟩
      intro a h
      simp at h
    | ok a =>
      obtain ⟨g1, g2, g3⟩ := hf a w1
      simp only at h1 h2 h3 ⊢
      refine ⟨le_trans h1 g1, ?_, ?_⟩
      · intro hs
        obtain ⟨e1, e2⟩ := h2 hs
        obtain ⟨e3, e4⟩ := g2 e2
        exact ⟨e3.trans e1, e4⟩
      · intro b hb t ht1 ht2
        by_cases hlt : t < w1.tick
        · exact h3 a rfl t ht1 hlt
        · exact g3 b hb t (by omega) ht2

theorem Run.Safe.safe_ofExcept {α : Type} (env : Env) (x : Except JsErr α) :
    Run.Safe env (Run.ofExcept x) := by
  cases x with
  | error e => exact Run.Safe.safe_throw env e
  | ok a => exact Run.Safe.safe_pure env a


theorem Run.Quiet.safe {α : Type} {m : Run α} (env : Env) (hm : Run.Quiet m) :
    Run.Safe env m := by
  intro w
  obtain ⟨h1, h2, h3, _⟩ := hm w
  refine ⟨by omega, fun h => ⟨h1, by rw [h2]; exact h⟩, ?_⟩
  intro _ _ t ht1 ht2
  omega

theorem Run.Quiet.quiet_pure {α : Type} (a : α) : Run.Quiet (pure a : Run α) :=
  fun _ => ⟨rfl, rfl, rfl, rfl⟩

theorem Run.Quiet.quiet_throw {α : Type} (e : JsErr) : Run.Quiet (Run.throw e : Run α) :=
  fun _ => ⟨rfl, rfl, rfl, rfl⟩

theorem Run.Quiet.quiet_ofExcept {α : Type} (x : Except JsErr α) : Run.Quiet (Run.ofExcept x) := by
  cases x with
  | error e => exact Run.Quiet.quiet_throw e
  | ok a => exact Run.Quiet.quiet_pure a

theorem Run.Quiet.quiet_bind {α β : Type} {m : Run α} {f : α → Run β}
    (hm : Run.Quiet m) (hf : ∀ a, Run.Quiet (f a)) : Run.Quiet (m >>= f) := by
  intro w
  obtain ⟨h1, h2, h3, h4⟩ := hm w
  rw [Run.bind_run]
  cases hmw : m w with
  | mk r w1 =>
    rw [hmw] at h1 h2 h3 h4
    cases r with
    | error e => exact ⟨h1, h2, h3, h4⟩
    | ok a =>
      obtain ⟨g1, g2, g3, g4⟩ := hf a w1
      exact ⟨g1.trans h1, g2.trans h2, g3.trans h3, g4.trans h4⟩

theorem Run.Quiet.quiet_tryCatch {α : Type} {m : Run α} {h : JsErr → Run α}
    (hm : Run.Quiet m) (hh : ∀ e, Run.Quiet (h e)) : Run.Quiet (Run.tryCatch m h) := by
  intro w
  obtain ⟨h1, h2, h3, h4⟩ := hm w
  unfold Run.tryCatch
  cases hmw : m w with
  | mk r w1 =>
    rw [hmw] at h1 h2 h3 h4
    cases r with
    | ok a => exact ⟨h1, h2, h3, h4⟩
    | error e =>
      obtain ⟨g1, g2, g3, g4⟩ := hh e w1
      exact ⟨g1.trans h1, g2.trans h2, g3.trans h3, g4.trans h4⟩

theorem nextDraw_quiet : Run.Quiet nextDraw := fun _ => ⟨rfl, rfl, rfl, rfl⟩

theorem nanoid_quiet (env : Env) : Run.Quiet (nanoid env) :=
  Run.Quiet.quiet_bind nextDraw_quiet fun _ => Run.Quiet.quiet_pure _

theorem intake_quiet (env : Env) (rawText : String) : Run.Quiet (intake env rawText) := by
  unfold intake
  cases env.llm with
  | none => exact Run.Quiet.quiet_pure _
  | some invoke =>
    refine Run.Quiet.quiet_tryCatch (Run.Quiet.quiet_bind nextDraw_quiet fun k => ?_) fun _ => Run.Quiet.quiet_pure _
    show Run.Quiet (match invoke k (intakePrompt rawText) with
      | .raised => Run.throw .callError
      | .content text =>
        match env.jsonParse text with
        | none => Run.throw .syntaxError
        | some parsed => pure (spreadDraft (heuristicDraft rawText) parsed))
    split
    · exact Run.Quiet.quiet_throw _
    · split
      · exact Run.Quiet.quiet_throw _
      · exact Run.Quiet.quiet_pure _

theorem managerDebate_quiet (env : Env) (title : JsVal) (draft : Option Draft) :
    Run.Quiet (managerDebate env title draft) := by
  unfold managerDebate
  refine Run.Quiet.quiet_bind (Run.Quiet.quiet_ofExcept _) fun _ => ?_
  refine Run.Quiet.quiet_bind (nanoid_quiet env) fun _ => ?_
  refine Run.Quiet.quiet_bind (nanoid_quiet env) fun _ => ?_
  refine Run.Quiet.quiet_bind (nanoid_quiet env) fun _ => ?_
  refine Run.Quiet.quiet_bind (nanoid_quiet env) fun _ => ?_
  exact Run.Quiet.quiet_pure _

theorem World.write_db_of_txn {w : World} (st : Stmt) (h : w.txn.isSome) :
    (w.write st).db = w.db ∧ (w.write st).txn.isSome := by
  unfold World.write
  cases hw : w.txn with
  | none => simp [hw] at h
  | some s => simp

theorem execute_safe (env : Env) (st : Stmt) : Run.Safe env (execute env st) := by
  intro w
  simp only [execute, nextTick, Run.bind_run]
  by_cases hf : env.fails w.tick
  · simp [hf, Run.throw]
  · simp only [hf]
    refine ⟨by simp [World.write]; split <;> simp, ?_, ?_⟩
    · intro h
      exact World.write_db_of_txn (w := { w with tick := w.tick + 1 }) st h
    · intro _ _ t ht1 ht2
      have : ((World.write { w with tick := w.tick + 1 } st)).tick = w.tick + 1 := by
        unfold World.write; split <;> rfl
      simp only [Bool.false_eq_true, ↓reduceIte] at ht2
      rw [this] at ht2
      have : t = w.tick := by omega
      subst this
      simpa using hf

theorem runAutomationForTicket_safe (env : Env) (ticketRow : TicketRef) (draftRow : Option Draft)
    (actorLabel : String) : Run.Safe env (runAutomationForTicket env ticketRow draftRow actorLabel) := by
  unfold runAutomationForTicket
  refine Run.Safe.safe_bind ?_ fun draft => ?_
  · cases draftRow with
    | none => exact (intake_quiet env _).safe env
    | some d => exact Run.Safe.safe_pure env d
  refine Run.Safe.safe_bind ?_ fun _ => ?_
  · split
    · exact execute_safe env _
    · exact Run.Safe.safe_pure env _
  refine Run.Safe.safe_bind ((managerDebate_quiet env _ _).safe env) fun debate => ?_
  refine Run.Safe.safe_bind (execute_safe env _) fun _ => ?_
  refine Run.Safe.safe_bind (execute_safe env _) fun _ => ?_
  refine Run.Safe.safe_bind ?_ fun _ => ?_
  · split
    · exact execute_safe env _
    · exact Run.Safe.safe_pure env _
  refine Run.Safe.safe_bind ?_ fun _ => ?_
  · split
    · exact execute_safe env _
    · exact Run.Safe.safe_pure env _
  split
  · exact Run.Safe.safe_bind (execute_safe env _) fun _ => Run.Safe.safe_pure env _
  · refine Run.Safe.safe_bind (execute_safe env _) fun _ => ?_
    exact Run.Safe.safe_bind (execute_safe env _) fun _ => Run.Safe.safe_pure env _

theorem managerDebate_run (env : Env) (title : JsVal) (draft : Option Draft) (w : World) :
    managerDebate env title draft w =
      match (baseText title draft).asString with
      | .error e => (.error e, w)
      | .ok text =>
        (.ok (debateVerdict env text (debateImpact draft) w.draw),
          { w with draw := w.draw + 4 }) := by
  unfold managerDebate
  simp only [Run.bind_run, baseText]
  cases h : ((optField draft Draft.problem).or title).asString with
  | error e => simp [Run.ofExcept, Run.throw]
  | ok text =>
    simp [Run.ofExcept, nanoid, nextDraw, Run.bind_run, debateVerdict, debateImpact]


theorem commit_closing {α : Type} (env : Env) (a : α) :
    Run.Closing env (commit env >>= fun _ => (pure a : Run α)) := by
  intro w _
  simp only [commit, nextTick, Run.bind_run]
  by_cases hf : env.fails w.tick
  · simp [hf, Run.throw]
  · simp only [hf, Bool.false_eq_true, ↓reduceIte, Run.pure_run]
    refine ⟨by simp, trivial, ?_⟩
    intro t ht1 ht2
    have : t = w.tick := by omega
    subst this
    simpa using hf

theorem Run.Closing.closing_bind {α β : Type} {env : Env} {m : Run α} {f : α → Run β}
    (hm : Run.Safe env m) (hf : ∀ a, Run.Closing env (f a)) : Run.Closing env (m >>= f) := by
  intro w hw
  obtain ⟨h1, h2, h3⟩ := hm w
  obtain ⟨h4, h5⟩ := h2 hw
  rw [Run.bind_run]
  cases hmw : m w with
  | mk r w1 =>
    rw [hmw] at h1 h3 h4 h5
    cases r with
    | error e => exact ⟨h1, h4⟩
    | ok a =>
      obtain ⟨g1, g2⟩ := hf a w1 h5
      simp only at h1 h3 h4 h5 ⊢
      refine ⟨le_trans h1 g1, ?_⟩
      cases hfa : (f a w1).1 with
      | error e =>
        rw [hfa] at g2
        exact g2.trans h4
      | ok b =>
        rw [hfa] at g2
        refine ⟨g2.1, ?_⟩
        intro t ht1 ht2
        by_cases hlt : t < w1.tick
        · exact h3 a rfl t ht1 hlt
        · exact g2.2 t (by omega) ht2

/-- The shape of a transactional handler: begin, a closing block, and a
catch that rolls back. It either leaves the committed store as it was, or
none of its statements failed; and it leaves no transaction open. -/
theorem transaction_run {α : Type} (env : Env) (block : Run α) (fallback : α)
    (hb : Run.Closing env block) (w : World) :
    let res := Run.tryCatch (beginTransaction env >>= fun _ => block)
      (fun _ => rollback >>= fun _ => pure fallback) w
    res.2.txn = none ∧ w.tick ≤ res.2.tick ∧
      (res.2.db = w.db ∨ ∀ t, w.tick ≤ t → t < res.2.tick → env.fails t = false) := by
  simp only [Run.tryCatch, Run.bind_run, beginTransaction, nextTick]
  by_cases hf : env.fails w.tick
  · simp [hf, Run.throw, rollback]
  · simp only [hf, Bool.false_eq_true, ↓reduceIte]
    have hw1 : ({ w with tick := w.tick + 1, txn := some w.db } : World).txn.isSome := rfl
    obtain ⟨g1, g2⟩ := hb _ hw1
    cases hbw : block { w with tick := w.tick + 1, txn := some w.db } with
    | mk r w2 =>
      rw [hbw] at g1 g2
      cases r with
      | error e =>
        simp only [rollback, Run.pure_run]
        simp only at g1 g2
        exact ⟨trivial, by omega, Or.inl g2⟩
      | ok a =>
        simp only at g1 g2 ⊢
        refine ⟨g2.1, by omega, Or.inr ?_⟩
        intro t ht1 ht2
        by_cases ht : t = w.tick
        · subst ht; simpa using hf
        · exact g2.2 t (by omega) ht2

theorem queryRows_run {α : Type} (select : Store → α) (w : World) :
    queryRows select w = (.ok (select w.db), w) := rfl

theorem approve_outcome (env : Env) (ticketId : Nat) (userEmail : Option String) (w : World) :
    (approve env ticketId userEmail w).2.db = w.db ∨
      ∀ t, w.tick ≤ t → t < (approve env ticketId userEmail w).2.tick → env.fails t = false := by
  unfold approve
  simp only [Run.bind_run, queryRows_run]
  cases (List.filter (fun t => decide (t.id = ticketId)) w.db.tickets).head? with
  | none => exact Or.inl rfl
  | some row =>
    refine (transaction_run env _ _ ?_ w).2.2
    refine Run.Closing.closing_bind (execute_safe env _) fun _ => ?_
    refine Run.Closing.closing_bind (execute_safe env _) fun _ => ?_
    refine Run.Closing.closing_bind (execute_safe env _) fun _ => ?_
    refine Run.Closing.closing_bind (execute_safe env _) fun _ => ?_
    exact commit_closing env _

/-- One iteration of the batch loop on a ticket without a negotiation record. -/
theorem automateOpenLoop_cons_run (env : Env) (ticketRow : TicketRow) (rest : List TicketRow)
    (processed skipped : Nat) (w : World) :
    automateOpenLoop env (ticketRow :: rest) processed skipped w =
      if w.db.hasNegotiation ticketRow.id then
        automateOpenLoop env rest processed (skipped + 1) w
      else
        match Run.tryCatch
            (beginTransaction env >>= fun _ =>
              runAutomationForTicket env ticketRow.toRef
                  (((w.db.ticket_drafts.filter fun d => d.ticket_id = ticketRow.id).head?).map
                    DraftRow.toDraft) "Automation Runner" >>= fun _ =>
              commit env >>= fun _ => (pure true : Run Bool))
            (fun _ => rollback >>= fun _ => pure false) w with
        | (.ok committed, w1) =>
          automateOpenLoop env rest (if committed then processed + 1 else processed) skipped w1
        | (.error e, w1) => (.error e, w1) := by
  rw [automateOpenLoop]
  simp only [Run.bind_run, queryRows_run]
  have hlen : ((w.db.negotiations.filter fun n => n.ticket_id = ticketRow.id).take 1).length > 0 ↔
      w.db.hasNegotiation ticketRow.id = true := by
    unfold Store.hasNegotiation
    cases hfl : w.db.negotiations.filter fun n => n.ticket_id = ticketRow.id with
    | nil =>
      have : ∀ n ∈ w.db.negotiations, ¬ n.ticket_id = ticketRow.id := by
        intro n hn hid
        have : n ∈ w.db.negotiations.filter fun n => n.ticket_id = ticketRow.id :=
          List.mem_filter.mpr ⟨hn, by simpa using hid⟩
        rw [hfl] at this
        cases this
      simpa using this
    | cons n ns =>
      have hn : n ∈ w.db.negotiations.filter fun n => n.ticket_id = ticketRow.id := by
        rw [hfl]; exact List.mem_cons_self _ _
      obtain ⟨h1, h2⟩ := List.mem_filter.mp hn
      simp only [List.take_succ_cons, List.take_zero, List.length_cons, List.length_nil,
        zero_add, gt_iff_lt, zero_lt_one, true_iff, List.any_eq_true]
      exact ⟨n, h1, h2⟩
  by_cases hneg : w.db.hasNegotiation ticketRow.id = true
  · rw [if_pos (hlen.mpr hneg), if_pos hneg]
  · rw [if_neg (fun h => hneg (hlen.mp h)), if_neg hneg]
    simp only [Run.bind_run, queryRows_run]
    generalize Run.tryCatch _ _ w = res
    obtain ⟨r, w1⟩ := res
    cases r <;> rfl

theorem automateOpenLoop_nil_run (env : Env) (processed skipped : Nat) (w : World) :
    automateOpenLoop env [] processed skipped w = (.ok (processed, skipped), w) := by
  rw [automateOpenLoop]; rfl

theorem batchStep_closing (env : Env) (ticketRow : TicketRef) (draft : Option Draft) :
    Run.Closing env (runAutomationForTicket env ticketRow draft "Automation Runner" >>= fun _ =>
      commit env >>= fun _ => (pure true : Run Bool)) :=
  Run.Closing.closing_bind (runAutomationForTicket_safe env _ _ _) fun _ => commit_closing env _

theorem automateOpenLoop_single_outcome (env : Env) (ticketRow : TicketRow) (processed skipped : Nat)
    (w : World) :
    (automateOpenLoop env [ticketRow] processed skipped w).2.db = w.db ∨
      ∀ t, w.tick ≤ t → t < (automateOpenLoop env [ticketRow] processed skipped w).2.tick →
        env.fails t = false := by
  rw [automateOpenLoop_cons_run]
  split
  · rw [automateOpenLoop_nil_run]; exact Or.inl rfl
  · have h := transaction_run env _ false (batchStep_closing env ticketRow.toRef
      (((w.db.ticket_drafts.filter fun d => d.ticket_id = ticketRow.id).head?).map
        DraftRow.toDraft)) w
    revert h
    generalize Run.tryCatch _ _ w = res
    intro h
    obtain ⟨r, w1⟩ := res
    cases r with
    | error e => exact h.2.2
    | ok b => simp only [automateOpenLoop_nil_run]; exact h.2.2

theorem Run.Atomic.atomic_pure {α : Type} (env : Env) (a : α) : Run.Atomic env (pure a : Run α) :=
  fun _ => Or.inl rfl

theorem Run.Atomic.atomic_after_quiet {α β : Type} {env : Env} {m : Run α} {f : α → Run β}
    (hm : Run.Quiet m) (hf : ∀ a, Run.Atomic env (f a)) : Run.Atomic env (m >>= f) := by
  intro w
  obtain ⟨h1, _, h3, _⟩ := hm w
  rw [Run.bind_run]
  cases hmw : m w with
  | mk r w1 =>
    rw [hmw] at h1 h3
    cases r with
    | error e => exact Or.inl h1
    | ok a =>
      simp only at h1 h3 ⊢
      rcases hf a w1 with h | h
      · exact Or.inl (h.trans h1)
      · right
        intro t ht1 ht2
        exact h t (by omega) ht2

theorem Run.Atomic.transaction {α : Type} (env : Env) (block : Run α) (fallback : α)
    (hb : Run.Closing env block) :
    Run.Atomic env (Run.tryCatch (beginTransaction env >>= fun _ => block)
      (fun _ => rollback >>= fun _ => pure fallback)) :=
  fun w => (transaction_run env block fallback hb w).2.2

theorem executeMax_safe (env : Env) (pfx : String) : Run.Safe env (executeMax env pfx) := by
  intro w
  simp only [executeMax, nextTick, Run.bind_run]
  by_cases hf : env.fails w.tick
  · simp [hf, Run.throw]
  · simp only [hf, Bool.false_eq_true, ↓reduceIte]
    refine ⟨by simp, fun h => ⟨trivial, h⟩, ?_⟩
    intro _ _ t ht1 ht2
    have : t = w.tick := by omega
    subst this
    simpa using hf

theorem executeInsertTicket_safe (env : Env) (row : Nat → TicketRow) :
    Run.Safe env (executeInsertTicket env row) := by
  intro w
  simp only [executeInsertTicket, nextTick, Run.bind_run]
  by_cases hf : env.fails w.tick
  · simp [hf, Run.throw]
  · simp only [hf, Bool.false_eq_true, ↓reduceIte]
    have htick : ∀ st, (World.write { w with tick := w.tick + 1 } st).tick = w.tick + 1 := by
      intro st; unfold World.write; split <;> rfl
    refine ⟨by simp [htick], ?_, ?_⟩
    · intro h
      exact World.write_db_of_txn (w := { w with tick := w.tick + 1 }) _ h
    · intro _ _ t ht1 ht2
      simp only [htick] at ht2
      have : t = w.tick := by omega
      subst this
      simpa using hf

theorem createTicket_atomic (env : Env) (req : CreateRequest) :
    Run.Atomic env (createTicket env req) := by
  unfold createTicket
  split
  · exact Run.Atomic.atomic_pure env _
  refine Run.Atomic.atomic_after_quiet (intake_quiet env _) fun draft => ?_
  refine Run.Atomic.atomic_after_quiet ?_ fun resolvedPriority => ?_
  · split
    · exact Run.Quiet.quiet_ofExcept _
    · exact Run.Quiet.quiet_pure _
  refine Run.Atomic.atomic_after_quiet ?_ fun resolvedAssignees => ?_
  · split
    · exact Run.Quiet.quiet_ofExcept _
    · split
      · exact Run.Quiet.quiet_ofExcept _
      · exact Run.Quiet.quiet_pure _
  refine Run.Atomic.atomic_after_quiet (Run.Quiet.quiet_ofExcept _) fun resolvedTitle => ?_
  refine Run.Atomic.transaction env _ _ ?_
  refine Run.Closing.closing_bind (executeMax_safe env _) fun p => ?_
  refine Run.Closing.closing_bind (executeInsertTicket_safe env _) fun ticketRowId => ?_
  refine Run.Closing.closing_bind (execute_safe env _) fun _ => ?_
  refine Run.Closing.closing_bind (runAutomationForTicket_safe env _ _ _) fun _ => ?_
  exact commit_closing env _

theorem approve_atomic (env : Env) (ticketId : Nat) (userEmail : Option String) :
    Run.Atomic env (approve env ticketId userEmail) :=
  fun w => approve_outcome env ticketId userEmail w

theorem batchIteration_atomic (env : Env) (ticketRow : TicketRow) (processed skipped : Nat) :
    Run.Atomic env (automateOpenLoop env [ticketRow] processed skipped) :=
  fun w => automateOpenLoop_single_outcome env ticketRow processed skipped w

/-- C1: atomicity of the transactional invocations. For ticket creation, for
one iteration of the batch runner and for approve: if any statement issued
inside the invocation fails (the last write included), the committed store
after the invocation is the store before it, so no draft, severity or status
change, negotiation, link or update of that invocation remains. -/
theorem transactional_invocations_atomic :
    (∀ (env : Env) (req : CreateRequest) (w : World),
      (∃ t, w.tick ≤ t ∧ t < (createTicket env req w).2.tick ∧ env.fails t = true) →
        (createTicket env req w).2.db = w.db) ∧
    (∀ (env : Env) (ticketRow : TicketRow) (processed skipped : Nat) (w : World),
      (∃ t, w.tick ≤ t ∧ t < (automateOpenLoop env [ticketRow] processed skipped w).2.tick ∧
          env.fails t = true) →
        (automateOpenLoop env [ticketRow] processed skipped w).2.db = w.db) ∧
    (∀ (env : Env) (ticketId : Nat) (userEmail : Option String) (w : World),
      (∃ t, w.tick ≤ t ∧ t < (approve env ticketId userEmail w).2.tick ∧ env.fails t = true) →
        (approve env ticketId userEmail w).2.db = w.db) := by
  refine ⟨?_, ?_, ?_⟩
  · rintro env req w ⟨t, h1, h2, h3⟩
    rcases createTicket_atomic env req w with h | h
    · exact h
    · rw [h t h1 h2] at h3; cases h3
  · rintro env ticketRow processed skipped w ⟨t, h1, h2, h3⟩
    rcases batchIteration_atomic env ticketRow processed skipped w with h | h
    · exact h
    · rw [h t h1 h2] at h3; cases h3
  · rintro env ticketId userEmail w ⟨t, h1, h2, h3⟩
    rcases approve_atomic env ticketId userEmail w with h | h
    · exact h
    · rw [h t h1 h2] at h3; cases h3

/-- C1 at concrete inputs: the last write of a creation fails (tick 7, the
request for approval), the last write of a batch iteration fails (tick 6), the
last write of an approval fails (tick 4); each time the store is unchanged,
while the same invocation without a failure does change it. -/
theorem transactional_invocations_atomic_witness :
    ((createTicket (failingAt 7)
        (sampleRequest "Checkout payment is failing for all users, outage since 9am")
        (worldOf twoOpenStore)).2.db = twoOpenStore ∧
      (createTicket quietEnv
        (sampleRequest "Checkout payment is failing for all users, outage since 9am")
        (worldOf twoOpenStore)).2.db ≠ twoOpenStore) ∧
    ((automateOpenLoop (failingAt 6) [sampleTicket 1 "Login page outage since 9am"] 0 0
        (worldOf twoOpenStore)).2.db = twoOpenStore ∧
      (automateOpenLoop quietEnv [sampleTicket 1 "Login page outage since 9am"] 0 0
        (worldOf twoOpenStore)).2.db ≠ twoOpenStore) ∧
    ((approve (failingAt 4) 1 (some "lead@example.com") (worldOf twoOpenStore)).2.db
        = twoOpenStore ∧
      (approve quietEnv 1 (some "lead@example.com") (worldOf twoOpenStore)).2.db
        ≠ twoOpenStore) :=
  ⟨⟨transactional_invocations_atomic.1 (failingAt 7) _ (worldOf twoOpenStore)
      ⟨7, by decide!, by decide!, by decide!⟩, by decide!⟩,
   ⟨transactional_invocations_atomic.2.1 (failingAt 6) _ 0 0 (worldOf twoOpenStore)
      ⟨6, by decide!, by decide!, by decide!⟩, by decide!⟩,
   ⟨transactional_invocations_atomic.2.2 (failingAt 4) 1 _ (worldOf twoOpenStore)
      ⟨4, by decide!, by decide!, by decide!⟩, by decide!⟩⟩

theorem Run.bind_eq_ok {α β : Type} {m : Run α} {f : α → Run β} {w w' : World} {b : β} :
    (m >>= f) w = (.ok b, w') ↔ ∃ a w1, m w = (.ok a, w1) ∧ f a w1 = (.ok b, w') := by
  rw [Run.bind_run]
  cases hmw : m w with
  | mk r w1 =>
    cases r with
    | error e => simp
    | ok a =>
      constructor
      · intro h; exact ⟨a, w1, rfl, h⟩
      · rintro ⟨a1, w2, h1, h2⟩
        cases h1
        exact h2

theorem World.write_tick (w : World) (st : Stmt) (t : Nat) :
    ({ w with tick := t } : World).write st = { w.write st with tick := t } := by
  unfold World.write; cases w.txn <;> rfl

theorem World.write_draw (w : World) (st : Stmt) (k : Nat) :
    ({ w with draw := k } : World).write st = { w.write st with draw := k } := by
  unfold World.write; cases w.txn <;> rfl

theorem World.writeAll_tick (w : World) (stmts : List Stmt) (t : Nat) :
    ({ w with tick := t } : World).writeAll stmts = { w.writeAll stmts with tick := t } := by
  induction stmts generalizing w with
  | nil => rfl
  | cons st rest ih =>
    simp only [World.writeAll, List.foldl_cons] at ih ⊢
    rw [World.write_tick, ih]

theorem World.writeAll_draw (w : World) (stmts : List Stmt) (k : Nat) :
    ({ w with draw := k } : World).writeAll stmts = { w.writeAll stmts with draw := k } := by
  induction stmts generalizing w with
  | nil => rfl
  | cons st rest ih =>
    simp only [World.writeAll, List.foldl_cons] at ih ⊢
    rw [World.write_draw, ih]

theorem World.writeAll_append (w : World) (a b : List Stmt) :
    w.writeAll (a ++ b) = (w.writeAll a).writeAll b := by
  simp [World.writeAll, List.foldl_append]

theorem World.writeAll_tick_eq (w : World) (stmts : List Stmt) :
    (w.writeAll stmts).tick = w.tick ∧ (w.writeAll stmts).draw = w.draw ∧
      (w.writeAll stmts).autoInc = w.autoInc := by
  induction stmts generalizing w with
  | nil => exact ⟨rfl, rfl, rfl⟩
  | cons st rest ih =>
    simp only [World.writeAll, List.foldl_cons] at ih ⊢
    have h := ih (w.write st)
    have hw : (w.write st).tick = w.tick ∧ (w.write st).draw = w.draw ∧
        (w.write st).autoInc = w.autoInc := by
      unfold World.write; cases w.txn <;> exact ⟨rfl, rfl, rfl⟩
    exact ⟨h.1.trans hw.1, h.2.1.trans hw.2.1, h.2.2.trans hw.2.2⟩

theorem World.write_withDraw (w : World) (st : Stmt) (k : Nat) :
    (w.withDraw k).write st = (w.write st).withDraw k :=
  World.write_draw w st k

theorem World.advance_withDraw (w : World) (stmts : List Stmt) (k : Nat) :
    (w.withDraw k).advance stmts = (w.advance stmts).withDraw k := by
  unfold World.advance World.withDraw
  rw [World.writeAll_draw]

theorem World.withDraw_withDraw (w : World) (j k : Nat) :
    (w.withDraw j).withDraw k = w.withDraw k := rfl

theorem World.advance_advance (w : World) (a b : List Stmt) :
    (w.advance a).advance b = w.advance (a ++ b) := by
  unfold World.advance
  rw [World.writeAll_tick, World.writeAll_append, List.length_append, Nat.add_assoc]

theorem World.advance_nil (w : World) : w.advance [] = w := rfl

theorem World.withDraw_self (w : World) : w.withDraw w.draw = w := rfl

@[simp] theorem World.withDraw_db (w : World) (k : Nat) : (w.withDraw k).db = w.db := rfl
@[simp] theorem World.withDraw_txn (w : World) (k : Nat) : (w.withDraw k).txn = w.txn := rfl
@[simp] theorem World.withDraw_tick (w : World) (k : Nat) : (w.withDraw k).tick = w.tick := rfl
@[simp] theorem World.withDraw_draw (w : World) (k : Nat) : (w.withDraw k).draw = k := rfl
@[simp] theorem World.withDraw_autoInc (w : World) (k : Nat) :
    (w.withDraw k).autoInc = w.autoInc := rfl
@[simp] theorem World.advance_db (w : World) (stmts : List Stmt) :
    (w.advance stmts).db = (w.writeAll stmts).db := rfl
@[simp] theorem World.advance_txn (w : World) (stmts : List Stmt) :
    (w.advance stmts).txn = (w.writeAll stmts).txn := rfl
@[simp] theorem World.advance_tick (w : World) (stmts : List Stmt) :
    (w.advance stmts).tick = w.tick + stmts.length := rfl
@[simp] theorem World.advance_draw (w : World) (stmts : List Stmt) :
    (w.advance stmts).draw = w.draw := (World.writeAll_tick_eq w stmts).2.1
@[simp] theorem World.advance_autoInc (w : World) (stmts : List Stmt) :
    (w.advance stmts).autoInc = w.autoInc := (World.writeAll_tick_eq w stmts).2.2

theorem execute_run (env : Env) (st : Stmt) (w : World) :
    execute env st w =
      if env.fails w.tick then (.error .dbError, { w with tick := w.tick + 1 })
      else (.ok (), w.advance [st]) := by
  simp only [execute, nextTick, Run.bind_run]
  split
  · rfl
  · simp only [World.advance, World.writeAll, List.foldl_cons, List.foldl_nil,
      List.length_singleton, World.write_tick]

theorem execute_eq_ok {env : Env} {st : Stmt} {w w' : World} {u : Unit} :
    execute env st w = (.ok u, w') ↔ env.fails w.tick = false ∧ w' = w.advance [st] := by
  rw [execute_run]
  by_cases hf : env.fails w.tick
  · simp [hf]
  · simp only [Bool.not_eq_true] at hf
    simp only [hf, Bool.false_eq_true, ↓reduceIte, Prod.mk.injEq, true_and]
    exact eq_comm

theorem ite_execute_eq_ok {env : Env} {c : Bool} {st : Stmt} {w w' : World} {u : Unit} :
    (if c then execute env st else pure ()) w = (.ok u, w') ↔
      (c = true → env.fails w.tick = false) ∧ w' = w.advance (if c then [st] else []) := by
  cases c with
  | true => simp only [↓reduceIte, execute_eq_ok, forall_true_left]
  | false =>
    simp only [Bool.false_eq_true, ↓reduceIte, Run.pure_run, Prod.mk.injEq, true_and,
      false_implies, World.advance_nil]
    exact eq_comm

theorem Run.Quiet.world_eq {α : Type} {m : Run α} (hm : Run.Quiet m) (w : World) :
    (m w).2 = w.withDraw (m w).2.draw := by
  obtain ⟨h1, h2, h3, h4⟩ := hm w
  cases hw : (m w).2
  rw [hw] at h1 h2 h3 h4
  simp only at h1 h2 h3 h4
  subst h1 h2 h3 h4
  rfl

theorem managerDebate_eq_ok {env : Env} {title : JsVal} {draft : Option Draft} {w w' : World}
    {v : Verdict} (h : managerDebate env title draft w = (.ok v, w')) :
    ∃ text, (baseText title draft).asString = .ok text ∧
      v = debateVerdict env text (debateImpact draft) w.draw ∧
      w' = w.withDraw (w.draw + 4) := by
  rw [managerDebate_run] at h
  cases ht : (baseText title draft).asString with
  | error e => rw [ht] at h; simp at h
  | ok text =>
    rw [ht] at h
    simp only [Prod.mk.injEq, Except.ok.injEq] at h
    exact ⟨text, rfl, h.1.symm, h.2.symm⟩

theorem runAutomationForTicket_eq_ok {env : Env} {ticketRow : TicketRef} {draftRow : Option Draft}
    {actorLabel : String} {w w' : World} {r : AutomationResult}
    (h : runAutomationForTicket env ticketRow draftRow actorLabel w = (.ok r, w')) :
    ∃ draft text k,
      (draftRow = some draft ∨ draftRow = none ∧
        (intake env (textOr ticketRow.body (textOr ticketRow.subject "")) w).1 = .ok draft) ∧
      (baseText (JsVal.ofOption ticketRow.subject) (some draft)).asString = .ok text ∧
      r = { status := "pending_info", resolution := none } ∧
      w' = (w.advance (automationWrites ticketRow.id draftRow.isSome draft
             (debateVerdict env text (debateImpact (some draft)) k) actorLabel)).withDraw
             (k + 4) := by
  unfold runAutomationForTicket at h
  simp only [Run.bind_eq_ok] at h
  obtain ⟨draft, w0, h0, _, w1, h1, v, w2, h2, _, w3, h3, _, w4, h4, _, w5, h5, _, w6, h6, h7⟩ := h
  obtain ⟨text, ht, hv, hw2⟩ := managerDebate_eq_ok h2
  have hreq : v.requiresHuman = true := by rw [hv]; rfl
  rw [if_pos hreq, Run.bind_eq_ok] at h7
  obtain ⟨_, w7, h7, h8⟩ := h7
  simp only [hreq, ↓reduceIte] at h3
  rw [execute_eq_ok] at h3 h4 h7
  rw [ite_execute_eq_ok] at h1 h5 h6
  simp only [Run.pure_run, Prod.mk.injEq, Except.ok.injEq] at h8
  have hw0 : w0 = w.withDraw w0.draw ∧
      (draftRow = some draft ∨ draftRow = none ∧
        (intake env (textOr ticketRow.body (textOr ticketRow.subject "")) w).1 = .ok draft) := by
    cases draftRow with
    | some d =>
      simp only [Run.pure_run, Prod.mk.injEq, Except.ok.injEq] at h0
      obtain ⟨h0a, h0b⟩ := h0
      subst h0a h0b
      exact ⟨rfl, Or.inl rfl⟩
    | none =>
      simp only at h0
      have hq := (intake_quiet env (textOr ticketRow.body (textOr ticketRow.subject ""))).world_eq w
      rw [h0] at hq
      exact ⟨hq, Or.inr ⟨rfl, by rw [h0]⟩⟩
  obtain ⟨hw0, hdraft⟩ := hw0
  have hk : w1.draw = w0.draw := by rw [h1.2]; simp
  refine ⟨draft, text, w0.draw, hdraft, ht, h8.1.symm, ?_⟩
  have hsup : draftRow.isSome = !draftRow.isNone := by cases draftRow <;> rfl
  rw [← hk, ← hv, ← h8.2, h7.2, h6.2, h5.2, h4.2, h3.2, hw2, h1.2, hw0]
  simp only [World.advance_withDraw, World.withDraw_withDraw, World.advance_advance,
    World.advance_draw, World.withDraw_draw]
  simp only [automationWrites, hreq, hsup, ↓reduceIte, List.append_assoc]
  cases draftRow.isNone <;> rfl

theorem Run.bind_ok {α β : Type} {m : Run α} {f : α → Run β} {w v : World} {a : α}
    (h : m w = (.ok a, v)) : (m >>= f) w = f a v := by
  rw [Run.bind_run, h]

theorem execute_ok_of {env : Env} {w : World} (st : Stmt) (h : env.fails w.tick = false) :
    execute env st w = (.ok (), w.advance [st]) := by
  rw [execute_run, h]; rfl

theorem ite_execute_ok_of {env : Env} {w : World} (c : Bool) (st : Stmt)
    (h : env.fails w.tick = false) :
    (if c then execute env st else pure ()) w = (.ok (), w.advance (if c then [st] else [])) := by
  cases c with
  | true => exact execute_ok_of st h
  | false => rfl

/-- The controller ends well when no statement fails and the assessed text is
a string. -/
theorem runAutomationForTicket_ok {env : Env} {ticketRow : TicketRef} {draftRow : Option Draft}
    {actorLabel : String} {w : World} {draft : Draft} {text : String} {k : Nat}
    (hfail : ∀ t, w.tick ≤ t → env.fails t = false)
    (hdraft : (match draftRow with
      | some d => pure d
      | none => intake env (textOr ticketRow.body (textOr ticketRow.subject ""))) w =
        (.ok draft, w.withDraw k))
    (htext : (baseText (JsVal.ofOption ticketRow.subject) (some draft)).asString = .ok text) :
    runAutomationForTicket env ticketRow draftRow actorLabel w =
      (.ok { status := "pending_info", resolution := none },
        (w.advance (automationWrites ticketRow.id draftRow.isSome draft
          (debateVerdict env text (debateImpact (some draft)) k) actorLabel)).withDraw (k + 4)) := by
  have hf : ∀ (stmts : List Stmt) (j : Nat),
      env.fails ((w.advance stmts).withDraw j).tick = false := by
    intro stmts j
    apply hfail
    simp
  have hsup : draftRow.isSome = !draftRow.isNone := by cases draftRow <;> rfl
  have hreq : (debateVerdict env text (debateImpact (some draft)) k).requiresHuman = true := rfl
  have hdebate : ∀ w1 : World,
      managerDebate env (JsVal.ofOption ticketRow.subject) (some draft) (w1.withDraw k) =
        (.ok (debateVerdict env text (debateImpact (some draft)) k), w1.withDraw (k + 4)) := by
    intro w1
    rw [managerDebate_run, htext]
    rfl
  unfold runAutomationForTicket
  refine (Run.bind_ok (a := draft) (v := w.withDraw k) ?_).trans ?_
  · cases draftRow <;> exact hdraft
  refine (Run.bind_ok (ite_execute_ok_of _ _ (hf [] k))).trans ?_
  rw [World.advance_withDraw, World.advance_advance]
  refine (Run.bind_ok (hdebate _)).trans ?_
  refine (Run.bind_ok (execute_ok_of _ (hf _ _))).trans ?_
  rw [World.advance_withDraw, World.advance_advance]
  refine (Run.bind_ok (execute_ok_of _ (hf _ _))).trans ?_
  rw [World.advance_withDraw, World.advance_advance]
  refine (Run.bind_ok (ite_execute_ok_of _ _ (hf _ _))).trans ?_
  rw [World.advance_withDraw, World.advance_advance]
  refine (Run.bind_ok (ite_execute_ok_of _ _ (hf _ _))).trans ?_
  rw [World.advance_withDraw, World.advance_advance]
  rw [if_pos hreq]
  refine (Run.bind_ok (execute_ok_of _ (hf _ _))).trans ?_
  rw [World.advance_withDraw, World.advance_advance]
  simp only [Run.pure_run, automationWrites, hreq, hsup, ↓reduceIte, List.append_assoc,
    List.nil_append]
  cases draftRow.isNone <;> rfl

theorem World.write_view (w : World) (st : Stmt) : (w.write st).view = st.apply w.view := by
  unfold World.write World.view
  cases w.txn <;> rfl

theorem World.writeAll_view (w : World) (stmts : List Stmt) :
    (w.writeAll stmts).view = Store.applyAll stmts w.view := by
  induction stmts generalizing w with
  | nil => rfl
  | cons st rest ih =>
    simp only [World.writeAll, Store.applyAll, List.foldl_cons] at ih ⊢
    rw [ih, World.write_view]

theorem World.write_txn_some (w : World) (st : Stmt) (s : Store) (h : w.txn = some s) :
    (w.write st).txn = some (st.apply s) ∧ (w.write st).db = w.db := by
  unfold World.write
  rw [h]
  exact ⟨rfl, rfl⟩

theorem World.writeAll_txn_some (w : World) (stmts : List Stmt) (s : Store) (h : w.txn = some s) :
    (w.writeAll stmts).txn = some (Store.applyAll stmts s) ∧ (w.writeAll stmts).db = w.db := by
  induction stmts generalizing w s with
  | nil => exact ⟨h, rfl⟩
  | cons st rest ih =>
    simp only [World.writeAll, Store.applyAll, List.foldl_cons] at ih ⊢
    obtain ⟨h1, h2⟩ := World.write_txn_some w st s h
    obtain ⟨h3, h4⟩ := ih (w.write st) (st.apply s) h1
    exact ⟨h3, h4.trans h2⟩

/-- The store after the writes of one run of the controller, table by table. -/
theorem applyAll_automationWrites (ticketRowId : Nat) (supplied : Bool) (draft : Draft)
    (debate : Verdict) (actorLabel : String) (s : Store) :
    Store.applyAll (automationWrites ticketRowId supplied draft debate actorLabel) s =
      { tickets := s.tickets.map fun t =>
          if t.id = ticketRowId then
            { t with
              severity := debate.severity
              status := if debate.requiresHuman then "pending_info" else "in_progress" }
          else t
        ticket_drafts := s.ticket_drafts ++
          (if supplied then [] else [draftInsertRow ticketRowId draft])
        negotiations := s.negotiations ++
          [{ ticket_id := ticketRowId, phase := "triage", transcript_json := debate.transcript }]
        ticket_links := s.ticket_links ++
          (if truthyId debate.duplicateOf then
            [{ ticket_id := ticketRowId
               duplicate_of_ticket_id := debate.duplicateOf.getD 0
               confidence := debate.duplicateConfidence }]
          else [])
        ticket_updates := s.ticket_updates ++
          ((if (applyEscalation debate.slaRisk).escalate then
            [{ ticket_id := ticketRowId
               author := "Policy Engine"
               message := (applyEscalation debate.slaRisk).message }]
          else []) ++
          [{ ticket_id := ticketRowId
             author := actorLabel
             message := "Approval required to continue automation." }]) } := by
  unfold automationWrites Store.applyAll
  cases supplied <;> cases truthyId debate.duplicateOf <;>
    cases (applyEscalation debate.slaRisk).escalate <;>
    simp [Stmt.apply]

theorem debateVerdict_transcript_length (env : Env) (text : String) (impact : JsVal) (k : Nat) :
    (debateVerdict env text impact k).transcript.length = 4 := rfl

/-- C4: the exact persisted effects of one successful run of
`runAutomationForTicket`. The world it leaves is the world it started in after
exactly the statements of `automationWrites`, in that order: the draft insert
iff no draft was supplied; severity and status (pending_info when
requiresHuman, else in_progress); one negotiation of phase "triage" with the
four-entry transcript of the verdict; the link iff a duplicate is reported; the
"Policy Engine" update iff the policy escalates; the request for approval
authored by the actor label. Nothing else is written. -/
theorem runAutomationForTicket_effects (env : Env) (ticketRow : TicketRef)
    (draftRow : Option Draft) (actorLabel : String) (w w' : World) (r : AutomationResult)
    (h : runAutomationForTicket env ticketRow draftRow actorLabel w = (.ok r, w')) :
    ∃ draft debate k,
      (draftRow = some draft ∨ draftRow = none ∧
        (intake env (textOr ticketRow.body (textOr ticketRow.subject "")) w).1 = .ok draft) ∧
      managerDebate env (JsVal.ofOption ticketRow.subject) (some draft) (w.withDraw k) =
        (.ok debate, w.withDraw (k + 4)) ∧
      debate.transcript.length = 4 ∧
      w' = (w.advance
        (automationWrites ticketRow.id draftRow.isSome draft debate actorLabel)).withDraw
          (k + 4) := by
  obtain ⟨draft, text, k, hd, ht, _, hw⟩ := runAutomationForTicket_eq_ok h
  refine ⟨draft, debateVerdict env text (debateImpact (some draft)) k, k, hd, ?_, rfl, hw⟩
  rw [managerDebate_run, ht]
  rfl

/-- C4 at a concrete input: the batch runner's call for an open ticket about a
login outage, with no draft and no failure, writes the draft, the status, the
negotiation, the link, the escalation notice and the request for approval. -/
theorem runAutomationForTicket_effects_witness :
    ∃ draft debate k,
      ((none : Option Draft) = some draft ∨ (none : Option Draft) = none ∧
        (intake quietEnv (textOr (some "Login page outage since 9am")
          (textOr (some "Login page outage since 9am") "")) (worldOf twoOpenStore)).1
            = .ok draft) ∧
      managerDebate quietEnv (JsVal.ofOption (some "Login page outage since 9am")) (some draft)
          ((worldOf twoOpenStore).withDraw k) =
        (.ok debate, (worldOf twoOpenStore).withDraw (k + 4)) ∧
      debate.transcript.length = 4 ∧
      (runAutomationForTicket quietEnv (sampleTicket 1 "Login page outage since 9am").toRef none
          "Automation Runner" (worldOf twoOpenStore)).2 =
        ((worldOf twoOpenStore).advance
          (automationWrites 1 (none : Option Draft).isSome draft debate
            "Automation Runner")).withDraw (k + 4) :=
  runAutomationForTicket_effects quietEnv (sampleTicket 1 "Login page outage since 9am").toRef
    none "Automation Runner" (worldOf twoOpenStore) _
    { status := "pending_info", resolution := none } (by decide!)

theorem intake_no_llm (env : Env) (rawText : String) (w : World) (h : env.llm = none) :
    intake env rawText w = (.ok (heuristicDraft rawText), w) := by
  unfold intake
  rw [h]
  rfl

/-- C3: `runAutomationForTicket` always halts for approval. Every run that
returns, for any ticket and any supplied or absent draft, returns the status
"pending_info" with no resolution, leaves every row of the ticket with the
status "pending_info", appends only updates authored "Policy Engine" or by
the actor label (none authored "Resolution Agent" unless that is the actor
label), and writes no status "resolved": a resolved row it leaves was there
before. And it does return when no statement fails and the assessed text is a
string: for a supplied draft, and for an absent draft when no language model
is configured and the ticket has a subject. -/
theorem runAutomationForTicket_pending (env : Env) (ticketRow : TicketRef) (actorLabel : String)
    (w : World) :
    (∀ (draftRow : Option Draft) (r : AutomationResult) (w' : World),
      runAutomationForTicket env ticketRow draftRow actorLabel w = (.ok r, w') →
        r = { status := "pending_info", resolution := none } ∧
        (∀ t ∈ w'.view.tickets, t.id = ticketRow.id → t.status = "pending_info") ∧
        (∃ added, w'.view.ticket_updates = w.view.ticket_updates ++ added ∧
          (∀ u ∈ added, u.author = "Policy Engine" ∨ u.author = actorLabel) ∧
          (actorLabel ≠ "Resolution Agent" → ∀ u ∈ added, u.author ≠ "Resolution Agent")) ∧
        (∀ t ∈ w'.view.tickets, t.status = "resolved" → t ∈ w.view.tickets)) ∧
    ((∀ t, w.tick ≤ t → env.fails t = false) →
      (∀ (draft : Draft) (text : String),
        (baseText (JsVal.ofOption ticketRow.subject) (some draft)).asString = .ok text →
        ∃ w', runAutomationForTicket env ticketRow (some draft) actorLabel w =
          (.ok { status := "pending_info", resolution := none }, w')) ∧
      (env.llm = none → ticketRow.subject ≠ none →
        ∃ w', runAutomationForTicket env ticketRow none actorLabel w =
          (.ok { status := "pending_info", resolution := none }, w'))) := by
  constructor
  · intro draftRow r w' h
    obtain ⟨draft, text, k, _, _, hr, hw⟩ := runAutomationForTicket_eq_ok h
    have hview : w'.view = Store.applyAll (automationWrites ticketRow.id draftRow.isSome draft
        (debateVerdict env text (debateImpact (some draft)) k) actorLabel) w.view := by
      rw [hw, ← World.writeAll_view]
      rfl
    rw [applyAll_automationWrites] at hview
    refine ⟨hr, ?_, ?_, ?_⟩
    · intro t ht hid
      rw [hview] at ht
      simp only [List.mem_map] at ht
      obtain ⟨t0, _, rfl⟩ := ht
      by_cases h0 : t0.id = ticketRow.id
      · simp only [h0, ↓reduceIte]
        rfl
      · simp only [h0, ↓reduceIte] at hid
    · refine ⟨_, by rw [hview], ?_⟩
      have hauth : ∀ u ∈ ((if (applyEscalation (debateVerdict env text (debateImpact (some draft))
          k).slaRisk).escalate then
            [({ ticket_id := ticketRow.id
                author := "Policy Engine"
                message := (applyEscalation (debateVerdict env text (debateImpact (some draft))
                  k).slaRisk).message } : UpdateRow)]
          else []) ++
          [{ ticket_id := ticketRow.id
             author := actorLabel
             message := "Approval required to continue automation." }]),
          u.author = "Policy Engine" ∨ u.author = actorLabel := by
        intro u hu
        rw [List.mem_append] at hu
        rcases hu with hu | hu
        · split at hu
          · rw [List.mem_singleton] at hu; subst hu; exact Or.inl rfl
          · cases hu
        · rw [List.mem_singleton] at hu; subst hu; exact Or.inr rfl
      refine ⟨hauth, ?_⟩
      intro hactor u hu
      rcases hauth u hu with h1 | h1
      · rw [h1]; decide
      · rw [h1]; exact hactor
    · intro t ht hres
      rw [hview] at ht
      simp only [List.mem_map] at ht
      obtain ⟨t0, ht0, rfl⟩ := ht
      by_cases h0 : t0.id = ticketRow.id
      · simp only [h0, ↓reduceIte] at hres
        have : (debateVerdict env text (debateImpact (some draft)) k).requiresHuman = true := rfl
        simp only [this, ↓reduceIte] at hres
        exact absurd hres (by decide)
      · simp only [h0, ↓reduceIte]
        exact ht0
  · intro hfail
    constructor
    · intro draft text ht
      exact ⟨_, runAutomationForTicket_ok (k := w.draw) hfail rfl ht⟩
    · intro hllm hsub
      obtain ⟨s, hs⟩ := Option.ne_none_iff_exists'.mp hsub
      have hin := intake_no_llm env (textOr ticketRow.body (textOr ticketRow.subject "")) w hllm
      have ht : ∃ text, (baseText (JsVal.ofOption ticketRow.subject)
          (some (heuristicDraft (textOr ticketRow.body (textOr ticketRow.subject ""))))).asString
            = .ok text := by
        rw [hs]
        simp only [baseText, optField, heuristicDraft, JsVal.or, JsVal.ofOption]
        split <;> exact ⟨_, rfl⟩
      obtain ⟨text, ht⟩ := ht
      exact ⟨_, runAutomationForTicket_ok (k := w.draw) hfail hin ht⟩

/-- C3 at a concrete input: the call the batch runner makes for an open ticket
about a login outage returns "pending_info". -/
theorem runAutomationForTicket_pending_witness :
    ∃ w', runAutomationForTicket quietEnv (sampleTicket 1 "Login page outage since 9am").toRef
        none "Automation Runner" (worldOf twoOpenStore) =
      (.ok { status := "pending_info", resolution := none }, w') :=
  ((runAutomationForTicket_pending quietEnv (sampleTicket 1 "Login page outage since 9am").toRef
    "Automation Runner" (worldOf twoOpenStore)).2 (fun _ _ => rfl)).2 rfl (by decide)

/-! ## The severity rule -/

theorem debateImpact_eq_unavailable (draft : Option Draft) :
    (debateImpact draft == JsVal.str "Service unavailable") =
      (optField draft Draft.impact == JsVal.str "Service unavailable") := by
  unfold debateImpact JsVal.or
  by_cases ht : (optField draft Draft.impact).truthy = true
  · rw [if_pos ht]
  · rw [if_neg ht]
    cases hv : optField draft Draft.impact with
    | str s =>
      have hs : s.data = [] := by
        rw [hv] at ht
        simpa [JsVal.truthy] using ht
      have : s = "" := by
        cases s
        simp only at hs
        subst hs
        rfl
      subst this
      decide
    | undefined => decide
    | null => decide
    | bool b => rfl
    | num n => rfl
    | arr items => rfl
    | obj fields => rfl

/-- The severity and the risk of the verdict, by the three-way rule. -/
theorem managerDebate_severity (env : Env) (title : JsVal) (draft : Option Draft)
    (w : World) (text : String) (h : (baseText title draft).asString = .ok text) :
    ∃ v w', managerDebate env title draft w = (.ok v, w') ∧
      (v.severity, v.slaRisk) =
        if includes (toLowerCase text) "outage" = true ∨
            optField draft Draft.impact = .str "Service unavailable" then
          ("S1", (⟨85, 2⟩ : JsNum))
        else if includes (toLowerCase text) "payment" = true ∨
            includes (toLowerCase text) "billing" = true then
          ("S2", ⟨65, 2⟩)
        else ("S3", ⟨3, 1⟩) := by
  refine ⟨_, _, by rw [managerDebate_run, h], ?_⟩
  simp only [debateVerdict, assessSeverity, debateImpact_eq_unavailable]
  by_cases h1 : includes (toLowerCase text) "outage" = true
  · simp [h1]
  · by_cases h2 : optField draft Draft.impact = .str "Service unavailable"
    · simp [h2]
    · have h2' : (optField draft Draft.impact == JsVal.str "Service unavailable") = false := by
        simpa using h2
      simp only [h1, h2, h2', or_self, Bool.or_self, Bool.false_eq_true, ↓reduceIte]
      by_cases h3 : includes (toLowerCase text) "payment" = true
      · simp [h3]
      · by_cases h4 : includes (toLowerCase text) "billing" = true
        · simp [h4]
        · simp [h3, h4]

/-- C8: the severity and SLA rule of the debate. For the assessed text `text`
(the draft's problem, or the ticket title when the draft has no problem) and
the draft's impact, the debate returns a verdict that is S1 with risk 0.85 if
the lowercased text contains "outage" or the impact is "Service unavailable";
otherwise S2 with 0.65 if it contains "payment" or "billing"; otherwise S3
with 0.3. -/
theorem managerDebate_severity_rule (env : Env) (title : JsVal) (draft : Option Draft)
    (w : World) (text : String) (h : (baseText title draft).asString = .ok text) :
    ∃ v w', managerDebate env title draft w = (.ok v, w') ∧
      (v.severity, v.slaRisk) =
        if includes (toLowerCase text) "outage" = true ∨
            optField draft Draft.impact = .str "Service unavailable" then
          ("S1", (⟨85, 2⟩ : JsNum))
        else if includes (toLowerCase text) "payment" = true ∨
            includes (toLowerCase text) "billing" = true then
          ("S2", ⟨65, 2⟩)
        else ("S3", ⟨3, 1⟩) :=
  managerDebate_severity env title draft w text h

/-- C8 at a concrete input: a billing problem with no outage is S2 with risk 0.65. -/
theorem managerDebate_severity_rule_witness :
    ∃ v w', managerDebate quietEnv (.str "Invoice") (some (heuristicDraft "Billing page is slow"))
        (worldOf emptyStore) = (.ok v, w') ∧
      (v.severity, v.slaRisk) =
        if includes (toLowerCase "Billing page is slow") "outage" = true ∨
            optField (some (heuristicDraft "Billing page is slow")) Draft.impact =
              .str "Service unavailable" then
          ("S1", (⟨85, 2⟩ : JsNum))
        else if includes (toLowerCase "Billing page is slow") "payment" = true ∨
            includes (toLowerCase "Billing page is slow") "billing" = true then
          ("S2", ⟨65, 2⟩)
        else ("S3", ⟨3, 1⟩) :=
  managerDebate_severity_rule quietEnv (.str "Invoice") (some (heuristicDraft "Billing page is slow"))
    (worldOf emptyStore) "Billing page is slow" (by decide!)

/-! ## Keyword search -/

/-- The pattern starts the text exactly when the text is the pattern followed
by a rest. -/
theorem startsWithChars_iff :
    ∀ (pat s : List Char), startsWithChars pat s = true ↔ ∃ rest, s = pat ++ rest
  | [], s => ⟨fun _ => ⟨s, rfl⟩, fun _ => rfl⟩
  | p :: ps, [] => by simp [startsWithChars]
  | p :: ps, c :: cs => by
    simp only [startsWithChars, Bool.and_eq_true, beq_iff_eq, List.cons_append, List.cons.injEq,
      startsWithChars_iff ps cs]
    constructor
    · rintro ⟨h1, rest, h2⟩
      exact ⟨rest, h1.symm, h2⟩
    · rintro ⟨rest, h1, h2⟩
      exact ⟨h1.symm, rest, h2⟩

/-- The text includes the pattern exactly when the pattern stands in it
between a part before and a part after. -/
theorem includesChars_iff (pat : List Char) :
    ∀ s : List Char, includesChars s pat = true ↔ ∃ before after, s = before ++ pat ++ after
  | [] => by
    simp only [includesChars, List.isEmpty_eq_true]
    constructor
    · intro h
      exact ⟨[], [], by simp [h]⟩
    · rintro ⟨before, after, h⟩
      have h1 := congrArg List.length h
      simp only [List.length_nil, List.length_append] at h1
      exact List.length_eq_zero.mp (by omega)
  | c :: cs => by
    simp only [includesChars, Bool.or_eq_true, startsWithChars_iff, includesChars_iff pat cs]
    constructor
    · rintro (⟨rest, h⟩ | ⟨before, after, h⟩)
      · exact ⟨[], rest, by simpa using h⟩
      · exact ⟨c :: before, after, by simp [h]⟩
    · rintro ⟨before, after, h⟩
      cases before with
      | nil => exact Or.inl ⟨after, by simpa using h⟩
      | cons b bs =>
        simp only [List.cons_append, List.cons.injEq] at h
        exact Or.inr ⟨bs, after, by simpa using h.2⟩

/-- A text that contains a lowercase keyword still contains it once lowered. -/
theorem includes_toLowerCase (s pat : String) (hpat : toLowerCase pat = pat)
    (h : includes s pat = true) : includes (toLowerCase s) pat = true := by
  obtain ⟨before, after, hs⟩ := (includesChars_iff pat.data s.data).mp h
  have hp : pat.data.flatMap lowerChar = pat.data := congrArg String.data hpat
  refine (includesChars_iff pat.data _).mpr
    ⟨before.flatMap lowerChar, after.flatMap lowerChar, ?_⟩
  show s.data.flatMap lowerChar = _
  rw [hs, List.flatMap_append, List.flatMap_append, hp]

theorem startsWithChars_take (n : Nat) :
    ∀ (pat s : List Char), startsWithChars pat (s.take n) = true → startsWithChars pat s = true
  | [], _, _ => rfl
  | _ :: _, [], h => by simp [startsWithChars] at h
  | p :: ps, c :: cs, h => by
    cases n with
    | zero => simp [startsWithChars] at h
    | succ n =>
      simp only [List.take_succ_cons, startsWithChars, Bool.and_eq_true, beq_iff_eq] at h
      simp only [startsWithChars, Bool.and_eq_true, beq_iff_eq]
      exact ⟨h.1, startsWithChars_take n ps cs h.2⟩

theorem includesChars_nonempty (pat : List Char) (hpat : pat ≠ []) :
    ∀ s : List Char, includesChars s pat = true → s ≠ []
  | [], h => by
    simp only [includesChars, List.isEmpty_eq_true] at h
    exact absurd h hpat
  | _ :: _, _ => by simp

theorem slice0_nonempty (s : String) (n : Nat) (hs : s.data ≠ []) :
    (slice0 s (n + 1)).data ≠ [] := by
  unfold slice0
  cases hd : s.data with
  | nil => exact absurd hd hs
  | cons c cs => simp

theorem toLowerCase_data_nonempty (s : String) (h : (toLowerCase s).data ≠ []) : s.data ≠ [] := by
  intro hs
  apply h
  simp [toLowerCase, hs]

/-! ## Outage reports -/

theorem extractImpact_unavailable_nonempty (rawText : String)
    (h : extractImpact rawText = "Service unavailable") : rawText.data ≠ [] := by
  apply toLowerCase_data_nonempty
  unfold extractImpact at h
  simp only at h
  split at h
  · exact absurd h (by decide)
  · split at h
    · exact absurd h (by decide)
    · split at h
      · rename_i h3
        simp only [Bool.or_eq_true] at h3
        rcases h3 with h3 | h3
        · exact includesChars_nonempty _ (by decide) _ h3
        · exact includesChars_nonempty _ (by decide) _ h3
      · exact absurd h (by decide)

/-- C9, amended: for every raw text whose first 140 characters lie below
U+10000, so that they are the 140 code units `slice(0, 140)` keeps, and
contain "outage" (in any letter case), or whose heuristic impact is "Service
unavailable", the heuristic draft that intake builds and the debate on that
draft, for any ticket title, give severity "S1" and SLA risk 0.85. -/
theorem outage_in_problem_is_S1 (env : Env) (title : JsVal) (rawText : String) (w : World)
    (hllm : env.llm = none) (_hunits : singleUnits rawText 140 = true)
    (h : includes (slice0 rawText 140) "outage" = true ∨
      includes (toLowerCase (slice0 rawText 140)) "outage" = true ∨
      extractImpact rawText = "Service unavailable") :
    ∃ d w1 v w2, intake env rawText w = (.ok d, w1) ∧ d = heuristicDraft rawText ∧
      managerDebate env title (some d) w1 = (.ok v, w2) ∧
      v.severity = "S1" ∧ v.slaRisk = ⟨85, 2⟩ := by
  have hne : (slice0 rawText 140).data ≠ [] := by
    rcases h with h | h | h
    · exact includesChars_nonempty _ (by decide) _ h
    · exact toLowerCase_data_nonempty _ (includesChars_nonempty _ (by decide) _ h)
    · exact slice0_nonempty rawText 139 (extractImpact_unavailable_nonempty rawText h)
  have hbase : (baseText title (some (heuristicDraft rawText))).asString =
      .ok (slice0 rawText 140) := by
    simp [baseText, optField, heuristicDraft, JsVal.or, JsVal.truthy, hne, JsVal.asString]
  obtain ⟨v, w2, hrun, hsev⟩ :=
    managerDebate_severity env title (some (heuristicDraft rawText)) w _ hbase
  refine ⟨_, _, v, w2, intake_no_llm env rawText w hllm, rfl, hrun, ?_⟩
  have hcond : includes (toLowerCase (slice0 rawText 140)) "outage" = true ∨
      optField (some (heuristicDraft rawText)) Draft.impact = .str "Service unavailable" := by
    rcases h with h | h | h
    · exact Or.inl (includes_toLowerCase _ _ (by decide) h)
    · exact Or.inl h
    · right
      simp [optField, heuristicDraft, h]
  rw [if_pos hcond] at hsev
  simp only [Prod.mk.injEq] at hsev
  exact hsev

/-- C9, amended, at a concrete input: a short report of an outage. -/
theorem outage_in_problem_is_S1_witness :
    ∃ d w1 v w2, intake quietEnv "Login page outage since 9am" (worldOf emptyStore) = (.ok d, w1) ∧
      d = heuristicDraft "Login page outage since 9am" ∧
      managerDebate quietEnv (.str "Login page") (some d) w1 = (.ok v, w2) ∧
      v.severity = "S1" ∧ v.slaRisk = ⟨85, 2⟩ :=
  outage_in_problem_is_S1 quietEnv (.str "Login page") "Login page outage since 9am"
    (worldOf emptyStore) rfl (by decide!) (Or.inl (by decide!))

/-- C9 as stated fails: the report `lateOutageText` contains "outage", after
its first 140 characters; intake builds its heuristic draft, whose problem
stops before the word and whose impact is "Access blocked", and the debate on
that draft gives severity "S3" with risk 0.3. -/
theorem outage_anywhere_is_not_S1 :
    includes lateOutageText "outage" = true ∧
    intake quietEnv lateOutageText (worldOf emptyStore) =
      (.ok (heuristicDraft lateOutageText), worldOf emptyStore) ∧
    ((managerDebate quietEnv (.str (slice0 lateOutageText 90))
        (some (heuristicDraft lateOutageText)) (worldOf emptyStore)).1.toOption.map
      fun v => (v.severity, v.slaRisk)) = some ("S3", ⟨3, 1⟩) := by
  decide!

/-! ## Payment and outage in the impact -/

/-- C10, amended: payment wins over outage in the draft's impact. For every
raw text that contains both "outage" and "payment", so for the raw text of the
end-to-end example, the heuristic draft built by intake has the impact
"Revenue impact". -/
theorem payment_wins_over_outage (env : Env) (rawText : String) (w : World)
    (hllm : env.llm = none) (_houtage : includes rawText "outage" = true)
    (hpayment : includes rawText "payment" = true) :
    ∃ d w1, intake env rawText w = (.ok d, w1) ∧ d = heuristicDraft rawText ∧
      d.impact = .str "Revenue impact" := by
  refine ⟨_, _, intake_no_llm env rawText w hllm, rfl, ?_⟩
  have := includes_toLowerCase rawText "payment" (by decide) hpayment
  simp [heuristicDraft, extractImpact, this]

/-- C10, amended, at a concrete input: the end-to-end example itself. -/
theorem payment_wins_over_outage_witness :
    ∃ d w1, intake quietEnv checkoutText (worldOf emptyStore) = (.ok d, w1) ∧
      d = heuristicDraft checkoutText ∧ d.impact = .str "Revenue impact" :=
  payment_wins_over_outage quietEnv checkoutText (worldOf emptyStore) rfl (by decide!)
    (by decide!)

/-- C10 as stated fails: the end-to-end example contains both "payment" and
"outage", and the heuristic draft intake builds for it has the impact
"Revenue impact", not "Service unavailable". -/
theorem outage_does_not_win_over_payment :
    includes checkoutText "outage" = true ∧ includes checkoutText "payment" = true ∧
    intake quietEnv checkoutText (worldOf emptyStore) =
      (.ok (heuristicDraft checkoutText), worldOf emptyStore) ∧
    (heuristicDraft checkoutText).impact = .str "Revenue impact" ∧
    (heuristicDraft checkoutText).impact ≠ .str "Service unavailable" := by
  decide!

/-! ## Transactions that commit -/

theorem Run.tryCatch_eq_ok {α : Type} {body : Run α} {handler : JsErr → Run α} {w w' : World}
    {x : α} :
    Run.tryCatch body handler w = (.ok x, w') ↔
      body w = (.ok x, w') ∨ ∃ e w1, body w = (.error e, w1) ∧ handler e w1 = (.ok x, w') := by
  unfold Run.tryCatch
  cases hb : body w with
  | mk r w1 =>
    cases r with
    | ok a => simp
    | error e =>
      constructor
      · intro h; exact Or.inr ⟨e, w1, rfl, h⟩
      · rintro (h | ⟨e1, w2, h1, h2⟩)
        · cases h
        · cases h1
          exact h2

theorem beginTransaction_eq_ok {env : Env} {w w' : World} {u : Unit} :
    beginTransaction env w = (.ok u, w') ↔
      env.fails w.tick = false ∧ w' = { w with tick := w.tick + 1, txn := some w.db } := by
  simp only [beginTransaction, nextTick, Run.bind_run]
  by_cases hf : env.fails w.tick
  · simp [hf, Run.throw]
  · simp only [Bool.not_eq_true] at hf
    simp only [hf, Bool.false_eq_true, ↓reduceIte, Prod.mk.injEq, true_and]
    exact eq_comm

theorem commit_eq_ok {env : Env} {w w' : World} {u : Unit} :
    commit env w = (.ok u, w') ↔
      env.fails w.tick = false ∧ w' = { w with tick := w.tick + 1, db := w.view, txn := none } := by
  simp only [commit, nextTick, Run.bind_run]
  by_cases hf : env.fails w.tick
  · simp [hf, Run.throw]
  · simp only [Bool.not_eq_true] at hf
    simp only [hf, Bool.false_eq_true, ↓reduceIte, Prod.mk.injEq, true_and]
    exact eq_comm

/-- A transaction that commits: what the block `begin; body; commit` leaves
when it ends well after `body` issued exactly the statements `stmts`. -/
theorem committed_world {w w1 w2 w3 : World} {stmts : List Stmt} {k : Nat}
    (h1 : w1 = { w with tick := w.tick + 1, txn := some w.db })
    (h2 : w2 = (w1.advance stmts).withDraw k)
    (h3 : w3 = { w2 with tick := w2.tick + 1, db := w2.view, txn := none }) :
    w3.db = Store.applyAll stmts w.db ∧ w3.txn = none ∧ w3.tick = w.tick + stmts.length + 2 ∧
      w3.autoInc = w.autoInc ∧ w3.draw = k := by
  subst h3 h2 h1
  have hv : (({ w with tick := w.tick + 1, txn := some w.db } : World).advance stmts).view =
      Store.applyAll stmts w.db := by
    have := World.writeAll_view { w with tick := w.tick + 1, txn := some w.db } stmts
    exact this
  refine ⟨hv, rfl, ?_, ?_, rfl⟩
  · simp only [World.withDraw_tick, World.advance_tick]
    omega
  · simp only [World.withDraw_autoInc, World.advance_autoInc]

theorem applyAll_approvalWrites (ticketId : Nat) (userEmail : Option String) (resolution : String)
    (s : Store) :
    Store.applyAll (approvalWrites ticketId userEmail resolution) s =
      { tickets := s.tickets.map fun t =>
          if t.id = ticketId then { t with status := "resolved" } else t
        ticket_drafts := s.ticket_drafts
        negotiations := s.negotiations
        ticket_links := s.ticket_links
        ticket_updates := s.ticket_updates ++
          [{ ticket_id := ticketId
             author := "Approval Gate"
             message := "Approved by " ++ textOr userEmail "user" ++ ". Resuming automation." },
           { ticket_id := ticketId, author := "Resolution Agent", message := resolution }] } := by
  simp only [approvalWrites, Store.applyAll, List.foldl_cons, List.foldl_nil, Stmt.apply,
    List.map_map, List.append_assoc, List.singleton_append, Store.mk.injEq, and_true, true_and]
  apply List.map_congr_left
  intro t _
  by_cases h : t.id = ticketId <;> simp [h]

/-- The draft `POST /:id/approve` reads for the ticket: the first row of
`ticket_drafts` for it, if any. -/
theorem approve_eq_ok {env : Env} {ticketId : Nat} {userEmail : Option String} {w w' : World}
    {r : String} (h : approve env ticketId userEmail w = (.ok (.approved r), w')) :
    ∃ row, (w.db.tickets.filter fun t => t.id = ticketId).head? = some row ∧
      r = proposeResolution (JsVal.ofOption row.subject)
        ((w.db.ticket_drafts.filter fun d => d.ticket_id = ticketId).head?.map
          DraftRow.toDraft) ∧
      w'.db = Store.applyAll (approvalWrites ticketId userEmail r) w.db ∧ w'.txn = none := by
  unfold approve at h
  simp only [Run.bind_run, queryRows_run] at h
  cases hrow : (List.filter (fun t => decide (t.id = ticketId)) w.db.tickets).head? with
  | none =>
    rw [hrow] at h
    simp at h
  | some row =>
    rw [hrow] at h
    simp only [Run.bind_run, queryRows_run] at h
    rw [Run.tryCatch_eq_ok] at h
    rcases h with h | ⟨e, w1, _, h⟩
    · simp only [Run.bind_eq_ok] at h
      obtain ⟨_, w1, h1, _, w2, h2, _, w3, h3, _, w4, h4, _, w5, h5, _, w6, h6, h7⟩ := h
      rw [beginTransaction_eq_ok] at h1
      rw [execute_eq_ok] at h2 h3 h4 h5
      rw [commit_eq_ok] at h6
      simp only [Run.pure_run, Prod.mk.injEq, Except.ok.injEq, Response.approved.injEq] at h7
      obtain ⟨hr, hw⟩ := h7
      subst hw
      have hw5 : w5 = (w1.advance (approvalWrites ticketId userEmail r)).withDraw
          (w1.advance (approvalWrites ticketId userEmail r)).draw := by
        rw [World.withDraw_self, h5.2, h4.2, h3.2, h2.2]
        simp only [World.advance_advance, approvalWrites, List.singleton_append,
          List.cons_append, List.nil_append, hr]
      obtain ⟨g1, g2, _⟩ := committed_world h1.2 hw5 h6.2
      exact ⟨row, rfl, hr.symm, g1, g2⟩
    · simp only [Run.bind_run, rollback, Run.pure_run, Prod.mk.injEq, Except.ok.injEq] at h
      exact absurd h.1 (by simp)

theorem beginTransaction_ok_of {env : Env} {w : World} (h : env.fails w.tick = false) :
    beginTransaction env w = (.ok (), { w with tick := w.tick + 1, txn := some w.db }) :=
  beginTransaction_eq_ok.mpr ⟨h, rfl⟩

theorem commit_ok_of {env : Env} {w : World} (h : env.fails w.tick = false) :
    commit env w = (.ok (), { w with tick := w.tick + 1, db := w.view, txn := none }) :=
  commit_eq_ok.mpr ⟨h, rfl⟩

theorem Run.tryCatch_ok {α : Type} {body : Run α} {handler : JsErr → Run α} {w v : World}
    {x : α} (h : body w = (.ok x, v)) : Run.tryCatch body handler w = (.ok x, v) :=
  Run.tryCatch_eq_ok.mpr (Or.inl h)

theorem approve_ok {env : Env} {ticketId : Nat} (userEmail : Option String) {w : World}
    {row : TicketRow} (hfail : ∀ t, w.tick ≤ t → env.fails t = false)
    (hrow : (w.db.tickets.filter fun t => t.id = ticketId).head? = some row) :
    ∃ w', approve env ticketId userEmail w =
      (.ok (.approved (proposeResolution (JsVal.ofOption row.subject)
        ((w.db.ticket_drafts.filter fun d => d.ticket_id = ticketId).head?.map
          DraftRow.toDraft))), w') := by
  unfold approve
  simp only [Run.bind_run, queryRows_run]
  rw [hrow]
  simp only [Run.bind_run, queryRows_run]
  apply Exists.intro
  apply Run.tryCatch_ok
  refine (Run.bind_ok (beginTransaction_ok_of (hfail _ (le_refl _)))).trans ?_
  refine (Run.bind_ok (execute_ok_of _ (hfail _ (by simp)))).trans ?_
  refine (Run.bind_ok (execute_ok_of _ (hfail _ (by simp; omega)))).trans ?_
  refine (Run.bind_ok (execute_ok_of _ (hfail _ (by simp; omega)))).trans ?_
  refine (Run.bind_ok (execute_ok_of _ (hfail _ (by simp; omega)))).trans ?_
  refine (Run.bind_ok (commit_ok_of (hfail _ (by simp; omega)))).trans ?_
  rfl

/-- C5: the approval flow. A successful approve of a ticket leaves every row of
the ticket with the status "resolved", appends exactly two updates for it, one
authored "Approval Gate" that records the approver followed by one authored
"Resolution Agent" whose message is `proposeResolution` of the ticket's subject
and its draft, and adds or changes no draft, negotiation or link. For a ticket
of the store whose status is "pending_info", approve is successful whenever no
statement fails. -/
theorem approve_effects (env : Env) (ticketId : Nat) (userEmail : Option String) (w : World) :
    (∀ (r : String) (w' : World),
      approve env ticketId userEmail w = (.ok (.approved r), w') →
        ∃ row, (w.db.tickets.filter fun t => t.id = ticketId).head? = some row ∧
          r = proposeResolution (JsVal.ofOption row.subject)
            ((w.db.ticket_drafts.filter fun d => d.ticket_id = ticketId).head?.map
              DraftRow.toDraft) ∧
          w'.db.tickets = (w.db.tickets.map fun t =>
            if t.id = ticketId then { t with status := "resolved" } else t) ∧
          (∀ t ∈ w'.db.tickets, t.id = ticketId → t.status = "resolved") ∧
          w'.db.ticket_updates = w.db.ticket_updates ++
            [{ ticket_id := ticketId
               author := "Approval Gate"
               message := "Approved by " ++ textOr userEmail "user" ++ ". Resuming automation." },
             { ticket_id := ticketId, author := "Resolution Agent", message := r }] ∧
          w'.db.ticket_drafts = w.db.ticket_drafts ∧
          w'.db.negotiations = w.db.negotiations ∧
          w'.db.ticket_links = w.db.ticket_links) ∧
    (∀ row ∈ w.db.tickets, row.id = ticketId → row.status = "pending_info" →
      (∀ t, w.tick ≤ t → env.fails t = false) →
        ∃ r w', approve env ticketId userEmail w = (.ok (.approved r), w')) := by
  constructor
  · intro r w' h
    obtain ⟨row, hrow, hr, hdb, _⟩ := approve_eq_ok h
    rw [applyAll_approvalWrites] at hdb
    refine ⟨row, hrow, hr, by rw [hdb], ?_, by rw [hdb], by rw [hdb], by rw [hdb], by rw [hdb]⟩
    intro t ht hid
    rw [hdb] at ht
    simp only [List.mem_map] at ht
    obtain ⟨t0, _, rfl⟩ := ht
    by_cases h0 : t0.id = ticketId
    · simp only [h0, ↓reduceIte]
    · simp only [h0, ↓reduceIte] at hid
  · intro row hrow hid _ hfail
    have hmem : row ∈ w.db.tickets.filter fun t => t.id = ticketId :=
      List.mem_filter.mpr ⟨hrow, by simpa using hid⟩
    cases hh : (w.db.tickets.filter fun t => t.id = ticketId).head? with
    | none =>
      rw [List.head?_eq_none_iff] at hh
      rw [hh] at hmem
      cases hmem
    | some first =>
      obtain ⟨w', h⟩ := approve_ok userEmail hfail hh
      exact ⟨_, w', h⟩

/-- C5 at a concrete input: the ticket of `pendingWorld`, which waits for
approval, is approved when no statement fails. -/
theorem approve_effects_witness :
    ∃ r w', approve quietEnv 1 (some "lead@example.com") pendingWorld =
      (.ok (.approved r), w') :=
  (approve_effects quietEnv 1 (some "lead@example.com") pendingWorld).2 pendingTicket
    (by decide!) (by decide!) (by decide!) (fun _ _ => rfl)

/-! ## The status vocabulary -/

/-- C6 fails on the code at single-ticket triage: in `pendingWorld` every
ticket has a status of the lifecycle; `POST /:id/triage` on its ticket ends
well and leaves the ticket with the status "triaged", which is none of open,
pending_info, in_progress, resolved. -/
theorem triage_writes_triaged :
    (∀ t ∈ pendingWorld.db.tickets, canonicalStatus t.status = true) ∧
    (triage quietEnv 1 pendingWorld).1 =
      .ok (.triaged (debateVerdict quietEnv "Export is slow" (.str "Degraded experience") 4)
        (applyEscalation ⟨3, 1⟩)) ∧
    ((triage quietEnv 1 pendingWorld).2.db.tickets.map fun t => (t.id, t.status)) =
      [(1, "triaged")] ∧
    canonicalStatus "triaged" = false := by
  decide!

/-! ## The batch runner -/

/-- The outcome of a transactional block whose catch rolls back: it commits
what the block did, or it falls back with the committed store as it was. -/
theorem transaction_result {α : Type} (env : Env) (block : Run α) (fallback : α)
    (hb : Run.Closing env block) (w : World) :
    (∃ x v u, block { w with tick := w.tick + 1, txn := some w.db } = (.ok x, v) ∧
      env.fails w.tick = false ∧
      Run.tryCatch (beginTransaction env >>= fun _ => block)
        (fun _ => rollback >>= fun _ => pure fallback) w = (.ok x, u) ∧ u = v) ∨
    (∃ v, Run.tryCatch (beginTransaction env >>= fun _ => block)
        (fun _ => rollback >>= fun _ => pure fallback) w = (.ok fallback, v) ∧
      v.db = w.db ∧ v.txn = none) := by
  simp only [Run.tryCatch, Run.bind_run, beginTransaction, nextTick]
  by_cases hf : env.fails w.tick
  · right
    simp [hf, Run.throw, rollback]
  · simp only [Bool.not_eq_true] at hf
    simp only [hf, Bool.false_eq_true, ↓reduceIte]
    have hw1 : ({ w with tick := w.tick + 1, txn := some w.db } : World).txn.isSome := rfl
    obtain ⟨_, g2⟩ := hb _ hw1
    cases hbw : block { w with tick := w.tick + 1, txn := some w.db } with
    | mk r w2 =>
      rw [hbw] at g2
      cases r with
      | error e =>
        right
        simp only [rollback, Run.pure_run]
        simp only at g2
        exact ⟨_, rfl, g2, rfl⟩
      | ok a =>
        left
        exact ⟨a, w2, w2, rfl, trivial, rfl, rfl⟩

/-- One iteration of the batch runner on a ticket: it commits exactly the
writes of one run of the controller, or it leaves the store as it was. -/
theorem batchStep_result (env : Env) (ticketRow : TicketRef) (draftRow : Option Draft)
    (w : World) :
    ∃ committed v,
      Run.tryCatch
        (beginTransaction env >>= fun _ =>
          runAutomationForTicket env ticketRow draftRow "Automation Runner" >>= fun _ =>
          commit env >>= fun _ => (pure true : Run Bool))
        (fun _ => rollback >>= fun _ => pure false) w = (.ok committed, v) ∧
      v.txn = none ∧
      (committed = false → v.db = w.db) ∧
      (committed = true → ∃ draft debate,
        debate.requiresHuman = true ∧
        v.db = Store.applyAll
          (automationWrites ticketRow.id draftRow.isSome draft debate "Automation Runner")
          w.db) := by
  rcases transaction_result env _ false (batchStep_closing env ticketRow draftRow) w with
    ⟨x, v, u, hblock, _, hres, hu⟩ | ⟨v, hres, hdb, htxn⟩
  · subst hu
    simp only [Run.bind_eq_ok] at hblock
    obtain ⟨r, w2, hrun, _, w3, hcommit, hpure⟩ := hblock
    obtain ⟨draft, text, k, _, _, _, hw2⟩ := runAutomationForTicket_eq_ok hrun
    rw [commit_eq_ok] at hcommit
    simp only [Run.pure_run, Prod.mk.injEq, Except.ok.injEq] at hpure
    obtain ⟨hx, hw3⟩ := hpure
    subst hx hw3
    obtain ⟨g1, g2, _⟩ := committed_world rfl hw2 hcommit.2
    refine ⟨true, _, hres, g2, by simp, fun _ => ⟨draft, _, rfl, g1⟩⟩
  · exact ⟨false, v, hres, htxn, fun _ => hdb, by simp⟩

theorem hasNegotiation_applyAll_automationWrites (ticketRowId : Nat) (supplied : Bool)
    (draft : Draft) (debate : Verdict) (actorLabel : String) (s : Store) (id : Nat) :
    (Store.applyAll (automationWrites ticketRowId supplied draft debate actorLabel)
      s).hasNegotiation id = (s.hasNegotiation id || decide (ticketRowId = id)) := by
  rw [applyAll_automationWrites]
  simp [Store.hasNegotiation, List.any_append]

theorem open_of_applyAll_automationWrites (ticketRowId : Nat) (supplied : Bool)
    (draft : Draft) (debate : Verdict) (actorLabel : String) (s : Store)
    (hreq : debate.requiresHuman = true) (t : TicketRow)
    (ht : t ∈ (Store.applyAll (automationWrites ticketRowId supplied draft debate actorLabel)
      s).tickets) (hopen : t.status = "open") : t ∈ s.tickets ∧ t.id ≠ ticketRowId := by
  rw [applyAll_automationWrites] at ht
  simp only [List.mem_map] at ht
  obtain ⟨t0, ht0, rfl⟩ := ht
  by_cases h0 : t0.id = ticketRowId
  · simp only [h0, ↓reduceIte, hreq] at hopen
    exact absurd hopen (by decide)
  · simp only [h0, ↓reduceIte]
    exact ⟨ht0, h0⟩

/-- What one iteration on a ticket without a negotiation record does to the
negotiation records and to the open tickets. -/
theorem batchStep_facts (env : Env) (ticketRow : TicketRow) (draftRow : Option Draft) (w : World)
    (hneg : w.db.hasNegotiation ticketRow.id = false) :
    ∃ committed v,
      Run.tryCatch
        (beginTransaction env >>= fun _ =>
          runAutomationForTicket env ticketRow.toRef draftRow "Automation Runner" >>= fun _ =>
          commit env >>= fun _ => (pure true : Run Bool))
        (fun _ => rollback >>= fun _ => pure false) w = (.ok committed, v) ∧
      (∀ j, w.db.hasNegotiation j = true → v.db.hasNegotiation j = true) ∧
      (∀ j, j ≠ ticketRow.id → v.db.hasNegotiation j = w.db.hasNegotiation j) ∧
      v.db.hasNegotiation ticketRow.id = committed ∧
      (∀ t ∈ v.db.tickets, t.status = "open" → t ∈ w.db.tickets) ∧
      (committed = false → v.db = w.db) := by
  obtain ⟨committed, v, hres, _, hfalse, htrue⟩ := batchStep_result env ticketRow.toRef draftRow w
  refine ⟨committed, v, hres, ?_⟩
  cases committed with
  | false =>
    have hdb := hfalse rfl
    rw [hdb]
    exact ⟨fun _ h => h, fun _ _ => rfl, hneg, fun _ h _ => h, fun _ => rfl⟩
  | true =>
    obtain ⟨draft, debate, hreq, hdb⟩ := htrue rfl
    rw [hdb]
    have hid : ticketRow.toRef.id = ticketRow.id := rfl
    refine ⟨?_, ?_, ?_, ?_, by simp⟩
    · intro j hj
      rw [hasNegotiation_applyAll_automationWrites, hj]
      rfl
    · intro j hj
      rw [hasNegotiation_applyAll_automationWrites, hid]
      have : decide (ticketRow.id = j) = false := by simpa using fun h => hj h.symm
      rw [this, Bool.or_false]
    · rw [hasNegotiation_applyAll_automationWrites]
      simp [hid]
    · intro t ht hopen
      exact (open_of_applyAll_automationWrites _ _ _ _ _ _ hreq t ht hopen).1

/-- The batch loop always ends well; its counters and its effect on the
negotiation records and on the open tickets. -/
theorem automateOpenLoop_result (env : Env) :
    ∀ (tickets : List TicketRow) (processed skipped : Nat) (w : World),
      (tickets.map fun t => t.id).Nodup →
      ∃ p s v, automateOpenLoop env tickets processed skipped w = (.ok (p, s), v) ∧
        s = skipped + tickets.countP (fun t => w.db.hasNegotiation t.id) ∧
        p = processed + tickets.countP
          (fun t => !w.db.hasNegotiation t.id && v.db.hasNegotiation t.id) ∧
        (∀ j, w.db.hasNegotiation j = true → v.db.hasNegotiation j = true) ∧
        (∀ j, j ∉ tickets.map (fun t => t.id) →
          v.db.hasNegotiation j = w.db.hasNegotiation j) ∧
        (∀ t ∈ v.db.tickets, t.status = "open" → t ∈ w.db.tickets)
  | [], processed, skipped, w, _ =>
    ⟨processed, skipped, w, automateOpenLoop_nil_run env processed skipped w, by simp, by simp,
      fun _ h => h, fun _ _ => rfl, fun _ h _ => h⟩
  | ticketRow :: rest, processed, skipped, w, hnodup => by
    rw [List.map_cons, List.nodup_cons] at hnodup
    obtain ⟨hnot, hrest⟩ := hnodup
    have hne : ∀ r ∈ rest, r.id ≠ ticketRow.id := by
      intro r hr heq
      exact hnot (List.mem_map.mpr ⟨r, hr, heq⟩)
    rw [automateOpenLoop_cons_run]
    by_cases hneg : w.db.hasNegotiation ticketRow.id = true
    · rw [if_pos hneg]
      obtain ⟨p, s, v, hrun, hs, hp, hmono, hframe, hopen⟩ :=
        automateOpenLoop_result env rest processed (skipped + 1) w hrest
      refine ⟨p, s, v, hrun, ?_, ?_, hmono, ?_, hopen⟩
      · rw [hs, List.countP_cons, hneg]
        simp only [↓reduceIte]
        omega
      · rw [hp, List.countP_cons, hneg]
        simp
      · intro j hj
        apply hframe
        intro hmem
        exact hj (List.mem_cons_of_mem _ hmem)
    · rw [if_neg hneg]
      simp only [Bool.not_eq_true] at hneg
      obtain ⟨committed, v1, hstep, hmono1, hframe1, hcommitted, hopen1, _⟩ :=
        batchStep_facts env ticketRow
          (((w.db.ticket_drafts.filter fun d => d.ticket_id = ticketRow.id).head?).map
            DraftRow.toDraft) w hneg
      rw [hstep]
      simp only
      obtain ⟨p, s, v, hrun, hs, hp, hmono, hframe, hopen⟩ :=
        automateOpenLoop_result env rest (if committed = true then processed + 1 else processed)
          skipped v1 hrest
      have hhead : v.db.hasNegotiation ticketRow.id = committed := by
        rw [hframe ticketRow.id hnot, hcommitted]
      refine ⟨p, s, v, hrun, ?_, ?_, ?_, ?_, ?_⟩
      · rw [hs, List.countP_cons, hneg]
        simp only [Bool.false_eq_true, ↓reduceIte, add_zero]
        congr 1
        apply List.countP_congr
        intro r hr
        rw [hframe1 r.id (hne r hr)]
      · rw [hp, List.countP_cons, hneg, hhead]
        have hc : rest.countP (fun t => !v1.db.hasNegotiation t.id && v.db.hasNegotiation t.id) =
            rest.countP (fun t => !w.db.hasNegotiation t.id && v.db.hasNegotiation t.id) := by
          apply List.countP_congr
          intro r hr
          rw [hframe1 r.id (hne r hr)]
        rw [hc]
        cases committed
        · simp
        · simp only [↓reduceIte, Bool.not_false, Bool.and_self]
          omega
      · intro j hj
        exact hmono j (hmono1 j hj)
      · intro j hj
        have hj1 : j ≠ ticketRow.id := fun h => hj (by rw [h]; exact List.mem_cons_self _ _)
        have hj2 : j ∉ rest.map fun t => t.id := fun h => hj (List.mem_cons_of_mem _ h)
        rw [hframe j hj2, hframe1 j hj1]
      · intro t ht ho
        exact hopen1 t (hopen t ht ho) ho

theorem countP_three_way {α : Type} (a b : α → Bool) :
    ∀ l : List α, l.countP a + l.countP (fun x => !a x && b x) +
      l.countP (fun x => !a x && !b x) = l.length
  | [] => rfl
  | x :: xs => by
    have ih := countP_three_way a b xs
    simp only [List.countP_cons, List.length_cons]
    cases a x <;> cases b x <;> simp <;> omega

theorem automateOpen_run (env : Env) (w : World) :
    automateOpen env w =
      if w.db.openTickets = [] then (.ok { processed := 0, skipped := 0 }, w)
      else
        match automateOpenLoop env w.db.openTickets 0 0 w with
        | (.ok (p, s), v) => (.ok { processed := p, skipped := s }, v)
        | (.error e, v) => (.error e, v) := by
  unfold automateOpen
  simp only [Run.bind_run, queryRows_run]
  have hopen : (w.db.tickets.filter fun t => t.status = "open") = w.db.openTickets := rfl
  simp only [hopen]
  by_cases h : w.db.openTickets = []
  · rw [if_pos h, if_pos (by rw [h]; rfl)]
    rfl
  · rw [if_neg h, if_neg (by simpa using h)]
    simp only [Run.bind_run]
    cases automateOpenLoop env w.db.openTickets 0 0 w with
    | mk r v =>
      cases r with
      | error e => rfl
      | ok ps => rfl

theorem openTickets_nodup (s : Store) (h : (s.tickets.map fun t => t.id).Nodup) :
    (s.openTickets.map fun t => t.id).Nodup :=
  h.sublist ((List.filter_sublist _).map _)

/-- C2: the counts of the batch runner. On a store whose tickets have distinct
ids, the batch run always ends with a result: `skipped` is the number of open
tickets that already had a negotiation record; `processed` is the number of
open tickets that had none and whose automation committed, that is, that have
one afterwards; the open tickets whose automation failed, which have none
afterwards either, are counted in neither, so `processed + skipped` is the
number of open tickets less the number of failed ones; and with no open ticket
the result is 0 processed and 0 skipped. -/
theorem automateOpen_counts (env : Env) (w : World)
    (hnodup : (w.db.tickets.map fun t => t.id).Nodup) :
    ∃ r v, automateOpen env w = (.ok r, v) ∧
      r.skipped = w.db.openTickets.countP (fun t => w.db.hasNegotiation t.id) ∧
      r.processed = w.db.openTickets.countP
        (fun t => !w.db.hasNegotiation t.id && v.db.hasNegotiation t.id) ∧
      r.processed + r.skipped =
        w.db.openTickets.length - w.db.openTickets.countP (fun t => !v.db.hasNegotiation t.id) ∧
      (w.db.openTickets = [] → r = { processed := 0, skipped := 0 }) := by
  obtain ⟨p, s, v, hrun, hs, hp, hmono, _, _⟩ :=
    automateOpenLoop_result env w.db.openTickets 0 0 w (openTickets_nodup w.db hnodup)
  have hres : automateOpen env w = (.ok { processed := p, skipped := s }, v) := by
    rw [automateOpen_run]
    by_cases h : w.db.openTickets = []
    · rw [if_pos h]
      rw [h, automateOpenLoop_nil_run] at hrun
      simp only [Prod.mk.injEq, Except.ok.injEq] at hrun
      obtain ⟨⟨h1, h2⟩, h3⟩ := hrun
      subst h1 h2 h3
      rfl
    · rw [if_neg h, hrun]
  have hthree := countP_three_way (fun t : TicketRow => w.db.hasNegotiation t.id)
    (fun t => v.db.hasNegotiation t.id) w.db.openTickets
  have hlast : w.db.openTickets.countP
      (fun t => !w.db.hasNegotiation t.id && !v.db.hasNegotiation t.id) =
      w.db.openTickets.countP (fun t => !v.db.hasNegotiation t.id) := by
    apply List.countP_congr
    intro t _
    cases hw : w.db.hasNegotiation t.id with
    | false => simp
    | true => simp [hmono t.id hw]
  refine ⟨_, v, hres, by simpa using hs, by simpa using hp, ?_, ?_⟩
  · simp only
    rw [hlast] at hthree
    omega
  · intro h
    rw [h] at hs hp
    simp only [List.countP_nil, add_zero] at hs hp
    rw [hs, hp]

/-- C2 at a concrete input: two open tickets, the statement at tick 6 (the
last write for the first ticket) failing: the first ticket is counted in
neither, the second one is processed. -/
theorem automateOpen_counts_witness :
    ∃ r v, automateOpen (failingAt 6) (worldOf twoOpenStore) = (.ok r, v) ∧
      r.skipped = (worldOf twoOpenStore).db.openTickets.countP
        (fun t => (worldOf twoOpenStore).db.hasNegotiation t.id) ∧
      r.processed = (worldOf twoOpenStore).db.openTickets.countP
        (fun t => !(worldOf twoOpenStore).db.hasNegotiation t.id && v.db.hasNegotiation t.id) ∧
      r.processed + r.skipped =
        (worldOf twoOpenStore).db.openTickets.length -
          (worldOf twoOpenStore).db.openTickets.countP (fun t => !v.db.hasNegotiation t.id) ∧
      ((worldOf twoOpenStore).db.openTickets = [] → r = { processed := 0, skipped := 0 }) :=
  automateOpen_counts (failingAt 6) (worldOf twoOpenStore) (by decide!)

/-- The run of C2's concrete input, evaluated: one ticket processed, none
skipped, the failed one left open and without a negotiation record. -/
theorem automateOpen_counts_example :
    (automateOpen (failingAt 6) (worldOf twoOpenStore)).1 = .ok { processed := 1, skipped := 0 } ∧
    ((automateOpen (failingAt 6) (worldOf twoOpenStore)).2.db.tickets.map
      fun t => (t.id, t.status)) = [(1, "open"), (2, "pending_info")] ∧
    ((automateOpen (failingAt 6) (worldOf twoOpenStore)).2.db.negotiations.map
      fun n => n.ticket_id) = [2] := by
  decide!

theorem automateOpenLoop_all_skipped (env : Env) :
    ∀ (tickets : List TicketRow) (processed skipped : Nat) (w : World),
      (∀ t ∈ tickets, w.db.hasNegotiation t.id = true) →
      automateOpenLoop env tickets processed skipped w =
        (.ok (processed, skipped + tickets.length), w)
  | [], processed, skipped, w, _ => automateOpenLoop_nil_run env processed skipped w
  | t :: rest, processed, skipped, w, h => by
    rw [automateOpenLoop_cons_run, if_pos (h t (List.mem_cons_self _ _)),
      automateOpenLoop_all_skipped env rest processed (skipped + 1) w
        (fun r hr => h r (List.mem_cons_of_mem _ hr))]
    simp only [List.length_cons, Prod.mk.injEq, Except.ok.injEq, and_true, true_and]
    omega

/-- C7: batch idempotence. On a store whose tickets have distinct ids, after a
batch run in which no ticket failed (every open ticket was processed or
skipped), an immediately following batch run, whatever the environment does,
returns 0 processed and leaves the world, so the store, unchanged: every
ticket the first run processed is no longer eligible. -/
theorem automateOpen_idempotent (env env2 : Env) (w v : World) (r : BatchResult)
    (hnodup : (w.db.tickets.map fun t => t.id).Nodup)
    (hrun : automateOpen env w = (.ok r, v))
    (hnofail : r.processed + r.skipped = w.db.openTickets.length) :
    ∃ r2, automateOpen env2 v = (.ok r2, v) ∧ r2.processed = 0 ∧
      r2.skipped = v.db.openTickets.length := by
  obtain ⟨p, s, v1, hloop, hs, hp, hmono, _, hopen⟩ :=
    automateOpenLoop_result env w.db.openTickets 0 0 w (openTickets_nodup w.db hnodup)
  have hall : ∀ t ∈ v.db.openTickets, v.db.hasNegotiation t.id = true := by
    rw [automateOpen_run] at hrun
    by_cases h : w.db.openTickets = []
    · rw [if_pos h] at hrun
      simp only [Prod.mk.injEq, Except.ok.injEq] at hrun
      obtain ⟨_, hv⟩ := hrun
      subst hv
      intro t ht
      rw [h] at ht
      cases ht
    · rw [if_neg h, hloop] at hrun
      simp only [Prod.mk.injEq, Except.ok.injEq] at hrun
      obtain ⟨hr, hv⟩ := hrun
      subst hr hv
      simp only at hnofail
      have hthree := countP_three_way (fun t : TicketRow => w.db.hasNegotiation t.id)
        (fun t => v1.db.hasNegotiation t.id) w.db.openTickets
      simp only [zero_add] at hs hp
      have hzero : w.db.openTickets.countP
          (fun t => !w.db.hasNegotiation t.id && !v1.db.hasNegotiation t.id) = 0 := by
        omega
      rw [List.countP_eq_zero] at hzero
      intro t ht
      have ht' := List.mem_filter.mp ht
      have hstatus : t.status = "open" := by simpa using ht'.2
      have htw : t ∈ w.db.openTickets :=
        List.mem_filter.mpr ⟨hopen t ht'.1 hstatus, ht'.2⟩
      have := hzero t htw
      cases hv1 : v1.db.hasNegotiation t.id with
      | true => rfl
      | false =>
        cases hw : w.db.hasNegotiation t.id with
        | true => rw [hmono t.id hw] at hv1; cases hv1
        | false => simp [hv1, hw] at this
  refine ⟨{ processed := 0, skipped := v.db.openTickets.length }, ?_, rfl, rfl⟩
  rw [automateOpen_run]
  by_cases h : v.db.openTickets = []
  · rw [if_pos h, h]
    rfl
  · rw [if_neg h, automateOpenLoop_all_skipped env2 _ 0 0 v hall]
    simp

/-- C7 at a concrete input: the batch run on two open tickets with no failure,
then a second run. -/
theorem automateOpen_idempotent_witness :
    ∃ r2, automateOpen (failingAt 0) (automateOpen quietEnv (worldOf twoOpenStore)).2 =
        (.ok r2, (automateOpen quietEnv (worldOf twoOpenStore)).2) ∧
      r2.processed = 0 ∧
      r2.skipped = (automateOpen quietEnv (worldOf twoOpenStore)).2.db.openTickets.length :=
  automateOpen_idempotent quietEnv (failingAt 0) (worldOf twoOpenStore) _
    { processed := 2, skipped := 0 } (by decide!) (by decide!) (by decide!)

/-! ## Priority orders of the keyword rules -/

/-- C11: the impact priority order. For every raw text, the impact of the
heuristic draft, which is the draft intake returns when no capability is
configured, is "Revenue impact" if the lowercased text contains "payment" or
"billing"; otherwise "Access blocked" if it contains "login" or "auth";
otherwise "Service unavailable" if it contains "down" or "outage"; otherwise
"Degraded experience". -/
theorem heuristicDraft_impact_order (rawText : String) :
    (heuristicDraft rawText).impact = .str
      (if includes (toLowerCase rawText) "payment" = true ∨
          includes (toLowerCase rawText) "billing" = true then "Revenue impact"
        else if includes (toLowerCase rawText) "login" = true ∨
          includes (toLowerCase rawText) "auth" = true then "Access blocked"
        else if includes (toLowerCase rawText) "down" = true ∨
          includes (toLowerCase rawText) "outage" = true then "Service unavailable"
        else "Degraded experience") ∧
    (∀ (env : Env) (w : World), env.llm = none →
      intake env rawText w = (.ok (heuristicDraft rawText), w)) := by
  constructor
  · simp only [heuristicDraft, extractImpact, Bool.or_eq_true]
  · intro env w h
    exact intake_no_llm env rawText w h

/-- C11 at a concrete input: a report that names a login and an outage has the
impact "Access blocked". -/
theorem heuristicDraft_impact_order_witness :
    (intake quietEnv "Login page outage since 9am" (worldOf emptyStore)).1.toOption.map
      (fun d => d.impact) = some (.str "Access blocked") := by
  rw [(heuristicDraft_impact_order "Login page outage since 9am").2 quietEnv
    (worldOf emptyStore) rfl]
  decide!

/-- C18: the environment priority order. For every raw text, the environment
of the heuristic draft, which is the draft intake returns when no capability
is configured, is decided by the first keyword, in the order windows, mac,
linux, chrome, firefox, that the lowercased text contains (Windows, macOS,
Linux, Chrome, Firefox respectively), and it is "Unknown" exactly when the text
contains none of them. -/
theorem heuristicDraft_environment_order (rawText : String) :
    (heuristicDraft rawText).environment = .str
      (if includes (toLowerCase rawText) "windows" = true then "Windows"
        else if includes (toLowerCase rawText) "mac" = true then "macOS"
        else if includes (toLowerCase rawText) "linux" = true then "Linux"
        else if includes (toLowerCase rawText) "chrome" = true then "Chrome"
        else if includes (toLowerCase rawText) "firefox" = true then "Firefox"
        else "Unknown") ∧
    ((heuristicDraft rawText).environment = .str "Unknown" ↔
      includes (toLowerCase rawText) "windows" = false ∧
      includes (toLowerCase rawText) "mac" = false ∧
      includes (toLowerCase rawText) "linux" = false ∧
      includes (toLowerCase rawText) "chrome" = false ∧
      includes (toLowerCase rawText) "firefox" = false) ∧
    (∀ (env : Env) (w : World), env.llm = none →
      intake env rawText w = (.ok (heuristicDraft rawText), w)) := by
  refine ⟨by simp only [heuristicDraft, inferEnvironment], ?_,
    fun env w h => intake_no_llm env rawText w h⟩
  simp only [heuristicDraft, inferEnvironment, JsVal.str.injEq]
  cases includes (toLowerCase rawText) "windows" <;>
    cases includes (toLowerCase rawText) "mac" <;>
    cases includes (toLowerCase rawText) "linux" <;>
    cases includes (toLowerCase rawText) "chrome" <;>
    cases includes (toLowerCase rawText) "firefox" <;> decide

/-- C18 at a concrete input: a report that names Chrome and Linux is filed
under Linux, which comes first in the order. -/
theorem heuristicDraft_environment_order_witness :
    (intake quietEnv "Chrome on Linux crashes" (worldOf emptyStore)).1.toOption.map
      (fun d => d.environment) = some (.str "Linux") := by
  rw [(heuristicDraft_environment_order "Chrome on Linux crashes").2.2 quietEnv
    (worldOf emptyStore) rfl]
  decide!

/-- C12: the routing priority order. For the assessed text `text`, the debate
returns a verdict whose team is "billing" if the lowercased text contains
"billing" or "payment"; otherwise "auth" if it contains "auth" or "login";
otherwise "infra" if it contains "infra" or "outage"; otherwise "frontend" if
it contains "ui" or "frontend"; otherwise "backend". In particular a text with
"payment" or "billing" and with "outage" is routed to billing while its
severity is S1. -/
theorem managerDebate_routing_order (env : Env) (title : JsVal) (draft : Option Draft)
    (w : World) (text : String) (h : (baseText title draft).asString = .ok text) :
    ∃ v w', managerDebate env title draft w = (.ok v, w') ∧
      v.team =
        (if includes (toLowerCase text) "billing" = true ∨
            includes (toLowerCase text) "payment" = true then "billing"
          else if includes (toLowerCase text) "auth" = true ∨
            includes (toLowerCase text) "login" = true then "auth"
          else if includes (toLowerCase text) "infra" = true ∨
            includes (toLowerCase text) "outage" = true then "infra"
          else if includes (toLowerCase text) "ui" = true ∨
            includes (toLowerCase text) "frontend" = true then "frontend"
          else "backend") ∧
      (includes (toLowerCase text) "payment" = true ∨
          includes (toLowerCase text) "billing" = true →
        includes (toLowerCase text) "outage" = true →
          v.team = "billing" ∧ v.severity = "S1") := by
  refine ⟨_, _, by rw [managerDebate_run, h], ?_, ?_⟩
  · simp only [debateVerdict, routeTicket, Bool.or_eq_true]
  · intro hp ho
    rcases hp with hp | hp <;> simp [debateVerdict, routeTicket, assessSeverity, hp, ho]

/-- C12 at a concrete input: the end-to-end example of the specification is
routed to billing and assessed S1. -/
theorem managerDebate_routing_order_witness :
    ((managerDebate quietEnv (.str "Checkout") (some (heuristicDraft checkoutText))
      (worldOf emptyStore)).1.toOption.map fun v => (v.team, v.severity)) =
        some ("billing", "S1") := by
  obtain ⟨v, w', hrun, _, hboth⟩ := managerDebate_routing_order quietEnv (.str "Checkout")
    (some (heuristicDraft checkoutText)) (worldOf emptyStore) checkoutText (by decide!)
  obtain ⟨h1, h2⟩ := hboth (Or.inl (by decide!)) (by decide!)
  rw [hrun]
  simp [Except.toOption, h1, h2]

/-- The routing of a report in capitals with the dotted capital I (U+0130):
its lowercase form has "i" followed by the combining dot for each, so it
contains "ui", and the report is routed to the frontend team. -/
theorem routeTicket_dotted_capital :
    includes (toLowerCase "SUİSTİMAL RAPORU") "ui" = true ∧
    routeTicket "SUİSTİMAL RAPORU" = "frontend" ∧
    ((managerDebate quietEnv (.str "SUİSTİMAL RAPORU") none
      (worldOf emptyStore)).1.toOption.map fun v => v.team) = some "frontend" := by
  decide!

/-! ## The escalation threshold -/

theorem JsNum.gt_iff_toRat (a b : JsNum) : a.gt b = true ↔ b.toRat < a.toRat := by
  unfold JsNum.gt JsNum.toRat
  rw [decide_eq_true_iff]
  have ha : (0 : ℚ) < 10 ^ a.scale := by positivity
  have hb : (0 : ℚ) < 10 ^ b.scale := by positivity
  rw [div_lt_div_iff₀ hb ha]
  constructor
  · intro h
    have : ((b.mant * 10 ^ a.scale : ℤ) : ℚ) < ((a.mant * 10 ^ b.scale : ℤ) : ℚ) :=
      Int.cast_lt.mpr h
    push_cast at this
    exact this
  · intro h
    have : ((b.mant * 10 ^ a.scale : ℤ) : ℚ) < ((a.mant * 10 ^ b.scale : ℤ) : ℚ) := by
      push_cast
      exact h
    exact Int.cast_lt.mp this

/-- C13: the escalation threshold. For every SLA risk `x`, `applyEscalation`
returns a result with a message, and the result escalates if and only if `x`
is greater than 0.7; in particular it does not escalate at 0.70 and it does at
0.7000001. The function is total. -/
theorem applyEscalation_threshold :
    (∀ x : JsNum, ((applyEscalation x).escalate = true ↔ x.toRat > 7 / 10) ∧
      (applyEscalation x).message ≠ "") ∧
    (applyEscalation ⟨70, 2⟩).escalate = false ∧
    (applyEscalation ⟨7000001, 7⟩).escalate = true := by
  refine ⟨fun x => ⟨?_, ?_⟩, by decide, by decide⟩
  · have h := JsNum.gt_iff_toRat x ⟨7, 1⟩
    have h7 : (⟨7, 1⟩ : JsNum).toRat = 7 / 10 := by
      simp [JsNum.toRat]
    rw [h7] at h
    unfold applyEscalation
    by_cases hx : x.gt ⟨7, 1⟩ = true
    · simp only [hx, ↓reduceIte, true_iff]
      exact h.mp hx
    · simp only [hx, Bool.false_eq_true, ↓reduceIte, false_iff, not_lt]
      exact not_lt.mp (fun hlt => hx (h.mpr hlt))
  · unfold applyEscalation
    split <;> decide

/-! ## The duplicate hint -/

theorem detectDuplicate_truthy (text : String) :
    truthyId (detectDuplicate text).«match» = includes (toLowerCase text) "login" := by
  unfold detectDuplicate
  cases includes (toLowerCase text) "login" <;> rfl

/-- C14: the duplicate hint. For the assessed text `text`, the debate returns
a verdict with duplicateOf 8142 and confidence 0.86 if the lowercased text
contains "login", and otherwise with no duplicateOf (null) and confidence 0;
hence a successful run of `runAutomationForTicket` appends one ticket link,
from the ticket to 8142 with confidence 0.86, exactly when the assessed text
contains "login", and no link otherwise. -/
theorem duplicate_hint_and_link :
    (∀ (env : Env) (title : JsVal) (draft : Option Draft) (w : World) (text : String),
      (baseText title draft).asString = .ok text →
        ∃ v w', managerDebate env title draft w = (.ok v, w') ∧
          (v.duplicateOf, v.duplicateConfidence) =
            if includes (toLowerCase text) "login" = true then (some 8142, (⟨86, 2⟩ : JsNum))
            else (none, ⟨0, 1⟩)) ∧
    (∀ (env : Env) (ticketRow : TicketRef) (draftRow : Option Draft) (actorLabel : String)
      (w w' : World) (r : AutomationResult),
      runAutomationForTicket env ticketRow draftRow actorLabel w = (.ok r, w') →
        ∃ draft text,
          (draftRow = some draft ∨ draftRow = none ∧
            (intake env (textOr ticketRow.body (textOr ticketRow.subject "")) w).1 = .ok draft) ∧
          (baseText (JsVal.ofOption ticketRow.subject) (some draft)).asString = .ok text ∧
          w'.view.ticket_links = w.view.ticket_links ++
            (if includes (toLowerCase text) "login" = true then
              [{ ticket_id := ticketRow.id
                 duplicate_of_ticket_id := 8142
                 confidence := ⟨86, 2⟩ }]
            else [])) := by
  constructor
  · intro env title draft w text h
    refine ⟨_, _, by rw [managerDebate_run, h], ?_⟩
    simp only [debateVerdict, detectDuplicate]
    cases includes (toLowerCase text) "login" <;> rfl
  · intro env ticketRow draftRow actorLabel w w' r h
    obtain ⟨draft, text, k, hd, ht, _, hw⟩ := runAutomationForTicket_eq_ok h
    refine ⟨draft, text, hd, ht, ?_⟩
    have hview : w'.view = Store.applyAll (automationWrites ticketRow.id draftRow.isSome draft
        (debateVerdict env text (debateImpact (some draft)) k) actorLabel) w.view := by
      rw [hw, ← World.writeAll_view]
      rfl
    rw [hview, applyAll_automationWrites]
    simp only [debateVerdict, detectDuplicate_truthy]
    cases hl : includes (toLowerCase text) "login"
    · rfl
    · simp [detectDuplicate, hl]

/-- C14 at a concrete input: a report about the login page gets the hint and
the link, both through the debate and through the controller. -/
theorem duplicate_hint_and_link_witness :
    (∃ v w', managerDebate quietEnv (.str "Login page") none (worldOf emptyStore) = (.ok v, w') ∧
      (v.duplicateOf, v.duplicateConfidence) =
        if includes (toLowerCase "Login page") "login" = true then (some 8142, (⟨86, 2⟩ : JsNum))
        else (none, ⟨0, 1⟩)) ∧
    (∃ draft text,
      ((none : Option Draft) = some draft ∨ (none : Option Draft) = none ∧
        (intake quietEnv (textOr (sampleTicket 1 "Login page outage since 9am").toRef.body
          (textOr (sampleTicket 1 "Login page outage since 9am").toRef.subject ""))
            (worldOf twoOpenStore)).1 = .ok draft) ∧
      (baseText (JsVal.ofOption (sampleTicket 1 "Login page outage since 9am").toRef.subject)
        (some draft)).asString = .ok text ∧
      (runAutomationForTicket quietEnv (sampleTicket 1 "Login page outage since 9am").toRef none
        "Automation Runner" (worldOf twoOpenStore)).2.view.ticket_links =
          (worldOf twoOpenStore).view.ticket_links ++
            (if includes (toLowerCase text) "login" = true then
              [{ ticket_id := (sampleTicket 1 "Login page outage since 9am").toRef.id
                 duplicate_of_ticket_id := 8142
                 confidence := ⟨86, 2⟩ }]
            else [])) :=
  ⟨duplicate_hint_and_link.1 quietEnv (.str "Login page") none (worldOf emptyStore) "Login page"
      (by decide!),
   duplicate_hint_and_link.2 quietEnv (sampleTicket 1 "Login page outage since 9am").toRef none
      "Automation Runner" (worldOf twoOpenStore) _
      { status := "pending_info", resolution := none } (by decide!)⟩

/-! ## Intake with a language model -/

theorem intake_run (env : Env) (rawText : String) (w : World) :
    intake env rawText w =
      match env.llm with
      | none => (.ok (heuristicDraft rawText), w)
      | some invoke =>
        match invoke w.draw (intakePrompt rawText) with
        | .raised => (.ok (heuristicDraft rawText), w.withDraw (w.draw + 1))
        | .content text =>
          match env.jsonParse text with
          | none => (.ok (heuristicDraft rawText), w.withDraw (w.draw + 1))
          | some parsed =>
            (.ok (spreadDraft (heuristicDraft rawText) parsed), w.withDraw (w.draw + 1)) := by
  unfold intake
  cases env.llm with
  | none => rfl
  | some invoke =>
    simp only [Run.tryCatch, Run.bind_run, nextDraw]
    cases invoke w.draw (intakePrompt rawText) with
    | raised => rfl
    | content text =>
      simp only
      cases env.jsonParse text with
      | none => rfl
      | some parsed => rfl

/-- C16: intake never fails the caller. For every raw text intake returns a
draft. It is exactly the heuristic draft if no text-extraction capability is
configured, or its call raises, or its output is not parseable JSON. If the
output parses to a JSON object, it is the heuristic draft with each field that
is present in the parsed object replaced by the parsed value and every other
field kept. -/
theorem intake_never_fails (env : Env) (rawText : String) (w : World) :
    (∃ d w', intake env rawText w = (.ok d, w')) ∧
    (env.llm = none → (intake env rawText w).1 = .ok (heuristicDraft rawText)) ∧
    (∀ invoke, env.llm = some invoke →
      (invoke w.draw (intakePrompt rawText) = .raised →
        (intake env rawText w).1 = .ok (heuristicDraft rawText)) ∧
      (∀ text, invoke w.draw (intakePrompt rawText) = .content text →
        (env.jsonParse text = none →
          (intake env rawText w).1 = .ok (heuristicDraft rawText)) ∧
        (∀ fields, env.jsonParse text = some (.object fields) →
          ∃ d, (intake env rawText w).1 = .ok d ∧
            d.problem = (match fields.lookup "problem" with
              | some v => v
              | none => (heuristicDraft rawText).problem) ∧
            d.environment = (match fields.lookup "environment" with
              | some v => v
              | none => (heuristicDraft rawText).environment) ∧
            d.reproduction = (match fields.lookup "reproduction" with
              | some v => v
              | none => (heuristicDraft rawText).reproduction) ∧
            d.impact = (match fields.lookup "impact" with
              | some v => v
              | none => (heuristicDraft rawText).impact) ∧
            d.userIntent = (match fields.lookup "userIntent" with
              | some v => v
              | none => (heuristicDraft rawText).userIntent) ∧
            d.confidence = (match fields.lookup "confidence" with
              | some v => v
              | none => (heuristicDraft rawText).confidence) ∧
            d.evidence = (match fields.lookup "evidence" with
              | some v => v
              | none => (heuristicDraft rawText).evidence)))) := by
  refine ⟨?_, ?_, ?_⟩
  · rw [intake_run]
    cases env.llm with
    | none => exact ⟨_, _, rfl⟩
    | some invoke =>
      simp only
      cases invoke w.draw (intakePrompt rawText) with
      | raised => exact ⟨_, _, rfl⟩
      | content text =>
        simp only
        cases env.jsonParse text with
        | none => exact ⟨_, _, rfl⟩
        | some parsed => exact ⟨_, _, rfl⟩
  · intro h
    rw [intake_run, h]
  · intro invoke hllm
    refine ⟨?_, ?_⟩
    · intro hr
      rw [intake_run, hllm]
      simp only [hr]
    · intro text hc
      refine ⟨?_, ?_⟩
      · intro hp
        rw [intake_run, hllm]
        simp only [hc, hp]
      · intro fields hp
        rw [intake_run, hllm]
        simp only [hc, hp]
        refine ⟨_, rfl, ?_⟩
        simp only [spreadDraft, spreadField]
        refine ⟨?_, ?_, ?_, ?_, ?_, ?_, ?_⟩ <;>
          (generalize List.lookup _ fields = o; cases o <;> rfl)

/-- C16 at a concrete input: in `answeringEnv` the answer parses to an object
with a problem and a confidence; intake returns the heuristic draft with these
two fields replaced. -/
theorem intake_never_fails_witness :
    (intake answeringEnv "Export is slow" (worldOf emptyStore)).1 =
      .ok { heuristicDraft "Export is slow" with
            problem := .str longProblem
            confidence := .obj [("environment", .num ⟨7, 0⟩)] } := by
  obtain ⟨d, hd, h1, h2, h3, h4, h5, h6, h7⟩ :=
    ((((intake_never_fails answeringEnv "Export is slow" (worldOf emptyStore)).2.2
      (fun _ _ => .content longAnswer) rfl).2 longAnswer rfl).2
        [("problem", .str longProblem), ("confidence", .obj [("environment", .num ⟨7, 0⟩)])]
        (by decide!))
  rw [hd]
  cases d
  simp only at h1 h2 h3 h4 h5 h6 h7
  subst h1 h2 h3 h4 h5 h6 h7
  rfl

theorem slice0_length_le (s : String) (n : Nat) : (slice0 s n).data.length ≤ n := by
  simp [slice0]

theorem slice0_of_short (s : String) (n : Nat) (h : s.data.length ≤ n) : slice0 s n = s := by
  cases s with
  | mk cs =>
    show String.mk (cs.take n) = String.mk cs
    rw [List.take_of_length_le h]

/-- C15, amended: the problem and the confidence of the draft. For every raw
text whose first 140 characters lie below U+10000, so that they are the 140
code units `slice(0, 140)` keeps, intake returns a draft; when the
text-extraction capability supplies neither a problem nor a confidence field
(none is configured, its call raises, its output is not parseable JSON, or the
parsed object has neither field), the problem of the draft is the first 140
characters of the text (the whole text when it is shorter), so of length at
most 140, and its confidence scores are 0.42 and 0.5, which lie between 0 and
1. A problem or confidence field of the parsed object is taken as it is. -/
theorem intake_problem_and_confidence (env : Env) (rawText : String) (w : World)
    (_hunits : singleUnits rawText 140 = true)
    (hkeep : ∀ invoke text fields, env.llm = some invoke →
      invoke w.draw (intakePrompt rawText) = .content text →
      env.jsonParse text = some (.object fields) →
        fields.lookup "problem" = none ∧ fields.lookup "confidence" = none) :
    ∃ d w', intake env rawText w = (.ok d, w') ∧
      d.problem = .str (slice0 rawText 140) ∧
      (slice0 rawText 140).data.length ≤ 140 ∧
      (slice0 rawText 140).data = rawText.data.take 140 ∧
      (rawText.data.length ≤ 140 → d.problem = .str rawText) ∧
      confidenceScores d.confidence = [⟨42, 2⟩, ⟨5, 1⟩] ∧
      (confidenceScores d.confidence).all JsNum.inUnit = true := by
  have hheur : (heuristicDraft rawText).problem = .str (slice0 rawText 140) ∧
      (slice0 rawText 140).data.length ≤ 140 ∧
      (slice0 rawText 140).data = rawText.data.take 140 ∧
      (rawText.data.length ≤ 140 → (heuristicDraft rawText).problem = .str rawText) ∧
      confidenceScores (heuristicDraft rawText).confidence = [⟨42, 2⟩, ⟨5, 1⟩] ∧
      (confidenceScores (heuristicDraft rawText).confidence).all JsNum.inUnit = true := by
    refine ⟨rfl, slice0_length_le _ _, rfl, ?_, rfl, rfl⟩
    intro h
    show JsVal.str (slice0 rawText 140) = _
    rw [slice0_of_short _ _ h]
  rw [intake_run]
  cases hllm : env.llm with
  | none => exact ⟨_, _, rfl, hheur⟩
  | some invoke =>
    simp only
    cases hinv : invoke w.draw (intakePrompt rawText) with
    | raised => exact ⟨_, _, rfl, hheur⟩
    | content text =>
      simp only
      cases hp : env.jsonParse text with
      | none => exact ⟨_, _, rfl, hheur⟩
      | some parsed =>
        cases parsed with
        | value v => exact ⟨_, _, rfl, hheur⟩
        | object fields =>
          obtain ⟨h1, h2⟩ := hkeep invoke text fields hllm hinv hp
          refine ⟨_, _, rfl, ?_⟩
          simp only [spreadDraft, spreadField, h1, h2, Option.getD_none]
          exact hheur

/-- C15, amended, at a concrete input: no capability configured. -/
theorem intake_problem_and_confidence_witness :
    ∃ d w', intake quietEnv checkoutText (worldOf emptyStore) = (.ok d, w') ∧
      d.problem = .str (slice0 checkoutText 140) ∧
      (slice0 checkoutText 140).data.length ≤ 140 ∧
      (slice0 checkoutText 140).data = checkoutText.data.take 140 ∧
      (checkoutText.data.length ≤ 140 → d.problem = .str checkoutText) ∧
      confidenceScores d.confidence = [⟨42, 2⟩, ⟨5, 1⟩] ∧
      (confidenceScores d.confidence).all JsNum.inUnit = true :=
  intake_problem_and_confidence quietEnv checkoutText (worldOf emptyStore) (by decide!)
    (fun _ _ _ h => Option.noConfusion h)

/-- C15 as stated fails: in `answeringEnv` the capability answers with a
problem of 175 characters and a confidence score of 7; intake returns the draft
with both, so its problem is longer than 140 characters, is not the start of
the raw text, and its confidence score is not between 0 and 1. -/
theorem intake_takes_the_answer_as_it_is :
    (intake answeringEnv "Export is slow" (worldOf emptyStore)).1 =
      .ok { heuristicDraft "Export is slow" with
            problem := .str longProblem
            confidence := .obj [("environment", .num ⟨7, 0⟩)] } ∧
    longProblem.data.length = 175 ∧
    JsVal.str longProblem ≠ .str (slice0 "Export is slow" 140) ∧
    (confidenceScores (.obj [("environment", .num ⟨7, 0⟩)])).all JsNum.inUnit = false := by
  decide!

/-! ## Clarification -/

/-- C17: the clarification questions. For every draft whose reproduction note
is missing or a text, `clarify` returns between 1 and 3 questions: exactly, in
this order, the OS and version question if the environment is missing or
"Unknown", the repro-steps question if the reproduction note is missing or
contains "pending", the blast-radius question if the impact is missing; and
the single fallback question "Any recent changes before the issue started?" if
and only if none of the three gaps holds. -/
theorem clarify_questions (draft : Draft)
    (hrep : draft.reproduction.truthy = false ∨ ∃ s, draft.reproduction = .str s) :
    ∃ qs, clarify draft = .ok qs ∧
      qs = (if gapQuestions
              (!draft.environment.truthy || draft.environment == .str "Unknown")
              (!draft.reproduction.truthy || containsPending draft.reproduction)
              (!draft.impact.truthy) = [] then
            ["Any recent changes before the issue started?"]
          else gapQuestions
              (!draft.environment.truthy || draft.environment == .str "Unknown")
              (!draft.reproduction.truthy || containsPending draft.reproduction)
              (!draft.impact.truthy)) ∧
      1 ≤ qs.length ∧ qs.length ≤ 3 ∧
      (qs = ["Any recent changes before the issue started?"] ↔
        (!draft.environment.truthy || draft.environment == .str "Unknown") = false ∧
        (!draft.reproduction.truthy || containsPending draft.reproduction) = false ∧
        (!draft.impact.truthy) = false) := by
  have hpend : (if (!draft.reproduction.truthy) = true then (pure true : Except JsErr Bool)
      else includesPending draft.reproduction) =
      .ok (!draft.reproduction.truthy || containsPending draft.reproduction) := by
    rcases hrep with h | ⟨s, h⟩
    · simp [h]
      rfl
    · rw [h]
      cases ht : (JsVal.str s).truthy
      · rfl
      · simp [includesPending, containsPending]
  unfold clarify
  simp only [hpend]
  generalize (!draft.environment.truthy || draft.environment == .str "Unknown") = a
  generalize (!draft.reproduction.truthy || containsPending draft.reproduction) = b
  generalize (!draft.impact.truthy) = c
  cases a <;> cases b <;> cases c <;> exact ⟨_, rfl, by decide, by decide, by decide, by decide⟩

/-- C17 at a concrete input: the heuristic draft of a report that names no
environment has an unknown environment and a pending reproduction note, and a
known impact: two questions. -/
theorem clarify_questions_witness :
    clarify (heuristicDraft "Export is slow") =
      .ok ["Which OS and app version are you using?",
           "Can you share the exact steps to reproduce?"] := by
  obtain ⟨qs, hqs, heq, _⟩ := clarify_questions (heuristicDraft "Export is slow")
    (Or.inr ⟨_, rfl⟩)
  rw [hqs, heq]
  decide!

/-! ## The shape of the verdict -/

theorem append_data_ne_nil (a b : String) (h : a.data ≠ []) : (a ++ b).data ≠ [] := by
  rw [String.data_append]
  intro hab
  exact h (List.append_eq_nil.mp hab).1

/-- C19: the shape of the verdict. For every ticket title and draft whose
assessed text is a string, the debate returns a verdict with a transcript of
exactly 4 entries whose agents are, in order, "Duplicate Detective Agent",
"Severity + SLA Risk Agent", "Routing Agent" and "Manager Agent"; each entry
has an id (the four ids `nanoid` drew) and a message that is not empty; the
duplicate entry carries the evidence tag "Keyword overlap" when a duplicate
was found and "None" otherwise; and the verdict has requiresHuman true and the
status "triaged". -/
theorem managerDebate_verdict_shape (env : Env) (title : JsVal) (draft : Option Draft)
    (w : World) (text : String) (h : (baseText title draft).asString = .ok text) :
    ∃ v w', managerDebate env title draft w = (.ok v, w') ∧
      v.transcript.length = 4 ∧
      v.transcript.map (fun e => e.agent) =
        ["Duplicate Detective Agent", "Severity + SLA Risk Agent", "Routing Agent",
          "Manager Agent"] ∧
      v.transcript.map (fun e => e.id) =
        [env.nanoid w.draw, env.nanoid (w.draw + 1), env.nanoid (w.draw + 2),
          env.nanoid (w.draw + 3)] ∧
      (∀ e ∈ v.transcript, e.message.data ≠ []) ∧
      (v.transcript.head?.map fun e => e.evidence) =
        some (some (.str (if truthyId v.duplicateOf then "Keyword overlap" else "None"))) ∧
      v.requiresHuman = true ∧ v.status = "triaged" := by
  refine ⟨debateVerdict env text (debateImpact draft) w.draw, w.withDraw (w.draw + 4),
    by rw [managerDebate_run, h]; rfl, rfl, rfl, rfl, ?_, rfl, rfl, rfl⟩
  intro e he
  simp only [debateVerdict, List.mem_cons, List.mem_singleton, List.not_mem_nil, or_false] at he
  rcases he with rfl | rfl | rfl | rfl
  · simp only
    split
    · repeat rw [String.append_assoc]
      exact append_data_ne_nil _ _ (by decide)
    · decide
  · simp only
    rw [String.append_assoc, String.append_assoc]
    exact append_data_ne_nil _ _ (by decide)
  · simp only
    rw [String.append_assoc]
    exact append_data_ne_nil _ _ (by decide)
  · show "Consensus reached with evidence from draft keywords.".data ≠ []
    decide

/-- C19 at a concrete input: the debate on a report about the login page. -/
theorem managerDebate_verdict_shape_witness :
    ∃ v w', managerDebate quietEnv (.str "Login page") none (worldOf emptyStore) = (.ok v, w') ∧
      v.transcript.length = 4 ∧
      v.transcript.map (fun e => e.agent) =
        ["Duplicate Detective Agent", "Severity + SLA Risk Agent", "Routing Agent",
          "Manager Agent"] ∧
      v.transcript.map (fun e => e.id) =
        [quietEnv.nanoid (worldOf emptyStore).draw, quietEnv.nanoid ((worldOf emptyStore).draw + 1),
          quietEnv.nanoid ((worldOf emptyStore).draw + 2),
          quietEnv.nanoid ((worldOf emptyStore).draw + 3)] ∧
      (∀ e ∈ v.transcript, e.message.data ≠ []) ∧
      (v.transcript.head?.map fun e => e.evidence) =
        some (some (.str (if truthyId v.duplicateOf then "Keyword overlap" else "None"))) ∧
      v.requiresHuman = true ∧ v.status = "triaged" :=
  managerDebate_verdict_shape quietEnv (.str "Login page") none (worldOf emptyStore)
    "Login page" (by decide!)

/-! ## Two runs of the debate -/

theorem debateVerdict_withoutIds (env1 env2 : Env) (text : String) (impact : JsVal)
    (k1 k2 : Nat) :
    (debateVerdict env1 text impact k1).withoutIds =
      (debateVerdict env2 text impact k2).withoutIds := rfl

/-- C20, amended: the debate is deterministic up to the ids of the transcript.
For every ticket title and draft, two invocations of the debate on the same
inputs, in any two environments and worlds, fail alike or return verdicts with
the same severity, slaRisk, team, status, requiresHuman, duplicate fields and
the same transcript entry for entry, except for the ids of the entries, which
`nanoid` draws afresh at each invocation. -/
theorem managerDebate_deterministic_up_to_ids (env1 env2 : Env) (title : JsVal)
    (draft : Option Draft) (w1 w2 : World) :
    (managerDebate env1 title draft w1).1.map Verdict.withoutIds =
      (managerDebate env2 title draft w2).1.map Verdict.withoutIds := by
  rw [managerDebate_run, managerDebate_run]
  cases (baseText title draft).asString with
  | error e => rfl
  | ok text => rfl

/-- C20 as stated fails: two invocations of the debate one after the other, on
the same title and draft, return verdicts that differ (in the ids of the
transcript entries). -/
theorem managerDebate_twice_differs :
    (managerDebate quietEnv (.str "Login page") none (worldOf emptyStore)).1 ≠
      (managerDebate quietEnv (.str "Login page") none
        (managerDebate quietEnv (.str "Login page") none (worldOf emptyStore)).2).1 ∧
    ((managerDebate quietEnv (.str "Login page") none (worldOf emptyStore)).1.toOption.map
      fun v => v.transcript.map fun e => e.id) = some ["id0", "id1", "id2", "id3"] ∧
    ((managerDebate quietEnv (.str "Login page") none
        (managerDebate quietEnv (.str "Login page") none (worldOf emptyStore)).2).1.toOption.map
      fun v => v.transcript.map fun e => e.id) = some ["id4", "id5", "id6", "id7"] := by
  decide!

/-! ## The resolution narrative -/

/-- C21: the resolution narrative. For every ticket title and optional draft,
`proposeResolution` returns (it is a total function) the fixed text
"Workaround now: ... Summary: " followed by the draft's problem when a draft
with a non-empty problem is given, and by the ticket title otherwise: when
there is no draft, and when the draft's problem is missing or empty. -/
theorem proposeResolution_narrative (title : String) :
    (∀ (draft : Draft) (problem : String), draft.problem = .str problem → problem.data ≠ [] →
      proposeResolution (.str title) (some draft) =
        "Workaround now: capture logs and confirm the affected endpoints. "
          ++ "Escalation next: assign to on-call if metrics stay degraded. "
          ++ "Summary: " ++ problem) ∧
    (∀ (draft : Draft), draft.problem.truthy = false →
      proposeResolution (.str title) (some draft) =
        "Workaround now: capture logs and confirm the affected endpoints. "
          ++ "Escalation next: assign to on-call if metrics stay degraded. "
          ++ "Summary: " ++ title) ∧
    proposeResolution (.str title) none =
      "Workaround now: capture logs and confirm the affected endpoints. "
        ++ "Escalation next: assign to on-call if metrics stay degraded. "
        ++ "Summary: " ++ title := by
  refine ⟨?_, ?_, rfl⟩
  · intro draft problem hp hne
    have ht : (JsVal.str problem).truthy = true := by
      simp [JsVal.truthy, hne]
    simp only [proposeResolution, optField, hp, JsVal.or, ht, ↓reduceIte, JsVal.toStr]
  · intro draft hf
    simp only [proposeResolution, optField, JsVal.or, hf, Bool.false_eq_true, ↓reduceIte,
      JsVal.toStr]

/-- C21 at concrete inputs: a draft with a problem, and a draft whose problem
is empty. -/
theorem proposeResolution_narrative_witness :
    proposeResolution (.str "Export") (some (heuristicDraft "Export is slow")) =
      "Workaround now: capture logs and confirm the affected endpoints. "
        ++ "Escalation next: assign to on-call if metrics stay degraded. "
        ++ "Summary: " ++ "Export is slow" ∧
    proposeResolution (.str "Export") (some (heuristicDraft "")) =
      "Workaround now: capture logs and confirm the affected endpoints. "
        ++ "Escalation next: assign to on-call if metrics stay degraded. "
        ++ "Summary: " ++ "Export" :=
  ⟨(proposeResolution_narrative "Export").1 (heuristicDraft "Export is slow") "Export is slow"
      rfl (by decide),
   (proposeResolution_narrative "Export").2.1 (heuristicDraft "") (by decide!)⟩

/-! ## Escalation and severity, priority and severity -/

theorem assessSeverity_cases (text : String) (impact : JsVal) :
    assessSeverity text impact = { severity := "S1", slaRisk := ⟨85, 2⟩ } ∨
    assessSeverity text impact = { severity := "S2", slaRisk := ⟨65, 2⟩ } ∨
    assessSeverity text impact = { severity := "S3", slaRisk := ⟨3, 1⟩ } := by
  unfold assessSeverity
  simp only
  split
  · exact Or.inl rfl
  · split
    · exact Or.inr (Or.inl rfl)
    · exact Or.inr (Or.inr rfl)

theorem escalate_iff_S1 (text : String) (impact : JsVal) :
    ((applyEscalation (assessSeverity text impact).slaRisk).escalate = true ↔
      (assessSeverity text impact).severity = "S1") ∧
    ((assessSeverity text impact).slaRisk.toRat > 7 / 10 ↔
      (assessSeverity text impact).severity = "S1") := by
  have h85 : (⟨85, 2⟩ : JsNum).toRat > 7 / 10 := by norm_num [JsNum.toRat]
  have h65 : ¬ (⟨65, 2⟩ : JsNum).toRat > 7 / 10 := by norm_num [JsNum.toRat]
  have h3 : ¬ (⟨3, 1⟩ : JsNum).toRat > 7 / 10 := by norm_num [JsNum.toRat]
  rcases assessSeverity_cases text impact with h | h | h <;> rw [h]
  · exact ⟨by decide, by simpa using h85⟩
  · exact ⟨by decide, ⟨fun hh => absurd hh h65, fun hh => absurd hh (by decide)⟩⟩
  · exact ⟨by decide, ⟨fun hh => absurd hh h3, fun hh => absurd hh (by decide)⟩⟩

/-- C28: escalation coincides with S1. For every ticket title and draft, the
SLA risk of the verdict of the debate is greater than 0.7, and the policy
escalates, if and only if the severity of the verdict is "S1". Hence a
successful run of `runAutomationForTicket` appends the "Policy Engine" update
exactly for a ticket assessed S1: it appends two updates for an S1 ticket (the
policy notice, then the request for approval) and one update (the request for
approval) for an S2 or S3 ticket. -/
theorem escalation_coincides_with_S1 :
    (∀ (env : Env) (title : JsVal) (draft : Option Draft) (w w' : World) (v : Verdict),
      managerDebate env title draft w = (.ok v, w') →
        (v.slaRisk.toRat > 7 / 10 ↔ v.severity = "S1") ∧
        ((applyEscalation v.slaRisk).escalate = true ↔ v.severity = "S1")) ∧
    (∀ (env : Env) (ticketRow : TicketRef) (draftRow : Option Draft) (actorLabel : String)
      (w w' : World) (r : AutomationResult),
      runAutomationForTicket env ticketRow draftRow actorLabel w = (.ok r, w') →
        ∃ draft v u u',
          (draftRow = some draft ∨ draftRow = none ∧
            (intake env (textOr ticketRow.body (textOr ticketRow.subject "")) w).1 = .ok draft) ∧
          managerDebate env (JsVal.ofOption ticketRow.subject) (some draft) u = (.ok v, u') ∧
          (v.severity = "S1" ∨ v.severity = "S2" ∨ v.severity = "S3") ∧
          w'.view.ticket_updates = w.view.ticket_updates ++
            (if v.severity = "S1" then
              [{ ticket_id := ticketRow.id
                 author := "Policy Engine"
                 message := "SLA risk above threshold. Auto-page on-call and raise comms urgency." },
               { ticket_id := ticketRow.id
                 author := actorLabel
                 message := "Approval required to continue automation." }]
            else
              [{ ticket_id := ticketRow.id
                 author := actorLabel
                 message := "Approval required to continue automation." }])) := by
  constructor
  · intro env title draft w w' v h
    obtain ⟨text, _, hv, _⟩ := managerDebate_eq_ok h
    rw [hv]
    have := escalate_iff_S1 text (debateImpact draft)
    exact ⟨this.2, this.1⟩
  · intro env ticketRow draftRow actorLabel w w' r h
    obtain ⟨draft, text, k, hd, ht, _, hw⟩ := runAutomationForTicket_eq_ok h
    have hrun : managerDebate env (JsVal.ofOption ticketRow.subject) (some draft) (w.withDraw k) =
        (.ok (debateVerdict env text (debateImpact (some draft)) k), w.withDraw (k + 4)) := by
      rw [managerDebate_run, ht]
      rfl
    refine ⟨draft, _, _, _, hd, hrun, ?_, ?_⟩
    · show (assessSeverity text _).severity = "S1" ∨ (assessSeverity text _).severity = "S2" ∨
        (assessSeverity text _).severity = "S3"
      rcases assessSeverity_cases text (debateImpact (some draft)) with h1 | h1 | h1 <;>
        rw [h1] <;> simp
    · have hview : w'.view = Store.applyAll (automationWrites ticketRow.id draftRow.isSome draft
          (debateVerdict env text (debateImpact (some draft)) k) actorLabel) w.view := by
        rw [hw, ← World.writeAll_view]
        rfl
      rw [hview, applyAll_automationWrites]
      have hesc := (escalate_iff_S1 text (debateImpact (some draft))).1
      show w.view.ticket_updates ++ _ = _
      congr 1
      by_cases hs : (assessSeverity text (debateImpact (some draft))).severity = "S1"
      · have he := hesc.mpr hs
        simp only [debateVerdict, he, hs, ↓reduceIte, List.singleton_append]
        simp [applyEscalation, show (assessSeverity text (debateImpact (some draft))).slaRisk.gt
          ⟨7, 1⟩ = true from by
            unfold applyEscalation at he
            by_contra hc
            simp [hc] at he]
      · have he : (applyEscalation (assessSeverity text
            (debateImpact (some draft))).slaRisk).escalate = false := by
          cases hb : (applyEscalation (assessSeverity text
            (debateImpact (some draft))).slaRisk).escalate
          · rfl
          · exact absurd (hesc.mp hb) hs
        simp only [debateVerdict, he, hs, ↓reduceIte, Bool.false_eq_true, List.nil_append]

/-- C28 at a concrete input: the controller's run for an open ticket about a
login outage, which is assessed S1, appends the policy notice and the request
for approval. -/
theorem escalation_coincides_with_S1_witness :
    ∃ draft v u u',
      ((none : Option Draft) = some draft ∨ (none : Option Draft) = none ∧
        (intake quietEnv (textOr (sampleTicket 1 "Login page outage since 9am").toRef.body
          (textOr (sampleTicket 1 "Login page outage since 9am").toRef.subject ""))
            (worldOf twoOpenStore)).1 = .ok draft) ∧
      managerDebate quietEnv
          (JsVal.ofOption (sampleTicket 1 "Login page outage since 9am").toRef.subject)
          (some draft) u = (.ok v, u') ∧
      (v.severity = "S1" ∨ v.severity = "S2" ∨ v.severity = "S3") ∧
      (runAutomationForTicket quietEnv (sampleTicket 1 "Login page outage since 9am").toRef none
          "Automation Runner" (worldOf twoOpenStore)).2.view.ticket_updates =
        (worldOf twoOpenStore).view.ticket_updates ++
          (if v.severity = "S1" then
            [{ ticket_id := (sampleTicket 1 "Login page outage since 9am").toRef.id
               author := "Policy Engine"
               message := "SLA risk above threshold. Auto-page on-call and raise comms urgency." },
             { ticket_id := (sampleTicket 1 "Login page outage since 9am").toRef.id
               author := "Automation Runner"
               message := "Approval required to continue automation." }]
          else
            [{ ticket_id := (sampleTicket 1 "Login page outage since 9am").toRef.id
               author := "Automation Runner"
               message := "Approval required to continue automation." }]) :=
  escalation_coincides_with_S1.2 quietEnv (sampleTicket 1 "Login page outage since 9am").toRef
    none "Automation Runner" (worldOf twoOpenStore) _
    { status := "pending_info", resolution := none } (by decide!)

/-! ## Priority and severity -/

theorem or_empty_eq_unavailable (x : JsVal) :
    (x.or (.str "") == JsVal.str "Service unavailable") =
      (x == JsVal.str "Service unavailable") := by
  unfold JsVal.or
  by_cases h : x.truthy = true
  · simp [h]
  · have hx : x ≠ .str "Service unavailable" := by
      intro hc
      rw [hc] at h
      exact h (by decide)
    simp only [h, Bool.false_eq_true, ↓reduceIte]
    rw [show (x == JsVal.str "Service unavailable") = false from by simpa using hx]
    decide

theorem assessSeverity_priority_impact (text : String) (draft : Option Draft) :
    assessSeverity text ((optField draft Draft.impact).or (.str "")) =
      assessSeverity text (debateImpact draft) := by
  have h1 := or_empty_eq_unavailable (optField draft Draft.impact)
  have h2 := debateImpact_eq_unavailable draft
  unfold assessSeverity
  simp only [h1, h2]

theorem inferPriority_of_text (draft : Option Draft) (text : String)
    (h : ((optField draft Draft.problem).or (.str "")).asString = .ok text) :
    inferPriority draft = .ok
      (if (assessSeverity text (debateImpact draft)).severity = "S1" then "Critical"
       else if (assessSeverity text (debateImpact draft)).severity = "S2" then "High"
       else "Medium") := by
  unfold inferPriority
  rw [h]
  show (if ((assessSeverity text ((optField draft Draft.impact).or (.str ""))).severity == "S1")
      = true then _ else _) = _
  rw [assessSeverity_priority_impact]
  rcases assessSeverity_cases text (debateImpact draft) with h1 | h1 | h1 <;> rw [h1] <;> rfl

theorem or_empty_asString (x : JsVal) :
    (∃ t, (x.or (.str "")).asString = .ok t) ∨ (x.or (.str "")).asString = .error .typeError := by
  cases h : (x.or (.str "")).asString with
  | ok t => exact Or.inl ⟨t, rfl⟩
  | error e =>
    right
    unfold JsVal.asString at h
    split at h
    · exact absurd h (by simp)
    · simp only [Except.error.injEq] at h
      rw [← h]

/-- C29: priority agrees with severity. For every draft whose problem is a
non-empty text, every ticket title and every state of the world, the debate
on that draft returns a verdict, `inferPriority` returns a priority, and the
priority is "Critical", "High" or "Medium" exactly when the severity of the
verdict is "S1", "S2" or "S3" respectively. And `inferPriority` never returns
"Low", whatever the draft (or its absence). -/
theorem inferPriority_agrees_with_severity :
    (∀ (env : Env) (title : JsVal) (draft : Draft) (problem : String) (w : World),
      draft.problem = .str problem → problem.data ≠ [] →
        ∃ v w' p, managerDebate env title (some draft) w = (.ok v, w') ∧
          inferPriority (some draft) = .ok p ∧
          (p = "Critical" ↔ v.severity = "S1") ∧
          (p = "High" ↔ v.severity = "S2") ∧
          (p = "Medium" ↔ v.severity = "S3")) ∧
    (∀ (draft : Option Draft), inferPriority draft ≠ .ok "Low") := by
  constructor
  · intro env title draft problem w hp hne
    have htruthy : (JsVal.str problem).truthy = true := by
      simpa [JsVal.truthy] using hne
    have hb : (baseText title (some draft)).asString = .ok problem := by
      simp [baseText, optField, hp, JsVal.or, htruthy, JsVal.asString]
    have hi : ((optField (some draft) Draft.problem).or (.str "")).asString = .ok problem := by
      simp [optField, hp, JsVal.or, htruthy, JsVal.asString]
    refine ⟨_, _, _, by rw [managerDebate_run, hb], inferPriority_of_text _ _ hi, ?_⟩
    show (_ ↔ (assessSeverity problem _).severity = "S1") ∧
      (_ ↔ (assessSeverity problem _).severity = "S2") ∧
      (_ ↔ (assessSeverity problem _).severity = "S3")
    rcases assessSeverity_cases problem (debateImpact (some draft)) with h1 | h1 | h1 <;>
      rw [h1] <;> decide
  · intro draft
    rcases or_empty_asString (optField draft Draft.problem) with ⟨t, ht⟩ | he
    · rw [inferPriority_of_text draft t ht]
      rcases assessSeverity_cases t (debateImpact draft) with h1 | h1 | h1 <;>
        rw [h1] <;> decide
    · unfold inferPriority
      rw [he]
      intro hc
      cases hc

/-- C29 at a concrete input: the heuristic draft of a report about a failed
payment has priority "High" and its verdict has severity "S2". -/
theorem inferPriority_agrees_with_severity_witness :
    ∃ v w' p, managerDebate quietEnv (.str "Checkout") (some (heuristicDraft "Payment failed"))
        (worldOf emptyStore) = (.ok v, w') ∧
      inferPriority (some (heuristicDraft "Payment failed")) = .ok p ∧
      (p = "Critical" ↔ v.severity = "S1") ∧
      (p = "High" ↔ v.severity = "S2") ∧
      (p = "Medium" ↔ v.severity = "S3") :=
  inferPriority_agrees_with_severity.1 quietEnv (.str "Checkout") (heuristicDraft "Payment failed")
    "Payment failed" (worldOf emptyStore) rfl (by decide)

/-! ## Reports with no recognised keyword -/

theorem includes_slice0 (s pat : String) (n : Nat)
    (h : includes (toLowerCase s) pat = false) :
    includes (toLowerCase (slice0 s n)) pat = false := by
  cases hc : includes (toLowerCase (slice0 s n)) pat with
  | false => rfl
  | true =>
    obtain ⟨before, after, hs⟩ := (includesChars_iff pat.data _).mp hc
    have hs1 : (s.data.take n).flatMap lowerChar = before ++ pat.data ++ after := hs
    have h2 : includes (toLowerCase s) pat = true := by
      refine (includesChars_iff pat.data _).mpr
        ⟨before, after ++ (s.data.drop n).flatMap lowerChar, ?_⟩
      show s.data.flatMap lowerChar = _
      conv_lhs => rw [← List.take_append_drop n s.data]
      rw [List.flatMap_append, hs1]
      simp only [List.append_assoc]
    rw [h] at h2
    cases h2

/-- C22, amended: a report with no recognised keyword, end to end. For every
non-empty raw text whose lowercase form contains none of the recognised
keywords, the heuristic draft has environment "Unknown" and impact "Degraded
experience" (this part holds for the empty text too), and the debate on that
draft, for every ticket title, returns a verdict with severity "S3", SLA risk
0.3 and team "backend", with no duplicate, on whose risk `applyEscalation`
does not escalate. -/
theorem no_keyword_end_to_end (rawText : String)
    (hno : ∀ kw ∈ ["windows", "mac", "linux", "chrome", "firefox", "payment", "billing",
      "login", "auth", "down", "outage", "infra", "ui", "frontend"],
      includes (toLowerCase rawText) kw = false) :
    (heuristicDraft rawText).environment = .str "Unknown" ∧
    (heuristicDraft rawText).impact = .str "Degraded experience" ∧
    (rawText.data ≠ [] → ∀ (env : Env) (title : JsVal) (w : World),
      ∃ v w', managerDebate env title (some (heuristicDraft rawText)) w = (.ok v, w') ∧
        v.severity = "S3" ∧ v.slaRisk = ⟨3, 1⟩ ∧ v.team = "backend" ∧
        v.duplicateOf = none ∧ (applyEscalation v.slaRisk).escalate = false) := by
  have hwindows := hno "windows" (by simp)
  have hmac := hno "mac" (by simp)
  have hlinux := hno "linux" (by simp)
  have hchrome := hno "chrome" (by simp)
  have hfirefox := hno "firefox" (by simp)
  have hpayment := hno "payment" (by simp)
  have hbilling := hno "billing" (by simp)
  have hlogin := hno "login" (by simp)
  have hauth := hno "auth" (by simp)
  have hdown := hno "down" (by simp)
  have houtage := hno "outage" (by simp)
  have hinfra := hno "infra" (by simp)
  have hui := hno "ui" (by simp)
  have hfrontend := hno "frontend" (by simp)
  have henv : inferEnvironment rawText = "Unknown" := by
    simp [inferEnvironment, hwindows, hmac, hlinux, hchrome, hfirefox]
  have himp : extractImpact rawText = "Degraded experience" := by
    simp [extractImpact, hpayment, hbilling, hlogin, hauth, hdown, houtage]
  refine ⟨by simp [heuristicDraft, henv], by simp [heuristicDraft, himp], ?_⟩
  intro hne env title w
  have htruthy : (JsVal.str (slice0 rawText 140)).truthy = true := by
    simpa [JsVal.truthy] using slice0_nonempty rawText 139 hne
  have hb : (baseText title (some (heuristicDraft rawText))).asString =
      .ok (slice0 rawText 140) := by
    simp [baseText, optField, heuristicDraft, JsVal.or, htruthy, JsVal.asString]
  have hdi : debateImpact (some (heuristicDraft rawText)) = .str "Degraded experience" := by
    simp [debateImpact, optField, heuristicDraft, himp, JsVal.or, JsVal.truthy]
  have hsev : assessSeverity (slice0 rawText 140) (.str "Degraded experience") =
      { severity := "S3", slaRisk := ⟨3, 1⟩ } := by
    have hneq : (JsVal.str "Degraded experience" == JsVal.str "Service unavailable") = false := by
      decide
    simp [assessSeverity, includes_slice0 _ _ 140 houtage, includes_slice0 _ _ 140 hpayment,
      includes_slice0 _ _ 140 hbilling, hneq]
  have hteam : routeTicket (slice0 rawText 140) = "backend" := by
    simp [routeTicket, includes_slice0 _ _ 140 hbilling, includes_slice0 _ _ 140 hpayment,
      includes_slice0 _ _ 140 hauth, includes_slice0 _ _ 140 hlogin,
      includes_slice0 _ _ 140 hinfra, includes_slice0 _ _ 140 houtage,
      includes_slice0 _ _ 140 hui, includes_slice0 _ _ 140 hfrontend]
  have hdup : detectDuplicate (slice0 rawText 140) = { «match» := none, confidence := ⟨0, 1⟩ } := by
    simp [detectDuplicate, includes_slice0 _ _ 140 hlogin]
  refine ⟨_, _, by rw [managerDebate_run, hb], ?_⟩
  rw [hdi]
  simp only [debateVerdict, hsev, hteam, hdup]
  exact ⟨trivial, trivial, trivial, trivial, by decide⟩

/-- C22, amended, at a concrete input: the report "Export is slow". -/
theorem no_keyword_end_to_end_witness :
    (heuristicDraft "Export is slow").environment = .str "Unknown" ∧
    (heuristicDraft "Export is slow").impact = .str "Degraded experience" ∧
    ∃ v w', managerDebate quietEnv (.str "Outage") (some (heuristicDraft "Export is slow"))
        (worldOf emptyStore) = (.ok v, w') ∧
      v.severity = "S3" ∧ v.slaRisk = ⟨3, 1⟩ ∧ v.team = "backend" ∧
      v.duplicateOf = none ∧ (applyEscalation v.slaRisk).escalate = false :=
  ⟨(no_keyword_end_to_end "Export is slow" (by decide!)).1,
   (no_keyword_end_to_end "Export is slow" (by decide!)).2.1,
   (no_keyword_end_to_end "Export is slow" (by decide!)).2.2 (by decide) quietEnv (.str "Outage")
     (worldOf emptyStore)⟩

/-- C22: the claim as stated fails at the empty raw text, whose lowercase form
contains no keyword. Its draft has an empty problem, so the debate assesses
the ticket title instead: with the title "Outage" the verdict is S1 with risk
0.85 for the team "infra", and it escalates; and the controller's run for a
ticket that has neither a body nor a subject raises a type error instead of
returning a verdict. -/
theorem empty_text_takes_the_title :
    (∀ kw ∈ ["windows", "mac", "linux", "chrome", "firefox", "payment", "billing",
      "login", "auth", "down", "outage", "infra", "ui", "frontend"],
      includes (toLowerCase "") kw = false) ∧
    (heuristicDraft "").problem = .str "" ∧
    (∃ v w', managerDebate quietEnv (.str "Outage") (some (heuristicDraft ""))
        (worldOf emptyStore) = (.ok v, w') ∧
      v.severity = "S1" ∧ v.slaRisk = ⟨85, 2⟩ ∧ v.team = "infra" ∧
      (applyEscalation v.slaRisk).escalate = true) ∧
    (runAutomationForTicket quietEnv { id := 1, subject := none, body := none } none
      "Automation Runner" (worldOf emptyStore)).1 = .error .typeError := by
  refine ⟨by decide!, by decide!, ⟨_, _, rfl, ?_⟩, by decide!⟩
  decide!

/-! ## Approval in any status -/

theorem head_filter_of_mem {α : Type} (p : α → Bool) :
    ∀ (l : List α) (a : α), a ∈ l → p a = true → ∃ b, (l.filter p).head? = some b
  | [], _, h, _ => by simp at h
  | c :: cs, a, h, hp => by
    by_cases hc : p c = true
    · exact ⟨c, by simp [List.filter, hc]⟩
    · have hne : a ≠ c := fun e => hc (e ▸ hp)
      have hmem : a ∈ cs := by
        rcases List.mem_cons.mp h with h | h
        · exact absurd h hne
        · exact h
      obtain ⟨b, hb⟩ := head_filter_of_mem p cs a hmem hp
      exact ⟨b, by simpa [List.filter, hc] using hb⟩

theorem head_filter_resolved (ticketId : Nat) (tickets : List TicketRow) (row : TicketRow)
    (h : (tickets.filter fun t => t.id = ticketId).head? = some row) :
    ((tickets.map fun t =>
        if t.id = ticketId then { t with status := "resolved" } else t).filter
      fun t => t.id = ticketId).head? = some { row with status := "resolved" } := by
  induction tickets with
  | nil => simp at h
  | cons c cs ih =>
    by_cases hc : c.id = ticketId
    · simp only [List.filter, hc, decide_True, List.head?_cons, Option.some.injEq] at h
      subst h
      simp [List.filter, hc]
    · simp only [List.filter, hc, decide_False] at h
      simpa [List.filter, hc] using ih h

/-- C30: approve has no status guard. For every ticket of the store, whatever
its status, and every approver, when no statement fails `approve` succeeds: it
leaves every row of the ticket with the status "resolved" and appends the two
updates authored "Approval Gate" and "Resolution Agent". Approving the ticket
again succeeds again with the same narrative and appends the same two updates
once more, so that the audit trail of the ticket has grown by four updates:
approve is not idempotent on the audit trail. -/
theorem approve_has_no_status_guard (env : Env) (ticketId : Nat) (userEmail : Option String)
    (w : World) (row : TicketRow) (hrow : row ∈ w.db.tickets) (hid : row.id = ticketId)
    (hfail : ∀ t, env.fails t = false) :
    ∃ r w1 w2,
      approve env ticketId userEmail w = (.ok (.approved r), w1) ∧
      (∀ t ∈ w1.db.tickets, t.id = ticketId → t.status = "resolved") ∧
      w1.db.ticket_updates = w.db.ticket_updates ++
        [{ ticket_id := ticketId
           author := "Approval Gate"
           message := "Approved by " ++ textOr userEmail "user" ++ ". Resuming automation." },
         { ticket_id := ticketId, author := "Resolution Agent", message := r }] ∧
      approve env ticketId userEmail w1 = (.ok (.approved r), w2) ∧
      (∀ t ∈ w2.db.tickets, t.id = ticketId → t.status = "resolved") ∧
      w2.db.ticket_updates = w.db.ticket_updates ++
        [{ ticket_id := ticketId
           author := "Approval Gate"
           message := "Approved by " ++ textOr userEmail "user" ++ ". Resuming automation." },
         { ticket_id := ticketId, author := "Resolution Agent", message := r },
         { ticket_id := ticketId
           author := "Approval Gate"
           message := "Approved by " ++ textOr userEmail "user" ++ ". Resuming automation." },
         { ticket_id := ticketId, author := "Resolution Agent", message := r }] := by
  obtain ⟨first, hfirst⟩ := head_filter_of_mem (fun t : TicketRow => decide (t.id = ticketId))
    w.db.tickets row hrow (by simpa using hid)
  obtain ⟨w1, h1⟩ := approve_ok userEmail (fun t _ => hfail t) hfirst
  obtain ⟨_, _, _, hdb1, _⟩ := approve_eq_ok h1
  rw [applyAll_approvalWrites] at hdb1
  have hfirst1 : (w1.db.tickets.filter fun t => t.id = ticketId).head? =
      some { first with status := "resolved" } := by
    rw [hdb1]
    exact head_filter_resolved ticketId w.db.tickets first hfirst
  obtain ⟨w2, h2⟩ := approve_ok userEmail (fun t _ => hfail t) hfirst1
  have hdrafts : w1.db.ticket_drafts = w.db.ticket_drafts := by rw [hdb1]
  rw [hdrafts] at h2
  obtain ⟨_, _, _, hdb2, _⟩ := approve_eq_ok h2
  rw [applyAll_approvalWrites] at hdb2
  have hres : ∀ (s : List TicketRow), ∀ t ∈ (s.map fun t =>
      if t.id = ticketId then { t with status := "resolved" } else t),
      t.id = ticketId → t.status = "resolved" := by
    intro s t ht htid
    simp only [List.mem_map] at ht
    obtain ⟨t0, _, rfl⟩ := ht
    by_cases h0 : t0.id = ticketId
    · simp [h0]
    · simp [h0] at htid
  refine ⟨_, w1, w2, h1, ?_, by rw [hdb1], h2, ?_, ?_⟩
  · rw [hdb1]
    exact hres _
  · rw [hdb2]
    exact hres _
  · rw [hdb2, hdb1]
    simp

/-- C30 at a concrete input: approving, twice, a ticket whose status is "open". -/
theorem approve_has_no_status_guard_witness :
    (sampleTicket 2 "Export is slow").status = "open" ∧
    ∃ r w1 w2,
      approve quietEnv 2 (some "ana@example.com") (worldOf twoOpenStore) =
        (.ok (.approved r), w1) ∧
      (∀ t ∈ w1.db.tickets, t.id = 2 → t.status = "resolved") ∧
      w1.db.ticket_updates = (worldOf twoOpenStore).db.ticket_updates ++
        [{ ticket_id := 2
           author := "Approval Gate"
           message := "Approved by " ++ textOr (some "ana@example.com") "user"
             ++ ". Resuming automation." },
         { ticket_id := 2, author := "Resolution Agent", message := r }] ∧
      approve quietEnv 2 (some "ana@example.com") w1 = (.ok (.approved r), w2) ∧
      (∀ t ∈ w2.db.tickets, t.id = 2 → t.status = "resolved") ∧
      w2.db.ticket_updates = (worldOf twoOpenStore).db.ticket_updates ++
        [{ ticket_id := 2
           author := "Approval Gate"
           message := "Approved by " ++ textOr (some "ana@example.com") "user"
             ++ ". Resuming automation." },
         { ticket_id := 2, author := "Resolution Agent", message := r },
         { ticket_id := 2
           author := "Approval Gate"
           message := "Approved by " ++ textOr (some "ana@example.com") "user"
             ++ ". Resuming automation." },
         { ticket_id := 2, author := "Resolution Agent", message := r }] :=
  ⟨rfl, approve_has_no_status_guard quietEnv 2 (some "ana@example.com") (worldOf twoOpenStore)
    (sampleTicket 2 "Export is slow") (by decide!) rfl (fun _ => rfl)⟩

/-! ## Single-ticket triage and resolve -/

/-- C24: single-ticket triage is not atomic. In the world left by the creation
of a first ticket from "Export is slow" (ticket 1, status "pending_info", with
its draft and one negotiation), a triage of ticket 1 whose second statement,
the insert of the negotiation, fails ends with the database error; the write
it made before, the update of severity and status, remains in the committed
store (the status is now "triaged") although no negotiation was added. An
approval of the same ticket whose third statement fails leaves the committed
store as it was. -/
theorem triage_keeps_writes_before_a_failure :
    pendingWorld.tick = 8 ∧
    (pendingWorld.db.tickets.map fun t => (t.id, t.status)) = [(1, "pending_info")] ∧
    (triage (failingAt 9) 1 pendingWorld).1 = .error .dbError ∧
    ((triage (failingAt 9) 1 pendingWorld).2.db.tickets.map fun t => (t.id, t.status)) =
      [(1, "triaged")] ∧
    (triage (failingAt 9) 1 pendingWorld).2.db.negotiations = pendingWorld.db.negotiations ∧
    (approve (failingAt 10) 1 none pendingWorld).1 = .ok (.failed "Failed to approve ticket") ∧
    (approve (failingAt 10) 1 none pendingWorld).2.db = pendingWorld.db := by
  decide!

/-- C27: the single-ticket handlers do not supply the title. For ticket 2 of
the store with two open tickets, which has the subject "Export is slow" and no
draft, `triage` ends with a type error and writes nothing, and `resolve`
writes a narrative that ends with "undefined"; `approve` writes the narrative
that ends with the subject, and the controller's run for the same ticket
returns its result. -/
theorem triage_and_resolve_lack_the_title :
    (twoOpenStore.tickets.map fun t => (t.id, t.subject)) =
      [(1, some "Login page outage since 9am"), (2, some "Export is slow")] ∧
    twoOpenStore.ticket_drafts = [] ∧
    (triage quietEnv 2 (worldOf twoOpenStore)).1 = .error .typeError ∧
    (triage quietEnv 2 (worldOf twoOpenStore)).2.db = twoOpenStore ∧
    (resolve quietEnv 2 (worldOf twoOpenStore)).1 = .ok (.resolved
      ("Workaround now: capture logs and confirm the affected endpoints. "
        ++ "Escalation next: assign to on-call if metrics stay degraded. "
        ++ "Summary: undefined")) ∧
    (approve quietEnv 2 none (worldOf twoOpenStore)).1 = .ok (.approved
      ("Workaround now: capture logs and confirm the affected endpoints. "
        ++ "Escalation next: assign to on-call if metrics stay degraded. "
        ++ "Summary: Export is slow")) ∧
    (runAutomationForTicket quietEnv (sampleTicket 2 "Export is slow").toRef none
      "Automation Runner" (worldOf twoOpenStore)).1 =
        .ok { status := "pending_info", resolution := none } := by
  decide!

/-! ## The frame of the batch run -/

theorem filter_map_other (id other : Nat) (f : TicketRow → TicketRow) (hne : other ≠ id)
    (hid : ∀ t, (f t).id = t.id) :
    ∀ tickets : List TicketRow,
      ((tickets.map fun t => if t.id = other then f t else t).filter fun t => t.id = id) =
        tickets.filter fun t => t.id = id
  | [] => rfl
  | c :: cs => by
    have ih := filter_map_other id other f hne hid cs
    have hc1 : (if c.id = other then f c else c).id = c.id := by
      split
      · exact hid c
      · rfl
    by_cases h2 : c.id = id
    · have h1 : ¬ c.id = other := fun h => hne (h.symm.trans h2)
      rw [List.map_cons, if_neg h1, List.filter_cons_of_pos (by simpa using h2),
        List.filter_cons_of_pos (by simpa using h2), ih]
    · rw [List.map_cons, List.filter_cons_of_neg (by rw [hc1]; simpa using h2),
        List.filter_cons_of_neg (by simpa using h2), ih]

/-- The writes of one run of the controller for a ticket leave what the store
holds about every other ticket as it was. -/
theorem about_applyAll_automationWrites (ticketRowId : Nat) (supplied : Bool) (draft : Draft)
    (debate : Verdict) (actorLabel : String) (s : Store) (id : Nat) (hne : ticketRowId ≠ id) :
    (Store.applyAll (automationWrites ticketRowId supplied draft debate actorLabel) s).about id =
      s.about id := by
  rw [applyAll_automationWrites]
  have hdec : decide (ticketRowId = id) = false := by simpa using hne
  have htickets := filter_map_other id ticketRowId
    (fun t => { t with
      severity := debate.severity
      status := if debate.requiresHuman then "pending_info" else "in_progress" })
    hne (fun _ => rfl) s.tickets
  simp only [Store.about, Store.mk.injEq]
  refine ⟨htickets, ?_, ?_, ?_, ?_⟩
  · cases supplied <;> simp [List.filter_append, List.filter, draftInsertRow, hdec]
  · simp [List.filter_append, List.filter, hdec]
  · cases truthyId debate.duplicateOf <;> simp [List.filter_append, List.filter, hdec]
  · cases (applyEscalation debate.slaRisk).escalate <;>
      simp [List.filter_append, List.filter, hdec]

theorem hasNegotiation_about (s s' : Store) (id : Nat) (h : s'.about id = s.about id) :
    s'.hasNegotiation id = s.hasNegotiation id := by
  have hn : (s'.negotiations.filter fun n => n.ticket_id = id) =
      s.negotiations.filter fun n => n.ticket_id = id := congrArg Store.negotiations h
  have key : ∀ l : List NegotiationRow,
      (l.any fun n => decide (n.ticket_id = id)) =
        !(l.filter fun n => decide (n.ticket_id = id)).isEmpty := by
    intro l
    induction l with
    | nil => rfl
    | cons c cs ih =>
      by_cases hc : c.ticket_id = id
      · simp [List.filter, hc]
      · simp only [List.any_cons, hc, decide_False, Bool.false_or, List.filter]
        exact ih
  unfold Store.hasNegotiation
  rw [key, key, hn]

/-- The batch loop leaves what the store holds about a ticket as it was, when
every ticket of that id in its list already has a negotiation record. -/
theorem automateOpenLoop_about (env : Env) (id : Nat) :
    ∀ (tickets : List TicketRow) (processed skipped : Nat) (w : World),
      (∀ t ∈ tickets, t.id = id → w.db.hasNegotiation id = true) →
      (automateOpenLoop env tickets processed skipped w).2.db.about id = w.db.about id
  | [], processed, skipped, w, _ => by rw [automateOpenLoop_nil_run]
  | ticketRow :: rest, processed, skipped, w, h => by
    rw [automateOpenLoop_cons_run]
    by_cases hneg : w.db.hasNegotiation ticketRow.id = true
    · rw [if_pos hneg]
      exact automateOpenLoop_about env id rest processed (skipped + 1) w
        (fun t ht => h t (List.mem_cons_of_mem _ ht))
    · rw [if_neg hneg]
      have hne : ticketRow.id ≠ id := by
        intro heq
        exact hneg (heq ▸ h ticketRow (List.mem_cons_self _ _) heq)
      obtain ⟨committed, v, hres, _, hfalse, htrue⟩ := batchStep_result env ticketRow.toRef
        (((w.db.ticket_drafts.filter fun d => d.ticket_id = ticketRow.id).head?).map
          DraftRow.toDraft) w
      rw [hres]
      have hstep : v.db.about id = w.db.about id := by
        cases committed with
        | false => rw [hfalse rfl]
        | true =>
          obtain ⟨draft, debate, _, hdb⟩ := htrue rfl
          rw [hdb]
          exact about_applyAll_automationWrites _ _ _ _ _ _ _ hne
      have hrest : ∀ t ∈ rest, t.id = id → v.db.hasNegotiation id = true := by
        intro t ht htid
        rw [hasNegotiation_about _ _ _ hstep]
        exact h t (List.mem_cons_of_mem _ ht) htid
      show (automateOpenLoop env rest _ skipped v).2.db.about id = _
      rw [automateOpenLoop_about env id rest _ skipped v hrest, hstep]

theorem automateOpen_about (env : Env) (w : World) (id : Nat)
    (h : ∀ t ∈ w.db.tickets, t.id = id → t.status = "open" → w.db.hasNegotiation id = true) :
    (automateOpen env w).2.db.about id = w.db.about id := by
  have hloop := automateOpenLoop_about env id w.db.openTickets 0 0 w (by
    intro t ht htid
    have hmem := List.mem_filter.mp ht
    exact h t hmem.1 htid (by simpa using hmem.2))
  rw [automateOpen_run]
  by_cases hopen : w.db.openTickets = []
  · rw [if_pos hopen]
  · rw [if_neg hopen]
    revert hloop
    generalize automateOpenLoop env w.db.openTickets 0 0 w = res
    intro hloop
    obtain ⟨r, v⟩ := res
    cases r with
    | error e => exact hloop
    | ok ps => exact hloop

/-- C26: the frame of the batch run. On a store whose tickets have distinct
ids, a batch run, whatever the environment does, leaves everything the store
holds about a ticket as it was (its row of `tickets`, so its status and
severity, and its drafts, negotiations, links and updates) when the ticket's
status is not "open", and also when the ticket is open and already has a
negotiation record. In particular a ticket that is resolved before the run is
the same row after it, and every ticket that is open after the run was that
open row before: the batch runner never re-opens a ticket. -/
theorem automateOpen_frame (env : Env) (w : World)
    (hnodup : (w.db.tickets.map fun t => t.id).Nodup) :
    (∀ t ∈ w.db.tickets, (t.status ≠ "open" ∨ w.db.hasNegotiation t.id = true) →
      (automateOpen env w).2.db.about t.id = w.db.about t.id) ∧
    (∀ t ∈ w.db.tickets, t.status = "resolved" → t ∈ (automateOpen env w).2.db.tickets) ∧
    (∀ t ∈ (automateOpen env w).2.db.tickets, t.status = "open" → t ∈ w.db.tickets) := by
  have hframe : ∀ t ∈ w.db.tickets, (t.status ≠ "open" ∨ w.db.hasNegotiation t.id = true) →
      (automateOpen env w).2.db.about t.id = w.db.about t.id := by
    intro t ht hfrozen
    apply automateOpen_about
    intro t' ht' hid hopen
    have heq : t' = t := List.inj_on_of_nodup_map hnodup ht' ht hid
    subst heq
    rcases hfrozen with h | h
    · exact absurd hopen h
    · exact h
  refine ⟨hframe, ?_, ?_⟩
  · intro t ht hres
    have h := hframe t ht (Or.inl (by rw [hres]; decide))
    have hmem : t ∈ (w.db.about t.id).tickets := List.mem_filter.mpr ⟨ht, by simp⟩
    rw [← h] at hmem
    exact (List.mem_filter.mp hmem).1
  · obtain ⟨p, s, v, hrun, _, _, _, _, hopen⟩ :=
      automateOpenLoop_result env w.db.openTickets 0 0 w (openTickets_nodup w.db hnodup)
    rw [automateOpen_run]
    by_cases hnone : w.db.openTickets = []
    · rw [if_pos hnone]
      exact fun t ht _ => ht
    · rw [if_neg hnone, hrun]
      exact hopen

/-- C26 at a concrete input: the batch run on the store left by the creation of
a first ticket, which waits for approval. -/
theorem automateOpen_frame_witness :
    pendingTicket ∈ pendingWorld.db.tickets ∧ pendingTicket.status ≠ "open" ∧
    (automateOpen quietEnv pendingWorld).2.db.about pendingTicket.id =
      pendingWorld.db.about pendingTicket.id :=
  ⟨by decide!, by decide,
    (automateOpen_frame quietEnv pendingWorld (by decide!)).1 pendingTicket (by decide!)
      (Or.inl (by decide))⟩

/-! ## The outcome of a ticket creation -/

theorem Run.bind_quiet_elim {α β : Type} {m : Run α} {f : α → Run β} (hm : Run.Quiet m)
    (w : World) (P : Except JsErr β × World → Prop)
    (herr : ∀ e v, v.db = w.db → P (.error e, v))
    (hok : ∀ a k, P (f a (w.withDraw k))) : P ((m >>= f) w) := by
  rw [Run.bind_run]
  have hq := hm.world_eq w
  have hdb := (hm w).1
  cases hmw : m w with
  | mk r v =>
    rw [hmw] at hq hdb
    cases r with
    | error e => exact herr e v hdb
    | ok a =>
      simp only at hq
      show P (f a v)
      rw [hq]
      exact hok a _

theorem transaction_elim {α : Type} (env : Env) (block : Run α) (fallback : α)
    (hb : Run.Closing env block) (w : World) (P : Except JsErr α × World → Prop)
    (hcommit : ∀ x v, block { w with tick := w.tick + 1, txn := some w.db } = (.ok x, v) →
      P (.ok x, v))
    (hfall : ∀ v, v.db = w.db → P (.ok fallback, v)) :
    P (Run.tryCatch (beginTransaction env >>= fun _ => block)
      (fun _ => rollback >>= fun _ => pure fallback) w) := by
  rcases transaction_result env block fallback hb w with
    ⟨x, v, u, hblock, _, hres, hu⟩ | ⟨v, hres, hdb, _⟩
  · rw [hres, hu]
    exact hcommit x v hblock
  · rw [hres]
    exact hfall v hdb

theorem executeMax_eq_ok {env : Env} {pfx : String} {w w' : World} {p : Nat × Nat} :
    executeMax env pfx w = (.ok p, w') ↔
      env.fails w.tick = false ∧ p = (maxTicket pfx w.view.tickets, maxRow w.view.tickets) ∧
        w' = { w with tick := w.tick + 1 } := by
  simp only [executeMax, nextTick, Run.bind_run]
  by_cases hf : env.fails w.tick
  · simp [hf, Run.throw]
  · simp only [Bool.not_eq_true] at hf
    simp only [hf, Bool.false_eq_true, ↓reduceIte, Prod.mk.injEq, Except.ok.injEq, true_and]
    constructor
    · rintro ⟨h1, h2⟩
      exact ⟨h1.symm, h2.symm⟩
    · rintro ⟨h1, h2⟩
      exact ⟨h1.symm, h2.symm⟩

theorem executeInsertTicket_eq_ok {env : Env} {row : Nat → TicketRow} {w w' : World} {id : Nat} :
    executeInsertTicket env row w = (.ok id, w') ↔
      env.fails w.tick = false ∧ id = max w.autoInc (maxRow w.view.tickets) + 1 ∧
        w' = { ({ w with tick := w.tick + 1 } : World).write (.insertTicket (row id)) with
          autoInc := id } := by
  simp only [executeInsertTicket, nextTick, Run.bind_run]
  by_cases hf : env.fails w.tick
  · simp [hf, Run.throw]
  · simp only [Bool.not_eq_true] at hf
    simp only [hf, Bool.false_eq_true, ↓reduceIte, Prod.mk.injEq, Except.ok.injEq, true_and]
    constructor
    · rintro ⟨h1, h2⟩
      subst h1
      exact ⟨rfl, h2.symm⟩
    · rintro ⟨h1, h2⟩
      subst h1
      exact ⟨rfl, h2.symm⟩

/-- The outcome of `POST /`: the committed store is as it was and no ticket is
reported created, or the ticket was created and the store holds the new row,
its draft and the writes of the controller's run. -/
theorem createTicket_outcome (env : Env) (req : CreateRequest) (w : World) :
    ((createTicket env req w).2.db = w.db ∧
      ∀ id draft, (createTicket env req w).1 ≠ .ok (.created id draft)) ∨
    ∃ draft row verdict,
      (createTicket env req w).1 = .ok (.created row.id draft) ∧
      row.id = max w.autoInc (maxRow w.db.tickets) + 1 ∧
      row.ticket_id = some
        ((if req.type = some "TSK" then "TSK" else "INC") ++ "-" ++ toString
          ((if (if req.type = some "TSK" then "TSK" else "INC") = "INC" then
              max (maxTicket (if req.type = some "TSK" then "TSK" else "INC") w.db.tickets)
                (maxRow w.db.tickets)
            else maxTicket (if req.type = some "TSK" then "TSK" else "INC") w.db.tickets)
              + 1)) ∧
      row.body = some req.rawText ∧
      (createTicket env req w).2.db =
        Store.applyAll (.insertTicket row :: .insertDraft (draftInsertRow row.id draft) ::
          automationWrites row.id true draft verdict "Approval Gate") w.db := by
  obtain ⟨P, hP⟩ : ∃ P : Except JsErr Response × World → Prop, P = fun res =>
      (res.2.db = w.db ∧ ∀ id draft, res.1 ≠ .ok (.created id draft)) ∨
      ∃ draft row verdict,
        res.1 = .ok (.created row.id draft) ∧
        row.id = max w.autoInc (maxRow w.db.tickets) + 1 ∧
        row.ticket_id = some
          ((if req.type = some "TSK" then "TSK" else "INC") ++ "-" ++ toString
            ((if (if req.type = some "TSK" then "TSK" else "INC") = "INC" then
                max (maxTicket (if req.type = some "TSK" then "TSK" else "INC") w.db.tickets)
                  (maxRow w.db.tickets)
              else maxTicket (if req.type = some "TSK" then "TSK" else "INC") w.db.tickets)
                + 1)) ∧
        row.body = some req.rawText ∧
        res.2.db =
          Store.applyAll (.insertTicket row :: .insertDraft (draftInsertRow row.id draft) ::
            automationWrites row.id true draft verdict "Approval Gate") w.db := ⟨_, rfl⟩
  have hsame : ∀ (r : Except JsErr Response) (v : World),
      (∀ id draft, r ≠ .ok (.created id draft)) → v.db = w.db → P (r, v) := by
    intro r v hr h
    rw [hP]
    exact Or.inl ⟨h, hr⟩
  have herr : ∀ (e : JsErr) (id : Nat) (draft : Draft),
      (Except.error e : Except JsErr Response) ≠ .ok (.created id draft) := by
    intro e id draft h
    cases h
  suffices h : P (createTicket env req w) by
    rw [hP] at h
    exact h
  unfold createTicket
  split
  · exact hsame _ _ (fun _ _ h => by cases h) rfl
  refine Run.bind_quiet_elim (intake_quiet env _) w P (fun e _ h => hsame _ _ (herr e) h) fun draft k0 => ?_
  refine Run.bind_quiet_elim ?_ _ P (fun e _ h => hsame _ _ (herr e) h) fun resolvedPriority k1 => ?_
  · split
    · exact Run.Quiet.quiet_ofExcept _
    · exact Run.Quiet.quiet_pure _
  refine Run.bind_quiet_elim ?_ _ P (fun e _ h => hsame _ _ (herr e) h) fun resolvedAssignees k2 => ?_
  · split
    · exact Run.Quiet.quiet_ofExcept _
    · split
      · exact Run.Quiet.quiet_ofExcept _
      · exact Run.Quiet.quiet_pure _
  refine Run.bind_quiet_elim (Run.Quiet.quiet_ofExcept _) _ P (fun e _ h => hsame _ _ (herr e) h)
    fun resolvedTitle k3 => ?_
  refine transaction_elim env _ _ ?_ _ P ?_ (fun v h => hsame _ v (fun _ _ h => by cases h) h)
  · refine Run.Closing.closing_bind (executeMax_safe env _) fun p => ?_
    refine Run.Closing.closing_bind (executeInsertTicket_safe env _) fun ticketRowId => ?_
    refine Run.Closing.closing_bind (execute_safe env _) fun _ => ?_
    refine Run.Closing.closing_bind (runAutomationForTicket_safe env _ _ _) fun _ => ?_
    exact commit_closing env _
  intro x v hblock
  rw [Run.bind_eq_ok] at hblock
  obtain ⟨⟨mt, mr⟩, w2, h2, hblock⟩ := hblock
  simp only [Run.bind_eq_ok] at hblock
  obtain ⟨id, w3, h3, _, w4, h4, r, w5, h5, _, w6, h6, h7⟩ := hblock
  rw [executeMax_eq_ok] at h2
  rw [executeInsertTicket_eq_ok] at h3
  rw [execute_eq_ok] at h4
  rw [commit_eq_ok] at h6
  obtain ⟨draft5, text, k, hd5, _, _, h5⟩ := runAutomationForTicket_eq_ok h5
  simp only [Run.pure_run, Prod.mk.injEq, Except.ok.injEq] at h7
  obtain ⟨hx, hv⟩ := h7
  obtain ⟨_, hp, hw2⟩ := h2
  obtain ⟨_, hid, hw3⟩ := h3
  simp only [Prod.mk.injEq] at hp
  obtain ⟨hmt, hmr⟩ := hp
  have hview2 : w2.view = w.db := by rw [hw2]; rfl
  obtain ⟨row, hw3, hrid, hrnum, hrbody⟩ : ∃ row : TicketRow,
      w3 = { ({ w2 with tick := w2.tick + 1 } : World).write (.insertTicket row) with
        autoInc := id } ∧ row.id = id ∧
      row.ticket_id = some
        ((if req.type = some "TSK" then "TSK" else "INC") ++ "-" ++ toString
          ((if (if req.type = some "TSK" then "TSK" else "INC") = "INC" then max mt mr
            else mt) + 1)) ∧
      row.body = some req.rawText := ⟨_, hw3, rfl, rfl, rfl⟩
  have hview3 : w3.view = (Stmt.insertTicket row).apply w.db := by
    rw [hw3]
    show (World.write _ _).view = _
    rw [World.write_view]
    exact congrArg _ hview2
  have hview4 : w4.view = Store.applyAll
      [.insertTicket row, .insertDraft (draftInsertRow id draft)] w.db := by
    rw [h4.2]
    show (World.writeAll _ _).view = _
    rw [World.writeAll_view, hview3]
    rfl
  have hview5 : w5.view = Store.applyAll
      (.insertTicket row :: .insertDraft (draftInsertRow id draft) ::
        automationWrites id true draft5
          (debateVerdict env text (debateImpact (some draft5)) k) "Approval Gate") w.db := by
    rw [h5]
    show (World.writeAll _ _).view = _
    rw [World.writeAll_view, hview4]
    rfl
  have hd : draft5 = draft := by
    rcases hd5 with h | h
    · exact (Option.some.inj h).symm
    · exact absurd h.1 (by simp)
  subst hd
  have hauto : w2.autoInc = w.autoInc := by rw [hw2]; rfl
  have hmt2 : mt = maxTicket (if req.type = some "TSK" then "TSK" else "INC") w.db.tickets := hmt
  have hmr2 : mr = maxRow w.db.tickets := hmr
  rw [hP]
  right
  refine ⟨draft5, row, debateVerdict env text (debateImpact (some draft5)) k, ?_, ?_, ?_, hrbody, ?_⟩
  · rw [hrid, ← hx]
  · rw [hrid, hid, hauto, hview2]
  · rw [hrnum, hmt2, hmr2]
  · rw [← hv, h6.2, hrid]
    exact hview5

/-- The store after a ticket creation, table by table. -/
theorem applyAll_creationWrites (row : TicketRow) (draft : Draft) (debate : Verdict)
    (actorLabel : String) (s : Store) :
    Store.applyAll (.insertTicket row :: .insertDraft (draftInsertRow row.id draft) ::
        automationWrites row.id true draft debate actorLabel) s =
      { tickets := (s.tickets ++ [row]).map fun t =>
          if t.id = row.id then
            { t with
              severity := debate.severity
              status := if debate.requiresHuman then "pending_info" else "in_progress" }
          else t
        ticket_drafts := s.ticket_drafts ++ [draftInsertRow row.id draft]
        negotiations := s.negotiations ++
          [{ ticket_id := row.id, phase := "triage", transcript_json := debate.transcript }]
        ticket_links := s.ticket_links ++
          (if truthyId debate.duplicateOf then
            [{ ticket_id := row.id
               duplicate_of_ticket_id := debate.duplicateOf.getD 0
               confidence := debate.duplicateConfidence }]
          else [])
        ticket_updates := s.ticket_updates ++
          ((if (applyEscalation debate.slaRisk).escalate then
            [{ ticket_id := row.id
               author := "Policy Engine"
               message := (applyEscalation debate.slaRisk).message }]
          else []) ++
          [{ ticket_id := row.id
             author := actorLabel
             message := "Approval required to continue automation." }]) } := by
  show Store.applyAll (automationWrites row.id true draft debate actorLabel)
    ((Stmt.insertDraft (draftInsertRow row.id draft)).apply ((Stmt.insertTicket row).apply s)) = _
  rw [applyAll_automationWrites]
  simp [Stmt.apply]

/-- C25, amended: the derivation of the ticket number. Whenever `POST /`
reports a ticket created, the store it leaves holds a row with the reported
id whose number is the prefix of the request ("TSK" when the request asks for
a task, "INC" otherwise), a hyphen and n + 1, where for "TSK" n is the greatest
numeric suffix among the existing numbers that start with "TSK-" (0 when there
is none), and for "INC" n is the greater of that suffix for "INC-" and of the
greatest row id of the existing tickets. -/
theorem ticket_number_derivation (env : Env) (req : CreateRequest) (w w' : World) (id : Nat)
    (draft : Draft) (h : createTicket env req w = (.ok (.created id draft), w')) :
    ∃ t ∈ w'.db.tickets, t.id = id ∧
      t.ticket_id = some
        (if req.type = some "TSK" then
          "TSK" ++ "-" ++ toString (maxTicket "TSK" w.db.tickets + 1)
        else
          "INC" ++ "-" ++
            toString (max (maxTicket "INC" w.db.tickets) (maxRow w.db.tickets) + 1)) := by
  rcases createTicket_outcome env req w with ⟨_, hnot⟩ | ⟨d, row, verdict, hres, _, hnum, _, hdb⟩
  · rw [h] at hnot
    exact absurd rfl (hnot id draft)
  · rw [h] at hres hdb
    simp only [Except.ok.injEq, Response.created.injEq] at hres
    have hdb' : w'.db = _ := hdb
    rw [applyAll_creationWrites] at hdb'
    refine ⟨{ row with
      severity := verdict.severity
      status := if verdict.requiresHuman then "pending_info" else "in_progress" }, ?_,
      hres.1.symm, ?_⟩
    · rw [hdb']
      simp only [List.mem_map]
      exact ⟨row, by simp, by simp⟩
    · show row.ticket_id = _
      rw [hnum]
      by_cases ht : req.type = some "TSK"
      · simp only [ht, ↓reduceIte]
        rfl
      · simp only [ht, ↓reduceIte]

/-- C25, amended, at a concrete input: an incident created in a store whose
only ticket is the task "TSK-1" of row id 1. -/
theorem ticket_number_derivation_witness :
    ∃ t ∈ (createTicket quietEnv (sampleRequest "Export is slow") (worldOf taskStore)).2.db.tickets,
      t.id = 2 ∧
      t.ticket_id = some
        (if (sampleRequest "Export is slow").type = some "TSK" then
          "TSK" ++ "-" ++ toString (maxTicket "TSK" (worldOf taskStore).db.tickets + 1)
        else
          "INC" ++ "-" ++
            toString (max (maxTicket "INC" (worldOf taskStore).db.tickets)
              (maxRow (worldOf taskStore).db.tickets) + 1)) :=
  ticket_number_derivation quietEnv (sampleRequest "Export is slow") (worldOf taskStore) _ 2
    (heuristicDraft "Export is slow") (by decide!)

/-- C25: the claim as stated fails for an incident. In the store whose only
ticket is the task numbered "TSK-1", of row id 1, no number starts with
"INC-", so the greatest suffix for "INC" is 0; the incident created there is
numbered "INC-2", not "INC-1". -/
theorem incident_number_follows_row_ids :
    (taskStore.tickets.map fun t => (t.id, t.ticket_id)) = [(1, some "TSK-1")] ∧
    maxTicket "INC" taskStore.tickets = 0 ∧
    (createTicket quietEnv (sampleRequest "Export is slow") (worldOf taskStore)).1 =
      .ok (.created 2 (heuristicDraft "Export is slow")) ∧
    ((createTicket quietEnv (sampleRequest "Export is slow") (worldOf taskStore)).2.db.tickets.map
      fun t => (t.id, t.ticket_id)) = [(1, some "TSK-1"), (2, some "INC-2")] := by
  decide!

/-! ## One draft per ticket -/

theorem draftsOwned_iff (s : Store) :
    s.draftsOwned = true ↔ ∀ d ∈ s.ticket_drafts, d.ticket_id ∈ s.tickets.map fun t => t.id := by
  unfold Store.draftsOwned
  simp only [List.all_eq_true, List.any_eq_true, decide_eq_true_eq, List.mem_map]

theorem draftCount_eq_zero_of_not_owned (s : Store) (id : Nat) (hown : s.draftsOwned = true)
    (hid : id ∉ s.tickets.map fun t => t.id) : s.draftCount id = 0 := by
  unfold Store.draftCount
  rw [List.length_eq_zero, List.filter_eq_nil_iff]
  intro d hd hdid
  simp only [decide_eq_true_eq] at hdid
  exact hid (hdid ▸ (draftsOwned_iff s).mp hown d hd)

theorem le_foldl_max : ∀ (l : List Nat) (init : Nat),
    init ≤ l.foldl max init ∧ ∀ x ∈ l, x ≤ l.foldl max init
  | [], init => ⟨le_refl _, fun _ h => by simp at h⟩
  | c :: cs, init => by
    obtain ⟨h1, h2⟩ := le_foldl_max cs (max init c)
    refine ⟨le_trans (le_max_left _ _) h1, ?_⟩
    intro x hx
    rcases List.mem_cons.mp hx with h | h
    · subst h
      exact le_trans (le_max_right _ _) h1
    · exact h2 x h

theorem le_maxRow (tickets : List TicketRow) (id : Nat)
    (h : id ∈ tickets.map fun t => t.id) : id ≤ maxRow tickets :=
  (le_foldl_max _ 0).2 id h

/-- The step of the invariant: a store that keeps the ticket ids, keeps the
drafts and adds at most one draft, for a ticket of the store that had none,
has at most one draft per ticket again, each owned by a ticket. -/
theorem drafts_step (s s' : Store) (added : List DraftRow)
    (hdrafts : s'.ticket_drafts = s.ticket_drafts ++ added)
    (hids : ∀ id, id ∈ (s.tickets.map fun t => t.id) → id ∈ s'.tickets.map fun t => t.id)
    (hlen : added.length ≤ 1)
    (hadd : ∀ d ∈ added, s.draftCount d.ticket_id = 0 ∧ d.ticket_id ∈ s'.tickets.map fun t => t.id)
    (hcount : ∀ id, s.draftCount id ≤ 1) (hown : s.draftsOwned = true) :
    (∀ id, s'.draftCount id ≤ 1) ∧ s'.draftsOwned = true := by
  constructor
  · intro id
    unfold Store.draftCount at hcount hadd ⊢
    rw [hdrafts, List.filter_append, List.length_append]
    match added, hlen, hadd with
    | [], _, _ => simpa using hcount id
    | [d], _, hadd =>
      by_cases hd : d.ticket_id = id
      · have h0 := (hadd d (by simp)).1
        rw [hd] at h0
        rw [h0]
        simp [List.filter, hd]
      · have := hcount id
        simp only [List.filter, hd, decide_False, List.length_nil, add_zero]
        exact this
    | _ :: _ :: _, hlen, _ => simp at hlen
  · rw [draftsOwned_iff] at hown ⊢
    intro d hd
    rw [hdrafts] at hd
    rcases List.mem_append.mp hd with h | h
    · exact hids _ (hown d h)
    · exact (hadd d h).2

theorem ids_map_update (id : Nat) (f : TicketRow → TicketRow) (hid : ∀ t, (f t).id = t.id)
    (tickets : List TicketRow) :
    ((tickets.map fun t => if t.id = id then f t else t).map fun t => t.id) =
      tickets.map fun t => t.id := by
  rw [List.map_map]
  apply List.map_congr_left
  intro t _
  show (if t.id = id then f t else t).id = t.id
  split
  · exact hid t
  · rfl

theorem head_filter_none {α : Type} (p : α → Bool) (l : List α)
    (h : (l.filter p).head? = none) : (l.filter p).length = 0 := by
  cases hl : l.filter p with
  | nil => rfl
  | cons c cs => rw [hl] at h; simp at h

theorem Store.keepsDrafts.same (s : Store) : s.keepsDrafts s :=
  ⟨⟨[], by simp⟩, fun h1 h2 => ⟨h1, h2⟩⟩

theorem Store.keepsDrafts.of_eq {s s' : Store} (h : s' = s) : s.keepsDrafts s' := by
  rw [h]
  exact Store.keepsDrafts.same s

theorem Store.keepsDrafts.chain {s1 s2 s3 : Store} (h12 : s1.keepsDrafts s2)
    (h23 : s2.keepsDrafts s3) : s1.keepsDrafts s3 := by
  obtain ⟨⟨a1, ha1⟩, hi1⟩ := h12
  obtain ⟨⟨a2, ha2⟩, hi2⟩ := h23
  refine ⟨⟨a1 ++ a2, by rw [ha2, ha1, List.append_assoc]⟩, fun h1 h2 => ?_⟩
  obtain ⟨g1, g2⟩ := hi1 h1 h2
  exact hi2 g1 g2

theorem ids_applyAll_automationWrites (ticketRowId : Nat) (supplied : Bool) (draft : Draft)
    (debate : Verdict) (actorLabel : String) (s : Store) :
    ((Store.applyAll (automationWrites ticketRowId supplied draft debate actorLabel)
      s).tickets.map fun t => t.id) = s.tickets.map fun t => t.id := by
  rw [applyAll_automationWrites]
  show List.map _ (List.map _ _) = _
  rw [List.map_map]
  apply List.map_congr_left
  intro t _
  show TicketRow.id (if _ then _ else _) = _
  split <;> rfl

/-- The writes of one run of the controller keep the drafts, when the run was
given the ticket's draft or the ticket had none. -/
theorem keepsDrafts_automationWrites (ticketRowId : Nat) (supplied : Bool) (draft : Draft)
    (debate : Verdict) (actorLabel : String) (s : Store)
    (hnone : supplied = false → s.draftCount ticketRowId = 0)
    (hid : ticketRowId ∈ s.tickets.map fun t => t.id) :
    s.keepsDrafts
      (Store.applyAll (automationWrites ticketRowId supplied draft debate actorLabel) s) := by
  have hids := ids_applyAll_automationWrites ticketRowId supplied draft debate actorLabel s
  have hdrafts : (Store.applyAll (automationWrites ticketRowId supplied draft debate actorLabel)
      s).ticket_drafts = s.ticket_drafts ++
        (if supplied then [] else [draftInsertRow ticketRowId draft]) := by
    rw [applyAll_automationWrites]
  refine ⟨⟨_, hdrafts⟩, fun h1 h2 => ?_⟩
  refine drafts_step s _ _ hdrafts (fun id h => by rw [hids]; exact h) ?_ ?_ h1 h2
  · cases supplied <;> simp
  · intro d hd
    cases supplied with
    | true => simp at hd
    | false =>
      simp only [Bool.false_eq_true, ↓reduceIte, List.mem_singleton] at hd
      subst hd
      exact ⟨hnone rfl, by rw [hids]; exact hid⟩

theorem keepsDrafts_approvalWrites (ticketId : Nat) (userEmail : Option String)
    (resolution : String) (s : Store) :
    s.keepsDrafts (Store.applyAll (approvalWrites ticketId userEmail resolution) s) := by
  have hids : ((Store.applyAll (approvalWrites ticketId userEmail resolution) s).tickets.map
      fun t => t.id) = s.tickets.map fun t => t.id := by
    rw [applyAll_approvalWrites]
    show List.map _ (List.map _ _) = _
    rw [List.map_map]
    apply List.map_congr_left
    intro t _
    show TicketRow.id (if _ then _ else _) = _
    split <;> rfl
  have hdrafts : (Store.applyAll (approvalWrites ticketId userEmail resolution) s).ticket_drafts =
      s.ticket_drafts ++ [] := by
    rw [applyAll_approvalWrites, List.append_nil]
  refine ⟨⟨_, hdrafts⟩, fun h1 h2 => ?_⟩
  exact drafts_step s _ _ hdrafts (fun id h => by rw [hids]; exact h) (by simp)
    (fun d hd => by simp at hd) h1 h2

/-- The writes of a ticket creation keep the drafts: the new row has an id no
earlier ticket has, so the draft inserted for it is its only one. -/
theorem keepsDrafts_creationWrites (row : TicketRow) (draft : Draft) (debate : Verdict)
    (actorLabel : String) (s : Store) (hnew : maxRow s.tickets < row.id) :
    s.keepsDrafts
      (Store.applyAll (.insertTicket row :: .insertDraft (draftInsertRow row.id draft) ::
        automationWrites row.id true draft debate actorLabel) s) := by
  have hids : ((Store.applyAll (.insertTicket row :: .insertDraft (draftInsertRow row.id draft) ::
      automationWrites row.id true draft debate actorLabel) s).tickets.map fun t => t.id) =
        (s.tickets ++ [row]).map fun t => t.id := by
    rw [applyAll_creationWrites]
    show List.map _ (List.map _ _) = _
    rw [List.map_map]
    apply List.map_congr_left
    intro t _
    show TicketRow.id (if _ then _ else _) = _
    split <;> rfl
  have hdrafts : (Store.applyAll (.insertTicket row :: .insertDraft (draftInsertRow row.id draft) ::
      automationWrites row.id true draft debate actorLabel) s).ticket_drafts =
        s.ticket_drafts ++ [draftInsertRow row.id draft] := by
    rw [applyAll_creationWrites]
  refine ⟨⟨_, hdrafts⟩, fun h1 h2 => ?_⟩
  refine drafts_step s _ _ hdrafts (fun id h => ?_) (by simp) ?_ h1 h2
  · rw [hids, List.map_append]
    exact List.mem_append_left _ h
  · intro d hd
    simp only [List.mem_singleton] at hd
    subst hd
    refine ⟨draftCount_eq_zero_of_not_owned s _ h2 ?_, ?_⟩
    · intro hmem
      have := le_maxRow s.tickets _ hmem
      have hrow : (draftInsertRow row.id draft).ticket_id = row.id := rfl
      omega
    · rw [hids, List.map_append]
      exact List.mem_append_right _ (by simp [draftInsertRow])

theorem createTicket_keepsDrafts (env : Env) (req : CreateRequest) (w : World) :
    w.db.keepsDrafts (createTicket env req w).2.db := by
  rcases createTicket_outcome env req w with ⟨h, _⟩ | ⟨draft, row, verdict, _, hid, _, _, hdb⟩
  · exact Store.keepsDrafts.of_eq h
  · rw [hdb]
    apply keepsDrafts_creationWrites
    rw [hid]
    have := le_max_right w.autoInc (maxRow w.db.tickets)
    omega

/-- The outcome of `POST /:id/approve` on the committed store: it is as it
was, or the writes of the approval were applied to it. -/
theorem approve_db (env : Env) (ticketId : Nat) (userEmail : Option String) (w : World) :
    (approve env ticketId userEmail w).2.db = w.db ∨
      ∃ r, (approve env ticketId userEmail w).2.db =
        Store.applyAll (approvalWrites ticketId userEmail r) w.db := by
  obtain ⟨P, hP⟩ : ∃ P : Except JsErr Response × World → Prop, P = fun res =>
      res.2.db = w.db ∨
        ∃ r, res.2.db = Store.applyAll (approvalWrites ticketId userEmail r) w.db := ⟨_, rfl⟩
  suffices h : P (approve env ticketId userEmail w) by
    rw [hP] at h
    exact h
  unfold approve
  simp only [Run.bind_run, queryRows_run]
  cases (List.filter (fun t => decide (t.id = ticketId)) w.db.tickets).head? with
  | none =>
    rw [hP]
    exact Or.inl rfl
  | some row =>
    simp only [Run.bind_run, queryRows_run]
    refine transaction_elim env _ _ ?_ w P ?_ ?_
    · refine Run.Closing.closing_bind (execute_safe env _) fun _ => ?_
      refine Run.Closing.closing_bind (execute_safe env _) fun _ => ?_
      refine Run.Closing.closing_bind (execute_safe env _) fun _ => ?_
      refine Run.Closing.closing_bind (execute_safe env _) fun _ => ?_
      exact commit_closing env _
    · intro x v hblock
      simp only [Run.bind_eq_ok] at hblock
      obtain ⟨_, w2, h2, _, w3, h3, _, w4, h4, _, w5, h5, _, w6, h6, h7⟩ := hblock
      rw [execute_eq_ok] at h2 h3 h4 h5
      rw [commit_eq_ok] at h6
      simp only [Run.pure_run, Prod.mk.injEq, Except.ok.injEq] at h7
      obtain ⟨_, hw⟩ := h7
      subst hw
      have hw5 : w5 = (({ w with tick := w.tick + 1, txn := some w.db } : World).advance
          (approvalWrites ticketId userEmail (proposeResolution (JsVal.ofOption row.subject)
            ((w.db.ticket_drafts.filter fun d => d.ticket_id = ticketId).head?.map
              DraftRow.toDraft)))).withDraw
          (({ w with tick := w.tick + 1, txn := some w.db } : World).advance
            (approvalWrites ticketId userEmail (proposeResolution (JsVal.ofOption row.subject)
              ((w.db.ticket_drafts.filter fun d => d.ticket_id = ticketId).head?.map
                DraftRow.toDraft)))).draw := by
        rw [World.withDraw_self, h5.2, h4.2, h3.2, h2.2]
        simp only [World.advance_advance, approvalWrites, List.singleton_append,
          List.cons_append, List.nil_append]
      obtain ⟨g1, _⟩ := committed_world rfl hw5 h6.2
      rw [hP]
      exact Or.inr ⟨_, g1⟩
    · intro v hv
      rw [hP]
      exact Or.inl hv

theorem approve_keepsDrafts (env : Env) (ticketId : Nat) (userEmail : Option String) (w : World) :
    w.db.keepsDrafts (approve env ticketId userEmail w).2.db := by
  rcases approve_db env ticketId userEmail w with h | ⟨r, h⟩
  · exact Store.keepsDrafts.of_eq h
  · rw [h]
    exact keepsDrafts_approvalWrites ticketId userEmail r w.db

theorem automateOpenLoop_keepsDrafts (env : Env) :
    ∀ (tickets : List TicketRow) (processed skipped : Nat) (w : World),
      (∀ t ∈ tickets, t.id ∈ w.db.tickets.map fun r => r.id) →
      w.db.keepsDrafts (automateOpenLoop env tickets processed skipped w).2.db
  | [], processed, skipped, w, _ => by
    rw [automateOpenLoop_nil_run]
    exact Store.keepsDrafts.same _
  | ticketRow :: rest, processed, skipped, w, h => by
    rw [automateOpenLoop_cons_run]
    by_cases hneg : w.db.hasNegotiation ticketRow.id = true
    · rw [if_pos hneg]
      exact automateOpenLoop_keepsDrafts env rest processed (skipped + 1) w
        (fun t ht => h t (List.mem_cons_of_mem _ ht))
    · rw [if_neg hneg]
      obtain ⟨committed, v, hres, _, hfalse, htrue⟩ := batchStep_result env ticketRow.toRef
        (((w.db.ticket_drafts.filter fun d => d.ticket_id = ticketRow.id).head?).map
          DraftRow.toDraft) w
      rw [hres]
      have hstep : w.db.keepsDrafts v.db ∧
          (v.db.tickets.map fun r => r.id) = w.db.tickets.map fun r => r.id := by
        cases committed with
        | false =>
          rw [hfalse rfl]
          exact ⟨Store.keepsDrafts.same _, rfl⟩
        | true =>
          obtain ⟨draft, debate, _, hdb⟩ := htrue rfl
          rw [hdb]
          refine ⟨keepsDrafts_automationWrites _ _ _ _ _ _ ?_
            (h ticketRow (List.mem_cons_self _ _)), ids_applyAll_automationWrites _ _ _ _ _ _⟩
          intro hsup
          apply head_filter_none
          cases hh : (w.db.ticket_drafts.filter fun d => d.ticket_id = ticketRow.id).head? with
          | none => exact hh
          | some d =>
            rw [hh] at hsup
            simp at hsup
      have hrest : ∀ t ∈ rest, t.id ∈ v.db.tickets.map fun r => r.id := by
        intro t ht
        rw [hstep.2]
        exact h t (List.mem_cons_of_mem _ ht)
      exact hstep.1.chain (automateOpenLoop_keepsDrafts env rest _ skipped v hrest)

theorem automateOpen_keepsDrafts (env : Env) (w : World) :
    w.db.keepsDrafts (automateOpen env w).2.db := by
  have hloop := automateOpenLoop_keepsDrafts env w.db.openTickets 0 0 w (by
    intro t ht
    exact List.mem_map.mpr ⟨t, (List.mem_filter.mp ht).1, rfl⟩)
  rw [automateOpen_run]
  by_cases hopen : w.db.openTickets = []
  · rw [if_pos hopen]
    exact Store.keepsDrafts.same _
  · rw [if_neg hopen]
    revert hloop
    generalize automateOpenLoop env w.db.openTickets 0 0 w = res
    intro hloop
    obtain ⟨r, v⟩ := res
    cases r with
    | error e => exact hloop
    | ok ps => exact hloop

theorem runOperations_keepsDrafts (env : Env) :
    ∀ (ops : List Operation) (w : World), w.db.keepsDrafts (runOperations env ops w).db
  | [], w => Store.keepsDrafts.same _
  | op :: rest, w => by
    have hstep : w.db.keepsDrafts (op.run env w).db := by
      cases op with
      | create req => exact createTicket_keepsDrafts env req w
      | batch => exact automateOpen_keepsDrafts env w
      | approve ticketId userEmail => exact approve_keepsDrafts env ticketId userEmail w
    exact hstep.chain (runOperations_keepsDrafts env rest (op.run env w))

/-- C23: one draft per ticket, never overwritten. Starting from a store in
which every ticket has at most one draft and every draft belongs to a ticket,
every sequence of ticket creations, batch runs and approvals, whatever the
environment does, leaves a store in which every ticket has at most one draft
and every draft belongs to a ticket; and the drafts of the store it leaves are
the drafts it started with, every field unchanged and in the same order,
followed by the drafts the sequence inserted. -/
theorem one_draft_per_ticket (env : Env) (ops : List Operation) (w : World)
    (hone : ∀ t ∈ w.db.tickets, w.db.draftCount t.id ≤ 1)
    (hown : w.db.draftsOwned = true) :
    (∀ t ∈ (runOperations env ops w).db.tickets,
      (runOperations env ops w).db.draftCount t.id ≤ 1) ∧
    (runOperations env ops w).db.draftsOwned = true ∧
    ∃ added, (runOperations env ops w).db.ticket_drafts = w.db.ticket_drafts ++ added := by
  obtain ⟨hadded, hinv⟩ := runOperations_keepsDrafts env ops w
  have hall : ∀ id, w.db.draftCount id ≤ 1 := by
    intro id
    by_cases hid : id ∈ w.db.tickets.map fun t => t.id
    · obtain ⟨t, ht, rfl⟩ := List.mem_map.mp hid
      exact hone t ht
    · rw [draftCount_eq_zero_of_not_owned w.db id hown hid]
      omega
  obtain ⟨g1, g2⟩ := hinv hall hown
  exact ⟨fun t _ => g1 t.id, g2, hadded⟩

/-- C23 at a concrete input: a creation, a batch run and an approval on the
store with two open tickets. -/
theorem one_draft_per_ticket_witness :
    (∀ t ∈ (runOperations quietEnv
        [.create (sampleRequest "Export is slow"), .batch, .approve 1 none]
        (worldOf twoOpenStore)).db.tickets,
      (runOperations quietEnv [.create (sampleRequest "Export is slow"), .batch, .approve 1 none]
        (worldOf twoOpenStore)).db.draftCount t.id ≤ 1) ∧
    (runOperations quietEnv [.create (sampleRequest "Export is slow"), .batch, .approve 1 none]
      (worldOf twoOpenStore)).db.draftsOwned = true ∧
    ∃ added, (runOperations quietEnv
        [.create (sampleRequest "Export is slow"), .batch, .approve 1 none]
        (worldOf twoOpenStore)).db.ticket_drafts = (worldOf twoOpenStore).db.ticket_drafts ++ added :=
  one_draft_per_ticket quietEnv [.create (sampleRequest "Export is slow"), .batch, .approve 1 none]
    (worldOf twoOpenStore) (by decide!) (by decide!)

end TicketResolver
